import Mathlib

/-!
# CubeSat flight-software core: response poll, sequence executor, beacon encoder,
basic telemetry, telemetry files, status-monitoring state machine

A shallow embedding of `CSresponsePoll.c`, `CSpendingProcess.c`, `CSbeacon.c`,
`csBasicTelemetry.c`, `CSstateStatusMonitoring.c` and `CSlogging.c` (the sampling loop
and the file functions), with a model of the replicated global store declared in
`Globals.h`.

Conventions of the embedding:

* unsigned machine integers are natural numbers; a wrap-around is written with an
  explicit `%` where the C arithmetic can overflow;
* a C array is a function from indices to elements, the `G_SET` of one slot is
  `Function.update`;
* `csunSatEpoch(getRTC())` is the parameter `now` of the functions that read the clock
  (the RTC driver is an external collaborator), constant during one call;
* a call of an external primitive (drivers, timers, power) is appended to a log of
  calls, oldest first;
* a read outside an array at an index that comes from data, a read of an uninitialised
  object, a division by zero and an exhausted loop budget are `none`.
-/

namespace CubeSat

/-! ## Data model -/

/-- Response-poll entry kinds, `response_cmd_type_t` of `CSresponsePoll.h`. -/
inductive response_cmd_type_t where
  | IMMEDIATE
  | PENDING
  | PENDING_COMPLETE
deriving DecidableEq

/-- One response-poll entry, `resp_poll_t` of `CSresponsePoll.h`
(`epoch : uint32_t`, `cmd_ID : uint16_t`, `type : 8 bits`, `status : uint8_t`). -/
structure resp_poll_t where
  epoch : Nat
  cmd_ID : Nat
  type : response_cmd_type_t
  status : Nat
deriving DecidableEq

/-- The response poll, `response_poll_t` of `CSresponsePoll.h`: the array
`poll_queue[66]` and the count `head : uint8_t`. -/
structure response_poll_t where
  poll_queue : Nat → resp_poll_t
  head : Nat

/-- Number of slots of `poll_queue`,
`sizeof(poll_queue)/sizeof(poll_queue[0])` in `CSresponsePoll.c`. -/
def POLL_SIZE : Nat := 66

/-- Modelled from the spec: the comparator of a condition (`CSpendingCommand.h` is not
among the sources); the five cases are those of the `switch` in `checkCond`. -/
inductive comparator_t where
  | LESS
  | LESS_EQ
  | EQUAL
  | GREATER_EQ
  | GREATER
deriving DecidableEq

/-- Modelled from the spec: a condition `(sensor_id, comparator, value : u32)`,
`condition_t` of the absent `CSpendingCommand.h`. -/
structure condition_t where
  sensor_id : Nat
  comparator : comparator_t
  value : Nat
deriving DecidableEq

/-- Modelled from the spec: the operator of a compound condition, the three cases of
the `switch` statements of `pendingProcess`. -/
inductive cond_op_t where
  | JUST
  | AND
  | OR
deriving DecidableEq

/-- Modelled from the spec: a compound condition `(left, op, right)`, `conditions_t`
of the absent `CSpendingCommand.h`. -/
structure conditions_t where
  left : condition_t
  op : cond_op_t
  right : condition_t
deriving DecidableEq

/-- Modelled from the spec: the opcodes handled by `decodeAndRunPending` (their numeric
values are in the absent command-parser headers); `OP_UNKNOWN` stands for every other
value. -/
inductive opcode_t where
  | OP_START_SEQUENCE
  | OP_LOAD_RADIO_CONFIGURATION
  | OP_RELOAD_RADIO_CONFIGURATION
  | OP_SET_SWITCH
  | OP_PROCESSOR_MODE
  | OP_CHECK_SD_CARD
  | OP_REFORMAT_SD
  | OP_END_SEQUENCE
  | OP_UNKNOWN (code : Nat)
deriving DecidableEq

/-- Modelled from the spec: a sequence command `(cmd_id : u16, opcode, wait, params)`,
`seq_command_t` of the absent `CSpendingCommand.h`; `params` keeps the raw parameter
bytes of the union. -/
structure seq_command_t where
  cmd_id : Nat
  opcode : opcode_t
  wait : conditions_t
  params : List Nat
deriving DecidableEq

/-- Modelled from the spec: the bounded FIFO command queue `PendCmdQueue` (its code is
not among the sources), oldest command first; `count` is the number of stored
commands. -/
structure PendCmdQueue where
  items : List seq_command_t
deriving DecidableEq

/-- The field `count` read by `pendingProcess`. -/
def PendCmdQueue.count (q : PendCmdQueue) : Nat := q.items.length

/-- Modelled from the spec: `PendCmdQueue_Count`. -/
def PendCmdQueue_Count (q : PendCmdQueue) : Nat := q.count

/-- Modelled from the spec: `PendCmdQueue_Peek`, a non-destructive read of the oldest
command; `none` when the queue is empty (the out-parameter is left as it was). -/
def PendCmdQueue_Peek (q : PendCmdQueue) : Option seq_command_t := q.items.head?

/-- Modelled from the spec: `PendCmdQueue_Dequeue`, which removes the oldest command. -/
def PendCmdQueue_Dequeue (q : PendCmdQueue) : PendCmdQueue := { items := q.items.tail }

/-- Modelled from the spec: `G_SET(csSequence.cmd_queue, NULL)`, the `clear` of the
global store, a write of zero bytes over the field: the empty queue. -/
def PendCmdQueue.cleared : PendCmdQueue := { items := [] }

/-- The sequence, `sequence_t`: the fields used by the executor. -/
structure sequence_t where
  cmd_queue : PendCmdQueue
  exit : conditions_t
  seq_ready_flag : Nat
  lastCmdTime : Nat

/-- Main states, `MainState` of `Globals.h`, numbered from `RESET_STATE = 1`. -/
inductive MainState where
  | RESET_STATE
  | STARTUP
  | SAFE_HOLD
  | COMMAND_RESPONSE
  | STATUS_MONITORING
  | ANOMALY
deriving DecidableEq

/-- Sub-states of status monitoring, `StatMonState` of `Globals.h`, numbered from
`DIAGNOSTIC_CHECK = 1`; `INVALID` stands for a stored value outside the enumeration
(the `default` case of the state machine). -/
inductive StatMonState where
  | DIAGNOSTIC_CHECK
  | ALL_QUIET
  | BEACON_ON
  | PENDING_PROCESS
  | INVALID (code : Nat)
deriving DecidableEq

/-- Modelled from the spec: the timer mode, `TimerMode` of the absent `CStimers.h`. `OFF`
(no timer armed) is the cleared value written by `G_SET(csState.timerMode, NULL)`;
`STATUS_MONITOR` is the mode under which the state machine arms its timeouts. -/
inductive TimerMode where
  | OFF
  | STATUS_MONITOR
  | OTHER (code : Nat)
deriving DecidableEq

/-- The fields of `csState` used by the embedded functions (`diagDay` is a `uint8_t`). -/
structure csStateX where
  mainState : MainState
  previousState : MainState
  statMonState : StatMonState
  statMonPrevState : StatMonState
  timerMode : TimerMode
  diagDay : Nat

/-- The last telemetry readings, `csLastTelemetryX`: `uint16 reading[44]`. -/
structure csLastTelemetryX where
  reading : Nat → Nat

/-- Number of readings of `csLastTelemetry.reading`. -/
def NUM_READINGS : Nat := 44

/-- The beacon fields of `GlobalX`: `beacon_enabled` and `char beaconMsg[31]`. -/
structure csBeaconX where
  beacon_enabled : Bool
  beaconMsg : Nat → Char

/-- Aggregate of one sensor, `csSingleBasicTelemetry` of `Globals.h`
(`n`, `hiVal`, `lowVal`, `avg` are `uint16`; `hiTime`, `lowTime` are `uint32`). -/
structure csSingleBasicTelemetry where
  n : Nat
  hiVal : Nat
  lowVal : Nat
  avg : Nat
  hiTime : Nat
  lowTime : Nat
deriving DecidableEq

/-- The basic telemetry, `csBasicTelemetryX` of `Globals.h`; `battDeltaTemp` (an `int16`)
is kept as its 16-bit pattern. -/
structure csBasicTelemetryX where
  csSingleTelemetry : Nat → csSingleBasicTelemetry
  anomalyModeTime : Nat → Nat
  battRecentTemp : Nat → Nat
  battDeltaTemp : Nat
  anomalyModeBasicInfo : Nat → Nat
  anomalyslot : Nat
  battSlot : Nat

/-- Modelled from the spec: the mode of the radio link, `link_mode_t` of the absent
`CSlink.h`; the specification names the value `ACTIVE`, `OTHER` stands for every other
value. -/
inductive link_mode_t where
  | LINK_ACTIVE
  | OTHER (code : Nat)
deriving DecidableEq

/-- The field `mode` of `csLink`. -/
structure csLinkX where
  mode : link_mode_t

/-- The part of `GlobalX` (`Globals.h`) read and written by the embedded functions. -/
structure GlobalX where
  csBasicTelemetry : csBasicTelemetryX
  csLastTelemetry : csLastTelemetryX
  csSequence : sequence_t
  csResponsePoll : response_poll_t
  csState : csStateX
  csLink : csLinkX
  csBeacon : csBeaconX

/-- The timeout callbacks of `CSstateStatusMonitoring.c`, the functions whose address is
passed to `setTimeout`. -/
inductive CallbackFunction where
  | statMonStateDiagnosticCheck
  | statMonStateAllQuiet
  | statMonStateBeaconOn
deriving DecidableEq

/-- Calls that leave the embedded state: the payload reset hook, the execution of a
sequence command by `decodeAndRunPending` (whose drivers are external), and the
power, beacon, timer and anomaly primitives called by the state machine. -/
inductive hw_call where
  | resetPayload
  | decodeAndRunPending (cmd : seq_command_t)
  | powerSavingOff
  | beaconPowerOff
  | beaconPowerOn
  | beaconSend
  | setTimeout (ticks : Nat) (callback : CallbackFunction) (mode : TimerMode)
  | anomalyChange
deriving DecidableEq

/-- The global store together with the log of external calls, oldest first. -/
structure World where
  g : GlobalX
  calls : List hw_call

/-- Position `SOFTWARE_STATE` of `beacon_msg_index_t` (`CSbeacon.h`). -/
def SOFTWARE_STATE : Nat := 0

/-- Modelled from the spec: reserved sensor id `RELATIVE_TIME = 254`
(`PSENSOR_COMMAND_RELATIVE_TIME` of the absent header; `pendingProcess` tests the
literal 254). -/
def PSENSOR_COMMAND_RELATIVE_TIME : Nat := 254

/-- Modelled from the spec: reserved sensor id `ABSOLUTE_TIME = 255`
(`PSENSOR_ABSOLUTE_TIME` of the absent header; `pendingProcess` writes the literal
255). -/
def PSENSOR_ABSOLUTE_TIME : Nat := 255

/-! ## CSresponsePoll.c -/

/-- `initResponsePoll`: `G_SET(csResponsePoll.head, NULL)` clears the count. -/
def initResponsePoll (s : response_poll_t) : response_poll_t :=
  { s with head := 0 }

/-- The shuffle loop of `respPollSysDelete` and `respPollUserDelete`:
`for(; i < head - 1; i++) poll_queue[i] = poll_queue[i+1]`. The bound `head - 1` is
computed in `int`, so the test reads `i + 1 < head`; the budget is the number of slots
left to visit. -/
def respPollSysDelete.shuffle (head : Nat) :
    Nat → Nat → (Nat → resp_poll_t) → (Nat → resp_poll_t)
  | 0, _, q => q
  | fuel + 1, i, q =>
    if i + 1 < head then
      respPollSysDelete.shuffle head fuel (i + 1) (Function.update q i (q (i + 1)))
    else q

/-- `respPollSysDelete` of `CSresponsePoll.c`: when `index <= head` the later entries
are shuffled down, `head` becomes `(uint8_t)(head - 1)` and `true` is returned;
otherwise `false`. -/
def respPollSysDelete (index : Nat) (s : response_poll_t) : Bool × response_poll_t :=
  if index ≤ s.head then
    (true,
      { poll_queue := respPollSysDelete.shuffle s.head s.head index s.poll_queue,
        head := (s.head + 255) % 256 })
  else (false, s)

/-- The scan of `respPollEnqueue`: `for(i=0; i<head; i++)` over the local copy `head`
(which is 66 here), deleting the first `IMMEDIATE` entry and ending the loop
(`i = head`). -/
def respPollEnqueue.scan (head : Nat) : Nat → Nat → response_poll_t → response_poll_t
  | 0, _, s => s
  | fuel + 1, i, s =>
    if i < head then
      if (s.poll_queue i).type = response_cmd_type_t.IMMEDIATE then
        (respPollSysDelete i s).2
      else respPollEnqueue.scan head fuel (i + 1) s
    else s

/-- `respPollEnqueue` of `CSresponsePoll.c`: a full poll first loses its oldest
`IMMEDIATE` entry, if any; the new item is stored at `head` if there is room. -/
def respPollEnqueue (newest : resp_poll_t) (s : response_poll_t) : response_poll_t :=
  let s1 := if s.head = POLL_SIZE then respPollEnqueue.scan s.head s.head 0 s else s
  if s1.head < POLL_SIZE then
    { poll_queue := Function.update s1.poll_queue s1.head newest,
      head := s1.head + 1 }
  else s1

/-- The scan of `respPollUpdatePending`: deletes the first entry whose `cmd_ID` is
`cmd_ID` and ends the loop (`i = head`; the `i++` that follows leaves the loop because
`head < 255`). -/
def respPollUpdatePending.scan (cmd_ID : Nat) (head : Nat) :
    Nat → Nat → response_poll_t → response_poll_t
  | 0, _, s => s
  | fuel + 1, i, s =>
    if i < head then
      if (s.poll_queue i).cmd_ID = cmd_ID then
        (respPollSysDelete i s).2
      else respPollUpdatePending.scan cmd_ID head fuel (i + 1) s
    else s

/-- `respPollUpdatePending` of `CSresponsePoll.c`: the first entry with the same
`cmd_ID` is removed, then `update` is enqueued. -/
def respPollUpdatePending (update : resp_poll_t) (s : response_poll_t) : response_poll_t :=
  respPollEnqueue update (respPollUpdatePending.scan update.cmd_ID s.head s.head 0 s)

/-- The loop of `respPollAbort`: `for(i=0; i<head; i++)` re-reading `head` at every
test; an entry of type `PENDING` with status 42 is rewritten through
`respPollUpdatePending` and the index is stepped back (`i--` then `i++`, on a
`uint16_t`, leaves `i` where it was). `none` when the budget `fuel` runs out. -/
def respPollAbort.loop (abortLine : resp_poll_t) :
    Nat → Nat → response_poll_t → Option response_poll_t
  | 0, _, _ => none
  | fuel + 1, i, s =>
    if i < s.head then
      if (s.poll_queue i).type = response_cmd_type_t.PENDING ∧ (s.poll_queue i).status = 42 then
        respPollAbort.loop abortLine fuel i
          (respPollUpdatePending { abortLine with cmd_ID := (s.poll_queue i).cmd_ID } s)
      else respPollAbort.loop abortLine fuel (i + 1) s
    else some s

/-- The abort line built by `respPollAbort`: `status = 0 - status` as a `uint8_t`,
`cmd_ID = 0xFFFE`. -/
def abortMarker (status time : Nat) : resp_poll_t :=
  { epoch := time
    type := response_cmd_type_t.PENDING_COMPLETE
    status := (256 - status % 256) % 256
    cmd_ID := 0xFFFE }

/-- `respPollAbort` of `CSresponsePoll.c`: the abort line is enqueued, then every
unexecuted pending entry is rewritten. The loop runs with a budget of
`2 * head + 1` iterations. -/
def respPollAbort (status time : Nat) (s : response_poll_t) : Option response_poll_t :=
  let s1 := respPollEnqueue (abortMarker status time) s
  respPollAbort.loop (abortMarker status time) (2 * s1.head + 1) 0 s1

/-- The entries of the poll in index order, `poll_queue[0 .. head-1]`. -/
def queue (s : response_poll_t) : List resp_poll_t :=
  (List.range s.head).map s.poll_queue

/-- Test for the type `IMMEDIATE`. -/
def isImmediate (e : resp_poll_t) : Bool :=
  decide (e.type = response_cmd_type_t.IMMEDIATE)

/-- Test for the type `PENDING`. -/
def isPending (e : resp_poll_t) : Bool :=
  decide (e.type = response_cmd_type_t.PENDING)

/-- Test for an unexecuted pending entry: type `PENDING` and status 42. -/
def isUnexecuted (e : resp_poll_t) : Bool :=
  decide (e.type = response_cmd_type_t.PENDING ∧ e.status = 42)

/-- Test for a given command id. -/
def hasId (cmd_ID : Nat) (e : resp_poll_t) : Bool :=
  decide (e.cmd_ID = cmd_ID)

/-- List view of `respPollEnqueue`. -/
def enqueueL (e : resp_poll_t) (l : List resp_poll_t) : List resp_poll_t :=
  let l1 := if l.length = POLL_SIZE then l.eraseP isImmediate else l
  if l1.length < POLL_SIZE then l1 ++ [e] else l1

/-- List view of `respPollUpdatePending`. -/
def updatePendingL (e : resp_poll_t) (l : List resp_poll_t) : List resp_poll_t :=
  enqueueL e (l.eraseP (hasId e.cmd_ID))

/-- List view of the loop of `respPollAbort`. -/
def abortLoopL (abortLine : resp_poll_t) :
    Nat → Nat → List resp_poll_t → Option (List resp_poll_t)
  | 0, _, _ => none
  | fuel + 1, i, l =>
    if h : i < l.length then
      if isUnexecuted l[i] then
        abortLoopL abortLine fuel i (updatePendingL { abortLine with cmd_ID := l[i].cmd_ID } l)
      else abortLoopL abortLine fuel (i + 1) l
    else some l

/-! ## CSbeacon.c -/

/-- `intToBeaconChar` of `CSbeacon.c`: values 0..23 become letters (skipping `E` and
`T`), 24..33 become digits, anything else is `'A'`. -/
def intToBeaconChar (val : Nat) : Char :=
  if val ≥ 34 then 'A'
  else
    if val < 24 then
      let ret := val + 65
      if ret ≥ 'S'.toNat then Char.ofNat (ret + 2)
      else if ret ≥ 'E'.toNat then Char.ofNat (ret + 1)
      else Char.ofNat ret
    else Char.ofNat (val + 24)

/-- `beaconMsgUpdateSingle` of `CSbeacon.c`: a character outside `0-9`, `A-Z` is
discarded, `E` and `T` are bumped up by one, the result is stored at `index`. -/
def beaconMsgUpdateSingle (index : Nat) (val : Char) (g : GlobalX) : GlobalX :=
  if val < '0' then g
  else if val > '9' ∧ val < 'A' then g
  else if val > 'Z' then g
  else
    let val1 := if val = 'E' ∨ val = 'T' then Char.ofNat (val.toNat + 1) else val
    { g with csBeacon := { g.csBeacon with
        beaconMsg := Function.update g.csBeacon.beaconMsg index val1 } }

/-! ## CSstateStatusMonitoring.c -/

/-- `changeStatMonState`: the current sub-state is saved as the previous one and
`newState` becomes the current one. -/
def changeStatMonState (newState : StatMonState) (g : GlobalX) : GlobalX :=
  let g1 := { g with csState := { g.csState with statMonPrevState := g.csState.statMonState } }
  { g1 with csState := { g1.csState with statMonState := newState } }

/-- `statMonStateToPrevious`: goes back to the saved sub-state. -/
def statMonStateToPrevious (g : GlobalX) : GlobalX :=
  let reverting := g.csState.statMonPrevState
  changeStatMonState reverting g

/-! ## CSpendingProcess.c -/

/-- `abortSequence`: clears the command queue and rewrites the response poll. -/
def abortSequence (status time : Nat) (g : GlobalX) : Option GlobalX :=
  let g1 := { g with csSequence := { g.csSequence with cmd_queue := PendCmdQueue.cleared } }
  (respPollAbort status time g1.csResponsePoll).map
    (fun p => { g1 with csResponsePoll := p })

/-- The sensor value read by `checkCond`: elapsed time since the last command (an
unsigned 32-bit subtraction) for the relative-time id, the current time for the
absolute-time id, otherwise `csLastTelemetry.reading[sensor_id]`, which exists only
for `sensor_id < 44`. -/
def checkCond.sensor_val (now : Nat) (g : GlobalX) (evaluating : condition_t) : Option Nat :=
  if evaluating.sensor_id = PSENSOR_COMMAND_RELATIVE_TIME then
    some ((now + (4294967296 - g.csSequence.lastCmdTime % 4294967296)) % 4294967296)
  else if evaluating.sensor_id = PSENSOR_ABSOLUTE_TIME then
    some now
  else if evaluating.sensor_id < NUM_READINGS then
    some (g.csLastTelemetry.reading evaluating.sensor_id)
  else none

/-- `checkCond` of `CSpendingProcess.c`: compares the sensor value with the
condition's value. -/
def checkCond (now : Nat) (g : GlobalX) (evaluating : condition_t) : Option Bool :=
  (checkCond.sensor_val now g evaluating).map fun sensor_val =>
    match evaluating.comparator with
    | comparator_t.LESS => decide (sensor_val < evaluating.value)
    | comparator_t.LESS_EQ => decide (sensor_val ≤ evaluating.value)
    | comparator_t.EQUAL => decide (sensor_val = evaluating.value)
    | comparator_t.GREATER_EQ => decide (sensor_val ≥ evaluating.value)
    | comparator_t.GREATER => decide (sensor_val > evaluating.value)

/-- The `switch` on the operator of a compound condition, written twice in
`pendingProcess` (for the exit condition and for the wait condition). It yields
`result` and the new value of `updating.status`; `status` is the value the variable
holds before the `switch`. `&&` and `||` evaluate their right operand only when
needed. -/
def pendingProcess.evalSwitch (now : Nat) (g : GlobalX) (c : conditions_t) (status : Nat) :
    Option (Bool × Nat) :=
  match c.op with
  | cond_op_t.JUST =>
    (checkCond now g c.left).map fun result => (result, 1)
  | cond_op_t.AND =>
    (checkCond now g c.left).bind fun l =>
      (if l then checkCond now g c.right else some false).map fun result => (result, 2)
  | cond_op_t.OR =>
    (checkCond now g c.left).bind fun l =>
      let status1 := if l then 3 else status
      (if l then some true else checkCond now g c.right).map fun (result : Bool) =>
        if result = true ∧ status1 ≠ 3 then (result, 4)
        else if result then (result, 5)
        else (result, status1)

/-- The normalisation of the exit condition at the start of `pendingProcess`: a
relative-time side (sensor id 254) becomes an absolute-time side (sensor id 255) with
`value += time` on 32 bits; the right side only when `op != JUST`. Every change of
the local copy is written back with `G_SET(csSequence.exit, &exitCheck)`. -/
def pendingProcess.normalize (time : Nat) (g : GlobalX) : GlobalX :=
  let exitCheck := g.csSequence.exit
  let exitCheck1 :=
    if exitCheck.left.sensor_id = 254 then
      { exitCheck with left := { exitCheck.left with
          value := (exitCheck.left.value + time) % 4294967296, sensor_id := 255 } }
    else exitCheck
  let g1 :=
    if exitCheck.left.sensor_id = 254 then
      { g with csSequence := { g.csSequence with exit := exitCheck1 } }
    else g
  if exitCheck1.op ≠ cond_op_t.JUST then
    if exitCheck1.right.sensor_id = 254 then
      let exitCheck2 := { exitCheck1 with right := { exitCheck1.right with
          value := (exitCheck1.right.value + time) % 4294967296, sensor_id := 255 } }
      { g1 with csSequence := { g1.csSequence with exit := exitCheck2 } }
    else g1
  else g1

/-- `decodeAndRunPending` of `CSpendingProcess.c`: the command is handed to its driver
(logged as an external call); `OP_END_SEQUENCE` also sets the software-state
character of the beacon to `'C'`. -/
def decodeAndRunPending (cmd : seq_command_t) (w : World) : World :=
  let w1 : World := { w with calls := w.calls ++ [hw_call.decodeAndRunPending cmd] }
  match cmd.opcode with
  | opcode_t.OP_END_SEQUENCE => { w1 with g := beaconMsgUpdateSingle SOFTWARE_STATE 'C' w1.g }
  | _ => w1

/-- The branch of `pendingProcess` taken when the wait condition holds: dequeue,
execute, update the response poll, and record the time when the next command waits on
a relative time. -/
def pendingProcess.execute (time : Nat) (w : World) : Option World :=
  (PendCmdQueue_Peek w.g.csSequence.cmd_queue).map fun pendingCmd =>
    let queueTemp := PendCmdQueue_Dequeue w.g.csSequence.cmd_queue
    let w1 : World := { w with g := { w.g with csSequence := { w.g.csSequence with
        cmd_queue := queueTemp } } }
    let w2 := decodeAndRunPending pendingCmd w1
    let updating : resp_poll_t :=
      { epoch := time
        cmd_ID := pendingCmd.cmd_id
        type := response_cmd_type_t.PENDING_COMPLETE
        status := 0 }
    let g3 := { w2.g with csResponsePoll := respPollUpdatePending updating w2.g.csResponsePoll }
    let g4 :=
      if PendCmdQueue_Count g3.csSequence.cmd_queue > 0 then
        match PendCmdQueue_Peek g3.csSequence.cmd_queue with
        | some next =>
          if next.wait.left.sensor_id = 254 ∨
              (next.wait.op ≠ cond_op_t.JUST ∧ next.wait.right.sensor_id = 254) then
            { g3 with csSequence := { g3.csSequence with lastCmdTime := time } }
          else g3
        | none => g3
      else g3
    { w2 with g := g4 }

/-- The body of `pendingProcess` for a ready sequence. `status0` is the content of the
uninitialised `updating.status`. -/
def pendingProcess.body (now : Nat) (status0 : Nat) (w : World) : Option World :=
  let time := now
  let g1 := pendingProcess.normalize time w.g
  (PendCmdQueue_Peek g1.csSequence.cmd_queue).bind fun pendingCmd =>
    let exitCheck := g1.csSequence.exit
    (pendingProcess.evalSwitch now g1 exitCheck status0).bind fun (result, status) =>
      if result then
        let calls1 := w.calls ++ [hw_call.resetPayload]
        (abortSequence status time g1).map fun g2 =>
          { g := beaconMsgUpdateSingle SOFTWARE_STATE 'D' g2, calls := calls1 }
      else
        (pendingProcess.evalSwitch now g1 pendingCmd.wait status).bind fun (result1, _) =>
          if result1 then pendingProcess.execute time { w with g := g1 }
          else some { w with g := g1 }

/-- `pendingProcess` of `CSpendingProcess.c`, at clock value `now`: a ready sequence
(commands loaded and ready flag set) is stepped once; then a sub-state
`PENDING_PROCESS` is reverted to the previous sub-state. The change of CPU priority
around the body has no effect on the embedded state. -/
def pendingProcess (now : Nat) (status0 : Nat) (w : World) : Option World :=
  (if w.g.csSequence.cmd_queue.count > 0 ∧ w.g.csSequence.seq_ready_flag ≠ 0 then
    pendingProcess.body now status0 w
  else some w).map fun w1 =>
    if w1.g.csState.statMonState = StatMonState.PENDING_PROCESS then
      { w1 with g := statMonStateToPrevious w1.g }
    else w1

/-- The 34-symbol beacon alphabet of the specification: `0..9` and `A..Z` without `E`
and `T`. -/
def beaconAlphabet : List Char :=
  ((List.range 10).map (fun i => Char.ofNat (48 + i)) ++
    (List.range 26).map (fun i => Char.ofNat (65 + i))).filter
      (fun c => c != 'E' && c != 'T')

/-- Rank of a character in the order in which `intToBeaconChar` enumerates the
alphabet: the letters `A..Z` first, then the digits `0..9`. -/
def beaconRank (c : Char) : Nat :=
  if c.toNat < 65 then c.toNat + 43 else c.toNat

/-! ## Predicates of the statements and example states -/

/-- The relation kept along the abort loop: an entry that is not pending does not
carry the command id of a pending entry behind it. -/
def firstOfId (a b : resp_poll_t) : Prop :=
  b.type = response_cmd_type_t.PENDING → a.type ≠ response_cmd_type_t.PENDING →
    a.cmd_ID ≠ b.cmd_ID

/-- A condition whose evaluation stays inside the embedded state: a sensor id below 44
or one of the two reserved time ids. -/
def validCond (c : condition_t) : Prop :=
  c.sensor_id < 44 ∨ c.sensor_id = 254 ∨ c.sensor_id = 255

/-- A compound condition whose evaluated sides are valid; the right side counts only
when the operator is not `JUST`. -/
def validConds (c : conditions_t) : Prop :=
  validCond c.left ∧ (c.op ≠ cond_op_t.JUST → validCond c.right)

/-- The comparison a comparator stands for, on natural numbers:
`<`, `<=`, `=`, `>=`, `>`. -/
def cmpHolds : comparator_t → Nat → Nat → Prop
  | comparator_t.LESS, a, b => a < b
  | comparator_t.LESS_EQ, a, b => a ≤ b
  | comparator_t.EQUAL, a, b => a = b
  | comparator_t.GREATER_EQ, a, b => a ≥ b
  | comparator_t.GREATER, a, b => a > b

/-- The poll that holds the entries of `l` in its first slots. -/
def pollOfList (l : List resp_poll_t) : response_poll_t :=
  { poll_queue := fun i =>
      l.getD i { epoch := 0, cmd_ID := 0, type := response_cmd_type_t.IMMEDIATE, status := 0 }
    head := l.length }

/-- A full poll: 40 `PENDING` entries, then 26 `IMMEDIATE` entries. -/
def pollS5 : response_poll_t :=
  { poll_queue := fun i =>
      if i < 40 then
        { epoch := 0, cmd_ID := i, type := response_cmd_type_t.PENDING, status := 42 }
      else { epoch := 0, cmd_ID := i, type := response_cmd_type_t.IMMEDIATE, status := 0 }
    head := 66 }

/-- A poll in which an `IMMEDIATE` entry and a later `PENDING` entry share a `cmd_ID`. -/
def pollDuplicateId : response_poll_t :=
  pollOfList
    [{ epoch := 10, cmd_ID := 5, type := response_cmd_type_t.IMMEDIATE, status := 0 },
     { epoch := 20, cmd_ID := 5, type := response_cmd_type_t.PENDING, status := 42 }]

/-- A poll with a `PENDING` entry whose status is not 42. -/
def pollOddStatus : response_poll_t :=
  pollOfList [{ epoch := 10, cmd_ID := 7, type := response_cmd_type_t.PENDING, status := 0 }]

/-- A poll with one `IMMEDIATE` entry and two unexecuted `PENDING` entries. -/
def pollTwoPending : response_poll_t :=
  pollOfList
    [{ epoch := 10, cmd_ID := 3, type := response_cmd_type_t.IMMEDIATE, status := 0 },
     { epoch := 20, cmd_ID := 5, type := response_cmd_type_t.PENDING, status := 42 },
     { epoch := 21, cmd_ID := 6, type := response_cmd_type_t.PENDING, status := 42 }]

/-- A global store with every field at rest: cleared basic telemetry, empty command
queue, empty response poll, all readings 0, no timer armed, the beacon message at its
default of all `'A'`. -/
def zeroGlobal : GlobalX :=
  { csBasicTelemetry :=
      { csSingleTelemetry := fun _ =>
          { n := 0, hiVal := 0, lowVal := 0, avg := 0, hiTime := 0, lowTime := 0 }
        anomalyModeTime := fun _ => 0
        battRecentTemp := fun _ => 0
        battDeltaTemp := 0
        anomalyModeBasicInfo := fun _ => 0
        anomalyslot := 0
        battSlot := 0 }
    csLastTelemetry := { reading := fun _ => 0 }
    csSequence :=
      { cmd_queue := { items := [] }
        exit :=
          { left := { sensor_id := 0, comparator := comparator_t.LESS, value := 0 }
            op := cond_op_t.JUST
            right := { sensor_id := 0, comparator := comparator_t.LESS, value := 0 } }
        seq_ready_flag := 0
        lastCmdTime := 0 }
    csResponsePoll :=
      { poll_queue := fun _ => { epoch := 0, cmd_ID := 0, type := response_cmd_type_t.IMMEDIATE, status := 0 }
        head := 0 }
    csState :=
      { mainState := MainState.STATUS_MONITORING
        previousState := MainState.STARTUP
        statMonState := StatMonState.PENDING_PROCESS
        statMonPrevState := StatMonState.ALL_QUIET
        timerMode := TimerMode.OFF
        diagDay := 0 }
    csLink := { mode := link_mode_t.OTHER 0 }
    csBeacon := { beacon_enabled := true, beaconMsg := fun _ => 'A' } }

/-- A sequence command whose wait condition is the single condition `left`. -/
def cmdAfter (cmd_id : Nat) (opcode : opcode_t) (left : condition_t) : seq_command_t :=
  { cmd_id := cmd_id
    opcode := opcode
    wait := { left := left, op := cond_op_t.JUST, right := left }
    params := [] }

/-- Scenario S1: exit condition `reading[10] > 500`, two queued commands. -/
def worldS1 (poll : response_poll_t) : World :=
  { g := { zeroGlobal with
      csLastTelemetry := { reading := fun i => if i = 10 then 600 else 0 }
      csSequence :=
        { cmd_queue := { items :=
            [cmdAfter 21 opcode_t.OP_START_SEQUENCE
               { sensor_id := 255, comparator := comparator_t.GREATER_EQ, value := 0 },
             cmdAfter 22 opcode_t.OP_END_SEQUENCE
               { sensor_id := 255, comparator := comparator_t.GREATER_EQ, value := 0 }] }
          exit :=
            { left := { sensor_id := 10, comparator := comparator_t.GREATER, value := 500 }
              op := cond_op_t.JUST
              right := { sensor_id := 0, comparator := comparator_t.LESS, value := 0 } }
          seq_ready_flag := 1
          lastCmdTime := 0 }
      csResponsePoll := poll }
    calls := [] }

/-- A full poll of 66 `PENDING_COMPLETE` entries. -/
def pollFullComplete : response_poll_t :=
  { poll_queue := fun _ => { epoch := 0, cmd_ID := 1, type := response_cmd_type_t.PENDING_COMPLETE, status := 0 }
    head := 66 }

/-- The two commands of scenario S1 as unexecuted pending entries. -/
def pollS1 : response_poll_t :=
  pollOfList
    [{ epoch := 5, cmd_ID := 21, type := response_cmd_type_t.PENDING, status := 42 },
     { epoch := 6, cmd_ID := 22, type := response_cmd_type_t.PENDING, status := 42 }]

/-- Scenario S2: one command waiting for 30 s of relative time, last command at 100; the
exit condition `reading[10] > 500` is false. -/
def worldS2 : World :=
  { g := { zeroGlobal with
      csSequence :=
        { cmd_queue := { items :=
            [cmdAfter 31 opcode_t.OP_CHECK_SD_CARD
               { sensor_id := 254, comparator := comparator_t.GREATER_EQ, value := 30 }] }
          exit :=
            { left := { sensor_id := 10, comparator := comparator_t.GREATER, value := 500 }
              op := cond_op_t.JUST
              right := { sensor_id := 0, comparator := comparator_t.LESS, value := 0 } }
          seq_ready_flag := 1
          lastCmdTime := 100 }
      csResponsePoll :=
        pollOfList [{ epoch := 90, cmd_ID := 31, type := response_cmd_type_t.PENDING, status := 42 }] }
    calls := [] }

/-- Test for the execution of a sequence command among the external calls. -/
def isDispatch : hw_call → Bool
  | hw_call.decodeAndRunPending _ => true
  | _ => false

/-- A world on which `pendingProcess` reads only inside the embedded state: the poll
count is at most 66 and the exit condition and the wait condition of the head command
are valid. -/
def executable (w : World) : Prop :=
  w.g.csResponsePoll.head ≤ 66 ∧ validConds w.g.csSequence.exit ∧
    ∀ cmd, PendCmdQueue_Peek w.g.csSequence.cmd_queue = some cmd → validConds cmd.wait

/-- The exit condition needs no normalisation: no evaluated side is a relative time. -/
def exitNormal (e : conditions_t) : Prop :=
  e.left.sensor_id ≠ 254 ∧ (e.op ≠ cond_op_t.JUST → e.right.sensor_id ≠ 254)

/-- Scenario with relative-time exit condition on both sides. -/
def worldRelativeExit : World :=
  { g := { zeroGlobal with
      csSequence :=
        { cmd_queue := { items :=
            [cmdAfter 41 opcode_t.OP_SET_SWITCH
               { sensor_id := 255, comparator := comparator_t.GREATER_EQ, value := 5000 }] }
          exit :=
            { left := { sensor_id := 254, comparator := comparator_t.GREATER, value := 600 }
              op := cond_op_t.OR
              right := { sensor_id := 254, comparator := comparator_t.GREATER_EQ, value := 900 } }
          seq_ready_flag := 1
          lastCmdTime := 100 } }
    calls := [] }

/-- A sequence whose exit condition is `reading[10] > 500 OR reading[11] > 500`, with
`reading[10] = 600` and `reading[11] = 0`: only the left side holds. -/
def worldOrLeftOnly : World :=
  { g := { zeroGlobal with
      csLastTelemetry := { reading := fun i => if i = 10 then 600 else 0 }
      csSequence :=
        { cmd_queue := { items :=
            [cmdAfter 51 opcode_t.OP_START_SEQUENCE
               { sensor_id := 255, comparator := comparator_t.GREATER_EQ, value := 0 }] }
          exit :=
            { left := { sensor_id := 10, comparator := comparator_t.GREATER, value := 500 }
              op := cond_op_t.OR
              right := { sensor_id := 11, comparator := comparator_t.GREATER, value := 500 } }
          seq_ready_flag := 1
          lastCmdTime := 0 } }
    calls := [] }

/-- Inverse of `intToBeaconChar` on `[0,34)`: the first value mapped to the character. -/
def beaconCharToInt (c : Char) : Nat :=
  (List.range 34).findIdx (fun v => intToBeaconChar v == c)

/-! ## Beacon update, response-poll delete and serialisation, basic telemetry -/

/-- Positions of `beacon_msg_index_t` (`CSbeacon.h`) written by
`beaconMsgUpdateTelemetry`. -/
def SC_BATT_V : Nat := 6
def SC_BATT_A : Nat := 7
def SC_BATT_T : Nat := 8
def PL_BATT_V : Nat := 9
def PL_BATT_A : Nat := 10
def PL_BATT_T : Nat := 11
def V3d3_V : Nat := 12
def V3d3_A : Nat := 13
def V3d3_SW1_V : Nat := 14
def V3d3_SW1_A : Nat := 15
def V3d3_SW2_V : Nat := 16
def V3d3_SW2_A : Nat := 17
def V3d3_SW3_V : Nat := 18
def V3d3_SW3_A : Nat := 19
def V3d3_SW4_V : Nat := 20
def V3d3_SW4_A : Nat := 21
def V5_V : Nat := 22
def V5_A : Nat := 23
def V5_SW5_V : Nat := 24
def V5_SW5_A : Nat := 25
def V12_V : Nat := 26
def V12_A : Nat := 27
def V12_SW6_V : Nat := 28
def V12_SW6_A : Nat := 29
def RADIO_T : Nat := 30

/-- Length of `csBeacon.beaconMsg`. -/
def BEACON_MSG_LEN : Nat := 31

/-- `G_SET(csBeacon.beaconMsg[index], &val)`. -/
def setBeaconChar (index : Nat) (val : Char) (g : GlobalX) : GlobalX :=
  { g with csBeacon := { g.csBeacon with
      beaconMsg := Function.update g.csBeacon.beaconMsg index val } }

/-- `beaconMsgInit` of `CSbeacon.c`: the 31 characters are set to `'A'`. -/
def beaconMsgInit (g : GlobalX) : GlobalX :=
  { g with csBeacon := { g.csBeacon with
      beaconMsg := fun i => if i < BEACON_MSG_LEN then 'A' else g.csBeacon.beaconMsg i } }

/-- `getTempChar` of `CSbeacon.c`. `int16_t temp = reading[index] - 1385` is kept as its
16-bit pattern `(reading + 65536 - 1385) mod 2^16`: `temp <= 0` is pattern 0 or a
pattern with the sign bit set; a positive `temp` is shifted right by 5 and clamped to
33. -/
def getTempChar (index : Nat) (g : GlobalX) : Char :=
  let temp := (g.csLastTelemetry.reading index + 64151) % 65536
  if temp = 0 ∨ temp ≥ 32768 then intToBeaconChar 0
  else
    let temp1 := temp / 32
    if temp1 ≥ 33 then intToBeaconChar 33
    else intToBeaconChar temp1

/-- One count statement of `beaconMsgUpdateTelemetry`:
`tempChar = intToBeaconChar(reading[source] >> 7); G_SET(beaconMsg[position], &tempChar)`. -/
def beaconMsgUpdateTelemetry.count (position source : Nat) (g : GlobalX) : GlobalX :=
  setBeaconChar position (intToBeaconChar (g.csLastTelemetry.reading source >>> 7)) g

/-- One temperature statement of `beaconMsgUpdateTelemetry`:
`tempChar = getTempChar(source); G_SET(beaconMsg[position], &tempChar)`. -/
def beaconMsgUpdateTelemetry.temp (position source : Nat) (g : GlobalX) : GlobalX :=
  setBeaconChar position (getTempChar source g) g

/-- `beaconMsgUpdateTelemetry` of `CSbeacon.c`: positions 6..30 are recomputed from
`csLastTelemetry`, in the order of the source. -/
def beaconMsgUpdateTelemetry (g : GlobalX) : GlobalX :=
  let g1 := beaconMsgUpdateTelemetry.count SC_BATT_V 19 g
  let g2 := beaconMsgUpdateTelemetry.count SC_BATT_A 20 g1
  let g3 := beaconMsgUpdateTelemetry.temp SC_BATT_T 21 g2
  let g4 := beaconMsgUpdateTelemetry.count PL_BATT_V 26 g3
  let g5 := beaconMsgUpdateTelemetry.count PL_BATT_A 27 g4
  let g6 := beaconMsgUpdateTelemetry.temp PL_BATT_T 28 g5
  let g7 := beaconMsgUpdateTelemetry.count V3d3_V 16 g6
  let g8 := beaconMsgUpdateTelemetry.count V3d3_A 15 g7
  let g9 := beaconMsgUpdateTelemetry.count V3d3_SW1_V 43 g8
  let g10 := beaconMsgUpdateTelemetry.count V3d3_SW1_A 42 g9
  let g11 := beaconMsgUpdateTelemetry.count V3d3_SW2_V 41 g10
  let g12 := beaconMsgUpdateTelemetry.count V3d3_SW2_A 40 g11
  let g13 := beaconMsgUpdateTelemetry.count V3d3_SW3_V 39 g12
  let g14 := beaconMsgUpdateTelemetry.count V3d3_SW3_A 38 g13
  let g15 := beaconMsgUpdateTelemetry.count V3d3_SW4_V 18 g14
  let g16 := beaconMsgUpdateTelemetry.count V3d3_SW4_A 17 g15
  let g17 := beaconMsgUpdateTelemetry.count V5_V 12 g16
  let g18 := beaconMsgUpdateTelemetry.count V5_A 11 g17
  let g19 := beaconMsgUpdateTelemetry.count V5_SW5_V 14 g18
  let g20 := beaconMsgUpdateTelemetry.count V5_SW5_A 13 g19
  let g21 := beaconMsgUpdateTelemetry.count V12_V 8 g20
  let g22 := beaconMsgUpdateTelemetry.count V12_A 7 g21
  let g23 := beaconMsgUpdateTelemetry.count V12_SW6_V 10 g22
  let g24 := beaconMsgUpdateTelemetry.count V12_SW6_A 9 g23
  beaconMsgUpdateTelemetry.temp RADIO_T 24 g24

/-- A character of the ranges `0-9` and `A-Z`. -/
def inBeaconRange (c : Char) : Prop :=
  ('0' ≤ c ∧ c ≤ '9') ∨ ('A' ≤ c ∧ c ≤ 'Z')

/-- A character allowed in the beacon: in `0-9` or `A-Z` and neither `E` nor `T`. -/
def beaconAllowed (c : Char) : Prop :=
  inBeaconRange c ∧ c ≠ 'E' ∧ c ≠ 'T'

/-- Every one of the 31 characters of the beacon message is allowed. -/
def beaconMsgAllowed (g : GlobalX) : Prop :=
  ∀ i, i < 31 → beaconAllowed (g.csBeacon.beaconMsg i)

/-- A call that updates the beacon message: a single update, or a telemetry update
after new readings have been stored as `csLastTelemetry`. -/
inductive beacon_call where
  | updateSingle (index : Nat) (val : Char)
  | updateTelemetry (reading : Nat → Nat)

/-- The calls of a list, applied in order. -/
def runBeaconCalls : List beacon_call → GlobalX → GlobalX
  | [], g => g
  | beacon_call.updateSingle index val :: rest, g =>
    runBeaconCalls rest (beaconMsgUpdateSingle index val g)
  | beacon_call.updateTelemetry reading :: rest, g =>
    runBeaconCalls rest
      (beaconMsgUpdateTelemetry { g with csLastTelemetry := { reading := reading } })

/-- The single update respects the bound of the message. -/
def beaconCallValid : beacon_call → Prop
  | beacon_call.updateSingle index _ => index < 31
  | beacon_call.updateTelemetry _ => True

/-- The search loop of `respPollUserDelete`:
`for(i=0; (i < head) && (!found); i++)`. It yields the final `i`, `found` and `delete`.
On a match that may be deleted the body steps `i` back (`i--` on a `uint8_t`) before the
`i++` of the loop, so `i` ends on the matching index; on a pending match `i` ends one
further. -/
def respPollUserDelete.search (ID : Nat) (s : response_poll_t) : Nat → Nat → Nat × Bool × Bool
  | 0, i => (i, false, false)
  | fuel + 1, i =>
    if i < s.head then
      if (s.poll_queue i).cmd_ID = ID then
        if (s.poll_queue i).type ≠ response_cmd_type_t.PENDING then
          (((i + 255) % 256 + 1) % 256, true, true)
        else (i + 1, true, false)
      else respPollUserDelete.search ID s fuel (i + 1)
    else (i, false, false)

/-- `respPollUserDelete` of `CSresponsePoll.c`: returns 0 after deleting the first entry
with the command id, 0xFE when that entry is pending, 0xFF when there is none. -/
def respPollUserDelete (ID : Nat) (s : response_poll_t) : Nat × response_poll_t :=
  let r := respPollUserDelete.search ID s s.head 0
  let i := r.1
  let found := r.2.1
  let delete := r.2.2
  let s1 : response_poll_t :=
    if delete then
      { poll_queue := respPollSysDelete.shuffle s.head s.head i s.poll_queue
        head := (s.head + 255) % 256 }
    else s
  if found ∧ delete then (0, s1)
  else if found then (0xFE, s1)
  else (0xFF, s1)

/-- A call on the response poll reached from ground commands or from the sequence
executor. -/
inductive poll_call where
  | enqueue (newest : resp_poll_t)
  | userDelete (ID : Nat)
  | updatePending (update : resp_poll_t)
  | abort (status time : Nat)

/-- The calls of a list, applied in order; `none` when a call does not return. -/
def runPollCalls : List poll_call → response_poll_t → Option response_poll_t
  | [], s => some s
  | poll_call.enqueue newest :: rest, s => runPollCalls rest (respPollEnqueue newest s)
  | poll_call.userDelete ID :: rest, s => runPollCalls rest (respPollUserDelete ID s).2
  | poll_call.updatePending update :: rest, s =>
    runPollCalls rest (respPollUpdatePending update s)
  | poll_call.abort status time :: rest, s =>
    (respPollAbort status time s).bind (runPollCalls rest)

/-- The seven bytes `respPollResponse` stores for one entry, each the low 8 bits of the
assigned value: `cmd_ID >> 8`, `cmd_ID`, `status`, `epoch >> 24`, `epoch >> 16`,
`epoch >> 8`, `epoch`. -/
def respPollResponse.byte (e : resp_poll_t) (k : Nat) : Nat :=
  match k with
  | 0 => (e.cmd_ID >>> 8) % 256
  | 1 => e.cmd_ID % 256
  | 2 => e.status % 256
  | 3 => (e.epoch >>> 24) % 256
  | 4 => (e.epoch >>> 16) % 256
  | 5 => (e.epoch >>> 8) % 256
  | _ => e.epoch % 256

/-- The loop of `respPollResponse`: entry `i` is written to `telem[i*7 .. i*7+6]`. -/
def respPollResponse.loop (s : response_poll_t) : Nat → Nat → (Nat → Nat) → Nat × (Nat → Nat)
  | 0, i, telem => (i, telem)
  | fuel + 1, i, telem =>
    if i < s.head then
      let telem0 := Function.update telem (i * 7 + 0) (respPollResponse.byte (s.poll_queue i) 0)
      let telem1 := Function.update telem0 (i * 7 + 1) (respPollResponse.byte (s.poll_queue i) 1)
      let telem2 := Function.update telem1 (i * 7 + 2) (respPollResponse.byte (s.poll_queue i) 2)
      let telem3 := Function.update telem2 (i * 7 + 3) (respPollResponse.byte (s.poll_queue i) 3)
      let telem4 := Function.update telem3 (i * 7 + 4) (respPollResponse.byte (s.poll_queue i) 4)
      let telem5 := Function.update telem4 (i * 7 + 5) (respPollResponse.byte (s.poll_queue i) 5)
      let telem6 := Function.update telem5 (i * 7 + 6) (respPollResponse.byte (s.poll_queue i) 6)
      respPollResponse.loop s fuel (i + 1) telem6
    else (i, telem)

/-- `respPollResponse` of `CSresponsePoll.c`: packs the entries into `telem` and returns
the number of bytes used, `i * 7` as a `uint16_t`. -/
def respPollResponse (s : response_poll_t) (telem : Nat → Nat) : Nat × (Nat → Nat) :=
  let r := respPollResponse.loop s s.head 0 telem
  ((r.1 * 7) % 65536, r.2)

/-- Number of sensors, `NUM_SENSORS` of `CSlogging.h`. -/
def NUM_SENSORS : Nat := 44

/-- Modelled from the spec: a telemetry block, an epoch (32 bits) and 44 readings
(stored on 16 bits); `telemetry_block_t` is declared in a header that is not among the
sources. -/
structure telemetry_block_t where
  epoch : Nat
  readings : Nat → Nat

/-- Modelled from the spec: `G_SET(csBasicTelemetry, NULL)`, the `clear` of the global
store, a write of zero bytes over the field. -/
def csBasicTelemetryX.cleared : csBasicTelemetryX :=
  { csSingleTelemetry := fun _ =>
      { n := 0, hiVal := 0, lowVal := 0, avg := 0, hiTime := 0, lowTime := 0 }
    anomalyModeTime := fun _ => 0
    battRecentTemp := fun _ => 0
    battDeltaTemp := 0
    anomalyModeBasicInfo := fun _ => 0
    anomalyslot := 0
    battSlot := 0 }

/-- `storeBattDelta` of `csBasicTelemetry.c`, on the field `csBasicTelemetry` of the
global store: the delta to the value in the current slot (a `uint16` subtraction) and
the new value are stored, the slot advances modulo 3. -/
def storeBattDelta (battery : Nat) (b : csBasicTelemetryX) : csBasicTelemetryX :=
  let slot := b.battSlot
  let delta := (battery + (65536 - b.battRecentTemp slot % 65536)) % 65536
  let b1 := { b with battRecentTemp := Function.update b.battRecentTemp slot battery }
  let b2 := { b1 with battDeltaTemp := delta }
  let slot1 := (slot + 1) % 3
  { b2 with battSlot := slot1 }

/-- The body of the loop of `storeBasicTelemetry` for sensor `i`, on the copy
`tempTelem`: the running average through the 32-bit `buf`, the 16-bit count, and the
extremes with their times. `none` when the division is by a count that wrapped to 0. -/
def storeBasicTelemetry.sensor (values : telemetry_block_t) (i : Nat)
    (tempTelem : csSingleBasicTelemetry) : Option csSingleBasicTelemetry :=
  let buf := tempTelem.avg
  let temp := values.readings i
  let buf1 := (buf * tempTelem.n) % 4294967296
  let buf2 := (buf1 + temp) % 4294967296
  let n1 := (tempTelem.n + 1) % 65536
  if n1 = 0 then none
  else
    let buf3 := buf2 / n1
    let t1 := { tempTelem with n := n1, avg := buf3 % 65536 }
    let t2 :=
      if values.readings i ≥ t1.hiVal ∨ t1.n = 1 then
        { t1 with hiVal := values.readings i, hiTime := values.epoch }
      else t1
    let t3 :=
      if values.readings i ≤ t2.lowVal ∨ t2.n = 1 then
        { t2 with lowVal := values.readings i, lowTime := values.epoch }
      else t2
    some t3

/-- The loop of `storeBasicTelemetry`: `for(i=0; i<NUM_SENSORS; i++)`, each aggregate
copied out, updated and written back. -/
def storeBasicTelemetry.loop (values : telemetry_block_t) :
    Nat → Nat → csBasicTelemetryX → Option csBasicTelemetryX
  | 0, _, b => some b
  | fuel + 1, i, b =>
    if i < NUM_SENSORS then
      (storeBasicTelemetry.sensor values i (b.csSingleTelemetry i)).bind fun tempTelem =>
        storeBasicTelemetry.loop values fuel (i + 1)
          { b with csSingleTelemetry := Function.update b.csSingleTelemetry i tempTelem }
    else some b

/-- `storeBasicTelemetry` of `csBasicTelemetry.c`, on the field `csBasicTelemetry` of the
global store: every sensor aggregate is updated with the block, and every ten seconds
the battery delta is stored from `readings[27]`. -/
def storeBasicTelemetry (values : telemetry_block_t) (b : csBasicTelemetryX) :
    Option csBasicTelemetryX :=
  (storeBasicTelemetry.loop values NUM_SENSORS 0 b).map fun b1 =>
    if values.epoch % 10 = 0 then storeBattDelta (values.readings 27) b1 else b1

/-- The blocks of a list, stored in order. -/
def storeBasicTelemetryAll : List telemetry_block_t → csBasicTelemetryX →
    Option csBasicTelemetryX
  | [], b => some b
  | values :: rest, b => (storeBasicTelemetry values b).bind (storeBasicTelemetryAll rest)

/-- The extremes of sensor `i` over the blocks `l`: `hiVal` bounds every reading and is
the reading of a block `blk` with epoch `hiTime` after which every reading is smaller
(the most recent block with the maximum); likewise `lowVal`, `lowTime` and the
minimum. -/
def extremesOf (l : List telemetry_block_t) (i : Nat) (t : csSingleBasicTelemetry) : Prop :=
  (∀ v, v ∈ l → v.readings i ≤ t.hiVal) ∧
  (∃ pre blk post, l = pre ++ blk :: post ∧ blk.readings i = t.hiVal ∧
    blk.epoch = t.hiTime ∧ ∀ v, v ∈ post → v.readings i < t.hiVal) ∧
  (∀ v, v ∈ l → t.lowVal ≤ v.readings i) ∧
  (∃ pre blk post, l = pre ++ blk :: post ∧ blk.readings i = t.lowVal ∧
    blk.epoch = t.lowTime ∧ ∀ v, v ∈ post → t.lowVal < v.readings i)

/-- The value of a 16-bit pattern read as an `int16` (two's complement). -/
def int16Val (p : Nat) : Int :=
  if p < 32768 then (p : Int) else (p : Int) - 65536

/-- One `chk |= x` of `checkInitBasicTelemetry`, on the `uint16` variable `chk`. -/
def checkInitBasicTelemetry.or (chk x : Nat) : Nat :=
  (chk ||| x) % 65536

/-- `checkInitBasicTelemetry` of `csBasicTelemetry.c`, on the field `csBasicTelemetry` of
the global store: the bitwise OR of every stored value, on 16 bits; 0 when the structure
is all zero. -/
def checkInitBasicTelemetry (b : csBasicTelemetryX) : Nat :=
  let chk := 0
  let chk1 := (List.range NUM_SENSORS).foldl (fun chk i =>
    let c1 := checkInitBasicTelemetry.or chk (b.csSingleTelemetry i).hiVal
    let c2 := checkInitBasicTelemetry.or c1 (b.csSingleTelemetry i).lowVal
    let c3 := checkInitBasicTelemetry.or c2 (b.csSingleTelemetry i).hiTime
    let c4 := checkInitBasicTelemetry.or c3 (b.csSingleTelemetry i).lowTime
    let c5 := checkInitBasicTelemetry.or c4 (b.csSingleTelemetry i).avg
    checkInitBasicTelemetry.or c5 (b.csSingleTelemetry i).n) chk
  let chk2 := (List.range 5).foldl (fun chk i =>
    let c1 := checkInitBasicTelemetry.or chk (b.anomalyModeTime i)
    checkInitBasicTelemetry.or c1 (b.anomalyModeBasicInfo i)) chk1
  let chk3 := checkInitBasicTelemetry.or chk2 b.anomalyslot
  let chk4 := (List.range 3).foldl (fun chk i =>
    checkInitBasicTelemetry.or chk (b.battRecentTemp i)) chk3
  let chk5 := checkInitBasicTelemetry.or chk4 b.battDeltaTemp
  checkInitBasicTelemetry.or chk5 b.battSlot

/-- `initBasicTelemetry` of `csBasicTelemetry.c`, on the field `csBasicTelemetry` of the
global store: the battery temperature in the slot before `battSlot` is backed up, the
structure is cleared and checked, and the backup is stored three times through
`storeBattDelta`. The result of the check is returned. -/
def initBasicTelemetry (b : csBasicTelemetryX) : Nat × csBasicTelemetryX :=
  let slot := b.battSlot
  let slot1 := (slot + 2) % 3
  let battTempBackup := b.battRecentTemp slot1
  let b1 := csBasicTelemetryX.cleared
  let ret := checkInitBasicTelemetry b1
  let b2 := storeBattDelta battTempBackup b1
  let b3 := storeBattDelta battTempBackup b2
  let b4 := storeBattDelta battTempBackup b3
  (ret, b4)

/-- A basic-telemetry state 30 s into sampling: the battery temperatures 2990, 2995 and
3000 were pushed in this order, so the next slot is 0 and the last delta is
`3000 - 0`. -/
def battRingWarm : csBasicTelemetryX :=
  { csBasicTelemetryX.cleared with
    battRecentTemp := fun k => if k = 0 then 2990 else if k = 1 then 2995 else 3000
    battDeltaTemp := 3000
    battSlot := 0 }

/-- The numeric value of a main state, from `RESET_STATE = 1` to `ANOMALY = 6`. -/
def MainState.toNat : MainState → Nat
  | MainState.RESET_STATE => 1
  | MainState.STARTUP => 2
  | MainState.SAFE_HOLD => 3
  | MainState.COMMAND_RESPONSE => 4
  | MainState.STATUS_MONITORING => 5
  | MainState.ANOMALY => 6

/-- Bytes per sensor in the basic-telemetry blob, `SENSOR_BYTES` of `CSlogging.h`. -/
def SENSOR_BYTES : Nat := 14

/-- The inner loop of `getBasicTelemetry`,
`for(j=0;j<4;j++) telem[base + j] = value >> (24-(8*j))`, for `j = 0, 1, 2, 3`: each
byte keeps the low 8 bits of the shifted value. -/
def getBasicTelemetry.time (base value : Nat) (telem : Nat → Nat) : Nat → Nat :=
  let telem0 := Function.update telem (base + 0) ((value >>> (24 - 8 * 0)) % 256)
  let telem1 := Function.update telem0 (base + 1) ((value >>> (24 - 8 * 1)) % 256)
  let telem2 := Function.update telem1 (base + 2) ((value >>> (24 - 8 * 2)) % 256)
  Function.update telem2 (base + 3) ((value >>> (24 - 8 * 3)) % 256)

/-- The body of the first loop of `getBasicTelemetry` for sensor `i`: the 14 bytes
`telem[i*14 .. i*14+13]`. -/
def getBasicTelemetry.sensor (t : csSingleBasicTelemetry) (i : Nat) (telem : Nat → Nat) :
    Nat → Nat :=
  let telem0 := Function.update telem (i * SENSOR_BYTES + 0) ((t.hiVal >>> 8) % 256)
  let telem1 := Function.update telem0 (i * SENSOR_BYTES + 1) (t.hiVal % 256)
  let telem2 := getBasicTelemetry.time (i * SENSOR_BYTES + 2) t.hiTime telem1
  let telem3 := Function.update telem2 (i * SENSOR_BYTES + 6) ((t.lowVal >>> 8) % 256)
  let telem4 := Function.update telem3 (i * SENSOR_BYTES + 7) (t.lowVal % 256)
  let telem5 := getBasicTelemetry.time (i * SENSOR_BYTES + 8) t.lowTime telem4
  let telem6 := Function.update telem5 (i * SENSOR_BYTES + 12) ((t.avg >>> 8) % 256)
  Function.update telem6 (i * SENSOR_BYTES + 13) (t.avg % 256)

/-- The first loop of `getBasicTelemetry`: `for(i=0;i<NUM_SENSORS;i++)`. -/
def getBasicTelemetry.sensors (b : csBasicTelemetryX) : Nat → Nat → (Nat → Nat) → (Nat → Nat)
  | 0, _, telem => telem
  | fuel + 1, i, telem =>
    if i < NUM_SENSORS then
      getBasicTelemetry.sensors b fuel (i + 1)
        (getBasicTelemetry.sensor (b.csSingleTelemetry i) i telem)
    else telem

/-- The body of the second loop of `getBasicTelemetry` for anomaly slot `i`: the 6 bytes
from `NUM_SENSORS*SENSOR_BYTES + 3 + i*6`. -/
def getBasicTelemetry.anomaly (b : csBasicTelemetryX) (i : Nat) (telem : Nat → Nat) :
    Nat → Nat :=
  let telem0 := Function.update telem (NUM_SENSORS * SENSOR_BYTES + 3 + i * 6)
    ((b.anomalyModeBasicInfo i >>> 8) % 256)
  let telem1 := Function.update telem0 (NUM_SENSORS * SENSOR_BYTES + 3 + i * 6 + 1)
    (b.anomalyModeBasicInfo i % 256)
  getBasicTelemetry.time (NUM_SENSORS * SENSOR_BYTES + 3 + i * 6 + 2) (b.anomalyModeTime i) telem1

/-- The second loop of `getBasicTelemetry`: `for(i=0;i<5;i++)`. -/
def getBasicTelemetry.anomalies (b : csBasicTelemetryX) : Nat → Nat → (Nat → Nat) → (Nat → Nat)
  | 0, _, telem => telem
  | fuel + 1, i, telem =>
    if i < 5 then
      getBasicTelemetry.anomalies b fuel (i + 1) (getBasicTelemetry.anomaly b i telem)
    else telem

/-- `getBasicTelemetry` of `csBasicTelemetry.c`: packs the sensor aggregates, the battery
delta (the two bytes of its 16-bit pattern), the main state and the anomaly ring into
`telem`, each byte the low 8 bits of the assigned value, and returns the length. -/
def getBasicTelemetry (g : GlobalX) (telem : Nat → Nat) : Nat × (Nat → Nat) :=
  let telem1 := getBasicTelemetry.sensors g.csBasicTelemetry NUM_SENSORS 0 telem
  let telem2 := Function.update telem1 (NUM_SENSORS * SENSOR_BYTES)
    ((g.csBasicTelemetry.battDeltaTemp >>> 8) % 256)
  let telem3 := Function.update telem2 (NUM_SENSORS * SENSOR_BYTES + 1)
    (g.csBasicTelemetry.battDeltaTemp % 256)
  let telem4 := Function.update telem3 (NUM_SENSORS * SENSOR_BYTES + 2)
    (g.csState.mainState.toNat % 256)
  let telem5 := getBasicTelemetry.anomalies g.csBasicTelemetry 5 0 telem4
  let retVal := (NUM_SENSORS * SENSOR_BYTES + 3 + 5 * 6) % 65536
  (retVal, telem5)

/-- Byte `k` of the 14-byte image of a sensor aggregate,
`hiVal(2) | hiTime(4) | lowVal(2) | lowTime(4) | avg(2)`, most significant byte first. -/
def sensorImage (t : csSingleBasicTelemetry) (k : Nat) : Nat :=
  match k with
  | 0 => t.hiVal / 256 % 256
  | 1 => t.hiVal % 256
  | 2 => t.hiTime / 16777216 % 256
  | 3 => t.hiTime / 65536 % 256
  | 4 => t.hiTime / 256 % 256
  | 5 => t.hiTime % 256
  | 6 => t.lowVal / 256 % 256
  | 7 => t.lowVal % 256
  | 8 => t.lowTime / 16777216 % 256
  | 9 => t.lowTime / 65536 % 256
  | 10 => t.lowTime / 256 % 256
  | 11 => t.lowTime % 256
  | 12 => t.avg / 256 % 256
  | _ => t.avg % 256

/-- Byte `k` of the 6-byte image of anomaly slot `i`, `info(2) | time(4)`, most
significant byte first. -/
def anomalyImage (b : csBasicTelemetryX) (i k : Nat) : Nat :=
  match k with
  | 0 => b.anomalyModeBasicInfo i / 256 % 256
  | 1 => b.anomalyModeBasicInfo i % 256
  | 2 => b.anomalyModeTime i / 16777216 % 256
  | 3 => b.anomalyModeTime i / 65536 % 256
  | 4 => b.anomalyModeTime i / 256 % 256
  | _ => b.anomalyModeTime i % 256

/-- `epoch_to_telemetry_filename` of `CSlogging.c`: the day number `epoch / 86400` (on
`uint32_t`) is written as eight decimal digits, `'0' + digit` each, followed by
`.TEL`, into the 12 characters of `filename`. -/
def epoch_to_telemetry_filename (epoch : Nat) (filename : Nat → Char) : Nat → Char :=
  let days := epoch / (60 * 60 * 24)
  let f0 := Function.update filename 0 (Char.ofNat ('0'.toNat + (days / 10000000) % 10))
  let f1 := Function.update f0 1 (Char.ofNat ('0'.toNat + (days / 1000000) % 10))
  let f2 := Function.update f1 2 (Char.ofNat ('0'.toNat + (days / 100000) % 10))
  let f3 := Function.update f2 3 (Char.ofNat ('0'.toNat + (days / 10000) % 10))
  let f4 := Function.update f3 4 (Char.ofNat ('0'.toNat + (days / 1000) % 10))
  let f5 := Function.update f4 5 (Char.ofNat ('0'.toNat + (days / 100) % 10))
  let f6 := Function.update f5 6 (Char.ofNat ('0'.toNat + (days / 10) % 10))
  let f7 := Function.update f6 7 (Char.ofNat ('0'.toNat + (days / 1) % 10))
  let f8 := Function.update f7 8 '.'
  let f9 := Function.update f8 9 'T'
  let f10 := Function.update f9 10 'E'
  Function.update f10 11 'L'

/-- The 12 characters of a filename buffer. -/
def filenameChars (filename : Nat → Char) : List Char :=
  (List.range 12).map filename

/-- The decimal number written in the first eight characters of a filename buffer. -/
def filenameDays (filename : Nat → Char) : Nat :=
  ((filename 0).toNat - 48) * 10000000 + ((filename 1).toNat - 48) * 1000000 +
    ((filename 2).toNat - 48) * 100000 + ((filename 3).toNat - 48) * 10000 +
    ((filename 4).toNat - 48) * 1000 + ((filename 5).toNat - 48) * 100 +
    ((filename 6).toNat - 48) * 10 + ((filename 7).toNat - 48)

/-- Modelled from the spec: the linear buffer of telemetry blocks (`LinearBuf` of the
absent `CSlinearBuf.h`) as a FIFO list, oldest block first. The flush reads it from its
first block: the read index `tail`, which `startFlushToSD` zeroes for the time of the
flush, is not represented. -/
structure LinearBuf where
  items : List telemetry_block_t

/-- Modelled from the spec: `G_SET(csTelemetry.buf, NULL)`, the empty buffer. -/
def LinearBuf.cleared : LinearBuf := { items := [] }

/-- Modelled from the spec: the SD card as a map from the 12-character filename to the
blocks appended to that file, oldest first (the FAT primitives are external). -/
structure SDcard where
  files : List Char → List telemetry_block_t

/-- Modelled from the spec: `FSfopen(filename, "a")` with every open succeeding; the
handle is the name of the file. -/
def FSfopen (filename : Nat → Char) : Option (List Char) :=
  some (filenameChars filename)

/-- Modelled from the spec: `FSfwrite(&block, sizeof(telemetry_block_t), 1, testFile)`
appends the block to the open file. -/
def FSfwrite (block : telemetry_block_t) (testFile : List Char) (sd : SDcard) : SDcard :=
  { files := Function.update sd.files testFile (sd.files testFile ++ [block]) }

/-- The loop of `startFlushToSD` over the buffered blocks, one `linearBuf_get` per
iteration: when `block.epoch != epoch` the open file is closed and the file of the
block's day is opened; the block is written when a file is open. The local `epoch`
is never assigned in the loop. -/
def startFlushToSD.loop (epoch : Nat) :
    List telemetry_block_t → Option (List Char) → (Nat → Char) → SDcard →
      Option (List Char) × (Nat → Char) × SDcard
  | [], testFile, filename, sd => (testFile, filename, sd)
  | block :: rest, testFile, filename, sd =>
    let filename1 :=
      if block.epoch ≠ epoch then epoch_to_telemetry_filename block.epoch filename
      else filename
    let testFile1 := if block.epoch ≠ epoch then FSfopen filename1 else testFile
    let sd1 :=
      match testFile1 with
      | some f => FSfwrite block f sd
      | none => sd
    startFlushToSD.loop epoch rest testFile1 filename1 sd1

/-- `startFlushToSD` of `CSlogging.c`, on the buffer `csTelemetry.buf` of the global
store and the SD card: the blocks are written to their files and the buffer is
cleared. The locals start as `testFile = NULL`, `epoch = 0` and
`filename = "00000000.TEL"`. -/
def startFlushToSD (buf : LinearBuf) (sd : SDcard) : LinearBuf × SDcard :=
  let testFile : Option (List Char) := none
  let epoch := 0
  let filename : Nat → Char := fun i => "00000000.TEL".toList.getD i (Char.ofNat 0)
  let r := startFlushToSD.loop epoch buf.items testFile filename sd
  (LinearBuf.cleared, r.2.2)

/-- A telemetry block with the given epoch and all readings 0. -/
def blockAt (epoch : Nat) : telemetry_block_t :=
  { epoch := epoch, readings := fun _ => 0 }

/-- An SD card without any block. -/
def SDcard.empty : SDcard := { files := fun _ => [] }

/-- The epochs of the blocks of a file. -/
def SDcard.epochs (sd : SDcard) (name : String) : List Nat :=
  (sd.files name.toList).map (fun b => b.epoch)

/-- `BEACON_ON_TIME` of `CSstateStatusMonitoring.c`, in timer ticks. -/
def BEACON_ON_TIME : Nat := 40000

/-- `ALL_QUIET_TIME` of `CSstateStatusMonitoring.c`, in timer ticks. -/
def ALL_QUIET_TIME : Nat := 140000

/-- `statMonStateDiagnosticCheck`: the sub-state becomes `DIAGNOSTIC_CHECK` and
`G_SET(csState.timerMode, NULL)` clears the timer mode. -/
def statMonStateDiagnosticCheck (g : GlobalX) : GlobalX :=
  let g1 := changeStatMonState StatMonState.DIAGNOSTIC_CHECK g
  { g1 with csState := { g1.csState with timerMode := TimerMode.OFF } }

/-- `statMonStateAllQuiet`: the sub-state becomes `ALL_QUIET` and the timer mode is
cleared. -/
def statMonStateAllQuiet (g : GlobalX) : GlobalX :=
  let g1 := changeStatMonState StatMonState.ALL_QUIET g
  { g1 with csState := { g1.csState with timerMode := TimerMode.OFF } }

/-- `statMonStateBeaconOn`: the sub-state becomes `BEACON_ON` and the timer mode is
cleared. -/
def statMonStateBeaconOn (g : GlobalX) : GlobalX :=
  let g1 := changeStatMonState StatMonState.BEACON_ON g
  { g1 with csState := { g1.csState with timerMode := TimerMode.OFF } }

/-- The call of a timeout callback when its timeout expires. -/
def CallbackFunction.run : CallbackFunction → GlobalX → GlobalX
  | CallbackFunction.statMonStateDiagnosticCheck => CubeSat.statMonStateDiagnosticCheck
  | CallbackFunction.statMonStateAllQuiet => CubeSat.statMonStateAllQuiet
  | CallbackFunction.statMonStateBeaconOn => CubeSat.statMonStateBeaconOn

/-- Modelled from the spec: `setTimeout(ticks, callback, mode)` of the absent
`CStimers.c` arms the single-shot timeout (the call is logged with its arguments) and
records the mode in `csState.timerMode`, so that "no timer armed" is
`timerMode == OFF`. -/
def setTimeout (ticks : Nat) (callback : CallbackFunction) (mode : TimerMode) (w : World) :
    World :=
  { g := { w.g with csState := { w.g.csState with timerMode := mode } }
    calls := w.calls ++ [hw_call.setTimeout ticks callback mode] }

/-- What the external collaborators answer during one pass of the state machine: the
clock as the epoch `csunSatEpoch(getRTC())` and as the day `getRTC() >> 32`, and the
result `CubeSat_SpawnDiagnostician()` would give. -/
structure pass_env where
  now : Nat
  day : Nat
  diagnostic : Bool

/-- `statusMonitoringStateMachine` of `CSstateStatusMonitoring.c`, one pass. The block
of `DIAGNOSTIC_CHECK` that reads the day and runs the diagnostic is compiled out
(`#if 0`), so `diagResult` keeps its initial value `true` and `env.day`,
`env.diagnostic` are not read. `BEACON_OUT` is the compile-time switch around
`beaconSend()`; `status0` is the uninitialised status of `pendingProcess`. -/
def statusMonitoringStateMachine (BEACON_OUT : Bool) (env : pass_env) (status0 : Nat)
    (w : World) : Option World :=
  let w0 : World := { w with calls := w.calls ++ [hw_call.powerSavingOff] }
  match w0.g.csState.statMonState with
  | StatMonState.DIAGNOSTIC_CHECK =>
    let diagResult := true
    if diagResult then some { w0 with g := statMonStateAllQuiet w0.g }
    else
      let new := MainState.ANOMALY
      let g1 := { w0.g with csState := { w0.g.csState with
        previousState := w0.g.csState.mainState } }
      some { w0 with g := { g1 with csState := { g1.csState with mainState := new } } }
  | StatMonState.ALL_QUIET =>
    if w0.g.csState.timerMode = TimerMode.OFF ∧
        w0.g.csState.statMonState = StatMonState.ALL_QUIET then
      let w1 : World := { w0 with calls := w0.calls ++ [hw_call.beaconPowerOff] }
      some (setTimeout ALL_QUIET_TIME CallbackFunction.statMonStateBeaconOn
        TimerMode.STATUS_MONITOR w1)
    else some w0
  | StatMonState.PENDING_PROCESS => pendingProcess env.now status0 w0
  | StatMonState.BEACON_ON =>
    if w0.g.csState.timerMode = TimerMode.OFF ∧
        w0.g.csState.statMonState = StatMonState.BEACON_ON then
      let w1 : World :=
        if w0.g.csBeacon.beacon_enabled then
          let w2 : World := { w0 with calls := w0.calls ++ [hw_call.beaconPowerOn] }
          let w3 : World := { w2 with g := beaconMsgUpdateTelemetry w2.g }
          if BEACON_OUT then { w3 with calls := w3.calls ++ [hw_call.beaconSend] } else w3
        else w0
      some (setTimeout BEACON_ON_TIME CallbackFunction.statMonStateDiagnosticCheck
        TimerMode.STATUS_MONITOR w1)
    else some w0
  | StatMonState.INVALID _ => some { w0 with calls := w0.calls ++ [hw_call.anomalyChange] }

/-- The end of `pendingProcess`: a sub-state `PENDING_PROCESS` goes back to the previous
sub-state. -/
def pendingProcess.revert (w : World) : World :=
  if w.g.csState.statMonState = StatMonState.PENDING_PROCESS then
    { w with g := statMonStateToPrevious w.g }
  else w

/-- The wait condition of a command refers to the relative time: sensor id 254 on its
left, or on its right with `op != JUST`. -/
@[reducible]
def waitsOnRelativeTime (cmd : seq_command_t) : Prop :=
  cmd.wait.left.sensor_id = 254 ∨
    (cmd.wait.op ≠ cond_op_t.JUST ∧ cmd.wait.right.sensor_id = 254)

/-- A world in status monitoring with the given sub-state and timer mode, the beacon
enabled, no external call logged yet. -/
def worldIn (state : StatMonState) (timer : TimerMode) (link : link_mode_t) : World :=
  { g := { zeroGlobal with
      csState := { zeroGlobal.csState with
        statMonState := state, statMonPrevState := StatMonState.DIAGNOSTIC_CHECK,
        timerMode := timer, diagDay := 3 }
      csLink := { mode := link } }
    calls := [] }

/-- A ready sequence of two commands: the first may run at once, the second waits for 30 s
of relative time. -/
def worldTwoSteps : World :=
  { g := { zeroGlobal with
      csSequence :=
        { cmd_queue := { items :=
            [cmdAfter 61 opcode_t.OP_START_SEQUENCE
               { sensor_id := 255, comparator := comparator_t.GREATER_EQ, value := 0 },
             cmdAfter 62 opcode_t.OP_CHECK_SD_CARD
               { sensor_id := 254, comparator := comparator_t.GREATER_EQ, value := 30 }] }
          exit :=
            { left := { sensor_id := 10, comparator := comparator_t.GREATER, value := 500 }
              op := cond_op_t.JUST
              right := { sensor_id := 0, comparator := comparator_t.LESS, value := 0 } }
          seq_ready_flag := 1
          lastCmdTime := 100 }
      csResponsePoll :=
        pollOfList
          [{ epoch := 90, cmd_ID := 61, type := response_cmd_type_t.PENDING, status := 42 },
           { epoch := 91, cmd_ID := 62, type := response_cmd_type_t.PENDING, status := 42 }] }
    calls := [] }

/-- Modelled from the spec: the replicated global store (`Globals.c`, which implements
`SettleGlobal` and `globalMod`, is not among the sources): three copies `a`, `b`, `c` of
the `size` bytes of the state. -/
structure replicas_t where
  size : Nat
  a : Nat → Nat
  b : Nat → Nat
  c : Nat → Nat

/-- Modelled from the spec: the per-bit majority of three bytes. -/
def voteByte (x y z : Nat) : Nat :=
  (x &&& y) ||| (x &&& z) ||| (y &&& z)

/-- The majority of three bits. -/
def majority (x y z : Bool) : Bool :=
  (x && y) || (x && z) || (y && z)

/-- Modelled from the spec: `SettleGlobal`, the reconciliation: for every byte of the
state the committed value is the bitwise majority across the three replicas, stored in
all three. -/
def SettleGlobal (r : replicas_t) : replicas_t :=
  { size := r.size
    a := fun i => if i < r.size then voteByte (r.a i) (r.b i) (r.c i) else r.a i
    b := fun i => if i < r.size then voteByte (r.a i) (r.b i) (r.c i) else r.b i
    c := fun i => if i < r.size then voteByte (r.a i) (r.b i) (r.c i) else r.c i }

/-- Modelled from the spec: a read of the global store returns copy A. -/
def globalRead (r : replicas_t) (i : Nat) : Nat :=
  r.a i

/-- Modelled from the spec: `globalMod(offset, src, size)`: the store first runs the
reconciliation, then writes the same `size` bytes at `offset` into all three replicas;
it fails (returns `false`, nothing written) if `offset + size` exceeds the size of the
state. A `NULL` source (`none`) is the `clear`, a write of zero bytes. -/
def globalMod (offset : Nat) (src : Option (Nat → Nat)) (size : Nat) (r : replicas_t) :
    Bool × replicas_t :=
  let r1 := SettleGlobal r
  if offset + size > r1.size then (false, r1)
  else
    let byte := fun i =>
      match src with
      | some bytes => bytes (i - offset)
      | none => 0
    (true,
      { size := r1.size
        a := fun i => if offset ≤ i ∧ i < offset + size then byte i else r1.a i
        b := fun i => if offset ≤ i ∧ i < offset + size then byte i else r1.b i
        c := fun i => if offset ≤ i ∧ i < offset + size then byte i else r1.c i })

/-- Scenario S3: one byte of state with replicas `0x00`, `0xFF`, `0xFF`. -/
def replicasS3 : replicas_t :=
  { size := 1, a := fun _ => 0x00, b := fun _ => 0xFF, c := fun _ => 0xFF }

/-- `storeAnomalyBasicTelemetry` of `csBasicTelemetry.c`, on the field `csBasicTelemetry`
of the global store: the anomaly info and its time are stored at `anomalyslot`, which
then advances modulo 5. -/
def storeAnomalyBasicTelemetry (anomalyInfo time : Nat) (b : csBasicTelemetryX) :
    csBasicTelemetryX :=
  let slot := b.anomalyslot
  let b1 := { b with
    anomalyModeBasicInfo := Function.update b.anomalyModeBasicInfo slot anomalyInfo }
  let b2 := { b1 with anomalyModeTime := Function.update b1.anomalyModeTime slot time }
  let slot1 := (slot + 1) % 5
  { b2 with anomalyslot := slot1 }

/-- The anomalies `(info, time)` of a list, stored in order. -/
def storeAnomalyAll (l : List (Nat × Nat)) (b : csBasicTelemetryX) : csBasicTelemetryX :=
  l.foldl (fun b p => storeAnomalyBasicTelemetry p.1 p.2 b) b

/-- A structure that is all zero except for `hiTime = 0x10000` in the aggregate of
sensor 0. -/
def staleHiTime : csBasicTelemetryX :=
  { csBasicTelemetryX.cleared with
    csSingleTelemetry := fun i =>
      if i = 0 then { n := 0, hiVal := 0, lowVal := 0, avg := 0, hiTime := 65536, lowTime := 0 }
      else { n := 0, hiVal := 0, lowVal := 0, avg := 0, hiTime := 0, lowTime := 0 } }

/-- The `switch(i)` of `handleTelemetryRecording` that sets `using` (here `nUsing`), the number of
sensors read from ADC `i`; for a value of `i` without a case `using` keeps its value. -/
def handleTelemetryRecording.switch (i nUsing : Nat) : Nat :=
  match i with
  | 5 => 4
  | 1 => 6
  | 2 => 6
  | 6 => 6
  | 0 => 7
  | 3 => 7
  | 4 => 8
  | _ => nUsing

/-- The statement `buffer = (0x0FFF & ((fromADC[2*j]<<8) + (fromADC[2*j+1])))` on the
`uint16` variable `buffer`: two bytes put together, the address bits dropped. -/
def handleTelemetryRecording.buffer (fromADC : Nat → Nat) (j : Nat) : Nat :=
  (0x0FFF &&& ((fromADC (2 * j) <<< 8) + fromADC (2 * j + 1))) % 65536

/-- The inner loop of `handleTelemetryRecording`,
`for(j=0; (j<using) && (arrIndex<NUM_SENSORS); j++)`: one reading is stored at
`arrIndex`, which advances (`arrIndex` is a `uint8`). -/
def handleTelemetryRecording.channels (nUsing : Nat) (fromADC : Nat → Nat) :
    Nat → Nat → Nat → (Nat → Nat) → Nat × (Nat → Nat)
  | 0, _, arrIndex, readings => (arrIndex, readings)
  | fuel + 1, j, arrIndex, readings =>
    if j < nUsing ∧ arrIndex < NUM_SENSORS then
      handleTelemetryRecording.channels nUsing fromADC fuel (j + 1) ((arrIndex + 1) % 256)
        (Function.update readings arrIndex (handleTelemetryRecording.buffer fromADC j))
    else (arrIndex, readings)

/-- The loop over the seven ADCs of `handleTelemetryRecording` (the board build,
`PUMPKIN_DEV_BOARD`). `reads i` is what `readADC_AllChannels` gives for ADC `i`: `none`
when it returns 0 (the ADC did not report), otherwise the 16 bytes of `fromADC`. A
failed ADC only advances `arrIndex` by `using`. -/
def handleTelemetryRecording.adcs (reads : Nat → Option (Nat → Nat)) :
    Nat → Nat → Nat → Nat → (Nat → Nat) → Nat × (Nat → Nat)
  | 0, _, _, arrIndex, readings => (arrIndex, readings)
  | fuel + 1, i, nUsing, arrIndex, readings =>
    if i < 7 then
      let using1 := handleTelemetryRecording.switch i nUsing
      match reads i with
      | some fromADC =>
        let r := handleTelemetryRecording.channels using1 fromADC using1 0 arrIndex readings
        handleTelemetryRecording.adcs reads fuel (i + 1) using1 r.1 r.2
      | none =>
        handleTelemetryRecording.adcs reads fuel (i + 1) using1 ((arrIndex + using1) % 256)
          readings
    else (arrIndex, readings)

/-- The readings of the block built by `handleTelemetryRecording`:
`memset(&tlmBuff, 0, ...)`, `arrIndex = 0`, then the loop over the ADCs. The result is
the final `arrIndex` and `tlmBuff.readings`; `using0` is the content of the
uninitialised `using`. -/
def handleTelemetryRecording.sample (reads : Nat → Option (Nat → Nat)) (using0 : Nat) :
    Nat × (Nat → Nat) :=
  handleTelemetryRecording.adcs reads 7 0 using0 0 (fun _ => 0)

/-- First index of the readings of ADC `k`: 0, 7, 13, 19, 26, 34, 38 (and 44 past the
last ADC). -/
def adcStart (k : Nat) : Nat :=
  match k with
  | 0 => 0
  | 1 => 7
  | 2 => 13
  | 3 => 19
  | 4 => 26
  | 5 => 34
  | 6 => 38
  | _ => 44

/-- The ADC whose index range holds the reading `p`. -/
def adcOf (p : Nat) : Nat :=
  if p < 7 then 0 else if p < 13 then 1 else if p < 19 then 2 else if p < 26 then 3
  else if p < 34 then 4 else if p < 38 then 5 else 6

/-- The reading at index `p` after the loop over the ADCs: the 12-bit count of its
channel when its ADC reported, otherwise what `readings` held before. -/
def adcReading (reads : Nat → Option (Nat → Nat)) (readings : Nat → Nat) (p : Nat) : Nat :=
  match reads (adcOf p) with
  | some fromADC => handleTelemetryRecording.buffer fromADC (p - adcStart (adcOf p))
  | none => readings p

/-- A telemetry block at epoch 1 whose 44 readings are all `0x0FFF`. -/
def fullScaleBlock : telemetry_block_t :=
  { epoch := 1, readings := fun _ => 4095 }

/-- A completion receipt for command 2, which has no entry in `pollFullComplete`. -/
def receiptTwo : resp_poll_t :=
  { epoch := 5, cmd_ID := 2, type := response_cmd_type_t.PENDING_COMPLETE, status := 0 }

/-- The end of `handleTelemetryRecording`:
`if(statMonState != PENDING_PROCESS) changeStatMonState(PENDING_PROCESS)`. -/
def handleTelemetryRecording.tick (g : GlobalX) : GlobalX :=
  if g.csState.statMonState ≠ StatMonState.PENDING_PROCESS then
    changeStatMonState StatMonState.PENDING_PROCESS g
  else g

/-- The end of `pendingProcess` on the global store:
`if(statMonState == PENDING_PROCESS) statMonStateToPrevious()`. -/
def pendingProcess.leave (g : GlobalX) : GlobalX :=
  if g.csState.statMonState = StatMonState.PENDING_PROCESS then statMonStateToPrevious g
  else g

/-- The steps that change the sub-state: the tick of the telemetry recording, the three
timer callbacks, and the end of `pendingProcess`. -/
inductive statMon_step where
  | tick
  | allQuiet
  | beaconOn
  | diagnosticCheck
  | toPrevious
deriving DecidableEq

/-- The effect of one step on the global store. -/
def statMon_step.run : statMon_step → GlobalX → GlobalX
  | statMon_step.tick => handleTelemetryRecording.tick
  | statMon_step.allQuiet => statMonStateAllQuiet
  | statMon_step.beaconOn => statMonStateBeaconOn
  | statMon_step.diagnosticCheck => statMonStateDiagnosticCheck
  | statMon_step.toPrevious => pendingProcess.leave

/-- The steps of a list, applied in order. -/
def runStatMonSteps (steps : List statMon_step) (g : GlobalX) : GlobalX :=
  steps.foldl (fun g step => step.run g) g

/-- The sub-state and the previous sub-state are not both `PENDING_PROCESS`. -/
def notBothPending (g : GlobalX) : Prop :=
  ¬ (g.csState.statMonState = StatMonState.PENDING_PROCESS ∧
    g.csState.statMonPrevState = StatMonState.PENDING_PROCESS)

/-! ## Theorems -/

open response_cmd_type_t

theorem queue_length (s : response_poll_t) : (queue s).length = s.head := by
  simp [queue]

theorem queue_getElem (s : response_poll_t) (i : Nat) (h : i < (queue s).length) :
    (queue s)[i] = s.poll_queue i := by
  simp [queue]

theorem queue_congr (q1 q2 : Nat → resp_poll_t) (n : Nat)
    (h : ∀ i, i < n → q1 i = q2 i) :
    queue { poll_queue := q1, head := n } = queue { poll_queue := q2, head := n } := by
  apply List.ext_getElem
  · simp [queue]
  · intro i h1 h2
    rw [queue_getElem, queue_getElem]
    exact h i (by simpa [queue] using h1)

theorem shuffle_apply (head : Nat) :
    ∀ (fuel i : Nat) (q : Nat → resp_poll_t) (j : Nat), head ≤ i + fuel + 1 →
      respPollSysDelete.shuffle head fuel i q j =
        if i ≤ j ∧ j + 1 < head then q (j + 1) else q j := by
  intro fuel
  induction fuel with
  | zero =>
    intro i q j hf
    have : ¬ (i ≤ j ∧ j + 1 < head) := by omega
    simp [respPollSysDelete.shuffle, this]
  | succ n ih =>
    intro i q j hf
    unfold respPollSysDelete.shuffle
    by_cases hlt : i + 1 < head
    · rw [if_pos hlt, ih (i + 1) _ j (by omega)]
      by_cases hji : j = i
      · subst hji
        have h1 : ¬ (j + 1 ≤ j ∧ j + 1 < head) := by omega
        have h2 : j ≤ j ∧ j + 1 < head := ⟨le_refl _, hlt⟩
        rw [if_neg h1, if_pos h2, Function.update_same]
      · by_cases hc : i + 1 ≤ j ∧ j + 1 < head
        · have h2 : i ≤ j ∧ j + 1 < head := ⟨by omega, hc.2⟩
          rw [if_pos hc, if_pos h2, Function.update_noteq (by omega)]
        · have h2 : ¬ (i ≤ j ∧ j + 1 < head) := by omega
          rw [if_neg hc, if_neg h2, Function.update_noteq hji]
    · have : ¬ (i ≤ j ∧ j + 1 < head) := by omega
      rw [if_neg hlt, if_neg this]

theorem sysDelete_head (i : Nat) (s : response_poll_t) (hi : i < s.head) (hh : s.head ≤ 66) :
    (respPollSysDelete i s).2.head = s.head - 1 := by
  unfold respPollSysDelete
  rw [if_pos (le_of_lt hi)]
  show (s.head + 255) % 256 = s.head - 1
  omega

theorem queue_sysDelete (i : Nat) (s : response_poll_t) (hi : i < s.head) (hh : s.head ≤ 66) :
    queue (respPollSysDelete i s).2 = (queue s).eraseIdx i := by
  apply List.ext_getElem
  · rw [queue_length, sysDelete_head i s hi hh, List.length_eraseIdx, queue_length]
    simp [hi]
  · intro j h1 h2
    rw [queue_getElem, List.getElem_eraseIdx]
    rw [queue_length, sysDelete_head i s hi hh] at h1
    unfold respPollSysDelete
    rw [if_pos (le_of_lt hi)]
    show respPollSysDelete.shuffle s.head s.head i s.poll_queue j = _
    rw [shuffle_apply _ _ _ _ _ (by omega)]
    by_cases hji : j < i
    · have : ¬ (i ≤ j ∧ j + 1 < s.head) := by omega
      rw [if_neg this, dif_pos hji, queue_getElem]
    · have : i ≤ j ∧ j + 1 < s.head := by omega
      rw [if_pos this, dif_neg hji, queue_getElem]

theorem queue_push (s : response_poll_t) (e : resp_poll_t) :
    queue { poll_queue := Function.update s.poll_queue s.head e, head := s.head + 1 } =
      queue s ++ [e] := by
  apply List.ext_getElem
  · simp [queue]
  · intro j h1 h2
    rw [queue_getElem]
    simp only [queue_length] at h1
    by_cases hj : j = s.head
    · subst hj
      simp [queue_length]
    · have hlt : j < s.head := by omega
      rw [List.getElem_append_left (by simpa [queue_length] using hlt), queue_getElem]
      simp [Function.update_noteq hj]

theorem take_append_eraseP_drop (p : resp_poll_t → Bool) (l : List resp_poll_t) (i : Nat)
    (h : i < l.length) (hp : p l[i] = false) :
    l.take (i + 1) ++ (l.drop (i + 1)).eraseP p = l.take i ++ (l.drop i).eraseP p := by
  rw [List.drop_eq_getElem_cons h, List.eraseP_cons, hp, cond_false, List.take_succ,
    List.getElem?_eq_getElem h, Option.toList_some, List.append_assoc, List.singleton_append]

theorem take_append_drop_succ_eraseP (p : resp_poll_t → Bool) (l : List resp_poll_t) (i : Nat)
    (h : i < l.length) (hp : p l[i] = true) :
    l.eraseIdx i = l.take i ++ (l.drop i).eraseP p := by
  rw [List.drop_eq_getElem_cons h, List.eraseP_cons, hp, cond_true,
    List.eraseIdx_eq_take_drop_succ]

theorem enqueue_scan_queue (head : Nat) :
    ∀ (fuel i : Nat) (s : response_poll_t), s.head = head → head ≤ 66 → i ≤ head →
      head ≤ i + fuel →
      queue (respPollEnqueue.scan head fuel i s) =
        (queue s).take i ++ ((queue s).drop i).eraseP isImmediate := by
  intro fuel
  induction fuel with
  | zero =>
    intro i s hs h66 hi hf
    have : (queue s).length ≤ i := by rw [queue_length]; omega
    simp [respPollEnqueue.scan, List.take_of_length_le this, List.drop_of_length_le this]
  | succ n ih =>
    intro i s hs h66 hi hf
    unfold respPollEnqueue.scan
    by_cases hlt : i < head
    · have hl : i < (queue s).length := by rw [queue_length]; omega
      rw [if_pos hlt]
      by_cases ht : (s.poll_queue i).type = IMMEDIATE
      · rw [if_pos ht, queue_sysDelete i s (by omega) (by omega)]
        exact take_append_drop_succ_eraseP _ _ _ hl
          (by rw [queue_getElem]; simp [isImmediate, ht])
      · rw [if_neg ht, ih (i + 1) s hs h66 (by omega) (by omega)]
        exact take_append_eraseP_drop _ _ _ hl
          (by rw [queue_getElem]; simp [isImmediate, ht])
    · have : (queue s).length ≤ i := by rw [queue_length]; omega
      simp [if_neg hlt, List.take_of_length_le this, List.drop_of_length_le this]

theorem updatePending_scan_queue (c : Nat) (head : Nat) :
    ∀ (fuel i : Nat) (s : response_poll_t), s.head = head → head ≤ 66 → i ≤ head →
      head ≤ i + fuel →
      queue (respPollUpdatePending.scan c head fuel i s) =
        (queue s).take i ++ ((queue s).drop i).eraseP (hasId c) := by
  intro fuel
  induction fuel with
  | zero =>
    intro i s hs h66 hi hf
    have : (queue s).length ≤ i := by rw [queue_length]; omega
    simp [respPollUpdatePending.scan, List.take_of_length_le this, List.drop_of_length_le this]
  | succ n ih =>
    intro i s hs h66 hi hf
    unfold respPollUpdatePending.scan
    by_cases hlt : i < head
    · have hl : i < (queue s).length := by rw [queue_length]; omega
      rw [if_pos hlt]
      by_cases ht : (s.poll_queue i).cmd_ID = c
      · rw [if_pos ht, queue_sysDelete i s (by omega) (by omega)]
        exact take_append_drop_succ_eraseP _ _ _ hl
          (by rw [queue_getElem]; simp [hasId, ht])
      · rw [if_neg ht, ih (i + 1) s hs h66 (by omega) (by omega)]
        exact take_append_eraseP_drop _ _ _ hl
          (by rw [queue_getElem]; simp [hasId, ht])
    · have : (queue s).length ≤ i := by rw [queue_length]; omega
      simp [if_neg hlt, List.take_of_length_le this, List.drop_of_length_le this]

/-- A scan that meets no `IMMEDIATE` entry leaves the poll as it is. -/
theorem enqueue_scan_none (head : Nat) :
    ∀ (fuel i : Nat) (s : response_poll_t),
      (∀ j, i ≤ j → j < head → (s.poll_queue j).type ≠ IMMEDIATE) →
      respPollEnqueue.scan head fuel i s = s := by
  intro fuel
  induction fuel with
  | zero => intro i s _; rfl
  | succ n ih =>
    intro i s h
    unfold respPollEnqueue.scan
    by_cases hlt : i < head
    · rw [if_pos hlt, if_neg (h i (le_refl _) hlt)]
      exact ih (i + 1) s (fun j hj hjh => h j (by omega) hjh)
    · rw [if_neg hlt]

theorem queue_enqueue (e : resp_poll_t) (s : response_poll_t) :
    queue (respPollEnqueue e s) = enqueueL e (queue s) := by
  unfold respPollEnqueue enqueueL
  by_cases h66 : s.head = POLL_SIZE
  · have h66n : s.head = 66 := h66
    have hq : queue (respPollEnqueue.scan s.head s.head 0 s) =
        (queue s).eraseP isImmediate := by
      rw [enqueue_scan_queue s.head s.head 0 s rfl (by omega) (by omega) (by omega)]
      simp
    simp only [if_pos h66, queue_length]
    have hlen : (respPollEnqueue.scan s.head s.head 0 s).head =
        ((queue s).eraseP isImmediate).length := by
      rw [← hq, queue_length]
    rw [hlen]
    by_cases hl : ((queue s).eraseP isImmediate).length < POLL_SIZE
    · rw [if_pos hl, if_pos hl, ← hlen, queue_push, hq]
    · rw [if_neg hl, if_neg hl, hq]
  · simp only [if_neg h66, queue_length]
    by_cases hl : s.head < POLL_SIZE
    · rw [if_pos hl, if_pos hl, queue_push]
    · rw [if_neg hl, if_neg hl]

theorem enqueueL_length_le (e : resp_poll_t) (l : List resp_poll_t) (h : l.length ≤ 66) :
    (enqueueL e l).length ≤ 66 := by
  unfold enqueueL
  have h1 := List.length_eraseP_le (p := isImmediate) l
  simp only [POLL_SIZE]
  split_ifs <;> simp <;> omega

theorem queue_updatePending (e : resp_poll_t) (s : response_poll_t) (h : s.head ≤ 66) :
    queue (respPollUpdatePending e s) = updatePendingL e (queue s) := by
  unfold respPollUpdatePending updatePendingL
  rw [queue_enqueue,
    updatePending_scan_queue e.cmd_ID s.head s.head 0 s rfl h (by omega) (by omega)]
  simp

theorem updatePendingL_length_le (e : resp_poll_t) (l : List resp_poll_t) (h : l.length ≤ 66) :
    (updatePendingL e l).length ≤ 66 :=
  enqueueL_length_le e _ (le_trans (List.length_eraseP_le _) h)

theorem abortLoop_queue (al : resp_poll_t) :
    ∀ (fuel i : Nat) (s : response_poll_t), s.head ≤ 66 →
      (respPollAbort.loop al fuel i s).map queue = abortLoopL al fuel i (queue s) := by
  intro fuel
  induction fuel with
  | zero => intro i s _; rfl
  | succ n ih =>
    intro i s h
    unfold respPollAbort.loop abortLoopL
    by_cases hlt : i < s.head
    · have hl : i < (queue s).length := by rw [queue_length]; exact hlt
      rw [if_pos hlt, dif_pos hl]
      simp only [queue_getElem, isUnexecuted, decide_eq_true_eq]
      by_cases hu : (s.poll_queue i).type = PENDING ∧ (s.poll_queue i).status = 42
      · rw [if_pos hu, if_pos hu, ih, queue_updatePending _ _ h]
        rw [← queue_length, queue_updatePending _ _ h]
        exact updatePendingL_length_le _ _ (by rw [queue_length]; exact h)
      · rw [if_neg hu, if_neg hu, ih _ _ h]
    · have hl : ¬ i < (queue s).length := by rw [queue_length]; exact hlt
      rw [if_neg hlt, dif_neg hl]
      rfl

theorem eraseP_eq_eraseIdx_findIdx (p : resp_poll_t → Bool) (l : List resp_poll_t) :
    l.eraseP p = l.eraseIdx (l.findIdx p) := by
  induction l with
  | nil => rfl
  | cons a t ih =>
    rw [List.eraseP_cons, List.findIdx_cons]
    cases hp : p a
    · simp only [cond_false, List.eraseIdx_cons_succ, ih]
    · simp only [cond_true, List.eraseIdx_cons_zero]

theorem drop_eraseIdx_of_le (l : List resp_poll_t) :
    ∀ (k i : Nat), k ≤ i → (l.eraseIdx k).drop i = l.drop (i + 1) := by
  induction l with
  | nil => intro k i _; simp
  | cons a t ih =>
    intro k i hk
    cases k with
    | zero => simp
    | succ k =>
      cases i with
      | zero => omega
      | succ i =>
        simp only [List.eraseIdx_cons_succ, List.drop_succ_cons]
        exact ih k i (by omega)

theorem findIdx_le_of_getElem (p : resp_poll_t → Bool) (l : List resp_poll_t) (i : Nat)
    (h : i < l.length) (hp : p l[i] = true) : l.findIdx p ≤ i := by
  by_contra hc
  have := @List.not_of_lt_findIdx _ p l i (by omega)
  simp [hp] at this

theorem enqueueL_of_lt (e : resp_poll_t) (l : List resp_poll_t) (h : l.length < 66) :
    enqueueL e l = l ++ [e] := by
  unfold enqueueL
  have h1 : ¬ l.length = POLL_SIZE := by simp only [POLL_SIZE]; omega
  have h2 : l.length < POLL_SIZE := h
  simp only [if_neg h1, if_pos h2]

theorem updatePendingL_of_mem (e : resp_poll_t) (l : List resp_poll_t) (hlen : l.length ≤ 66)
    (x : resp_poll_t) (hx : x ∈ l) (hid : hasId e.cmd_ID x = true) :
    updatePendingL e l = l.eraseP (hasId e.cmd_ID) ++ [e] := by
  unfold updatePendingL
  apply enqueueL_of_lt
  have hpos : 0 < l.length := List.length_pos_of_mem hx
  rw [List.length_eraseP_of_mem hx hid]
  omega

theorem updatePendingL_at (al : resp_poll_t) (l : List resp_poll_t) (i : Nat)
    (h : i < l.length) (hlen : l.length ≤ 66) :
    updatePendingL { al with cmd_ID := l[i].cmd_ID } l =
      l.eraseP (hasId l[i].cmd_ID) ++ [{ al with cmd_ID := l[i].cmd_ID }] :=
  updatePendingL_of_mem _ l hlen l[i] (List.getElem_mem h) (by simp [hasId])

theorem length_rewrite (al : resp_poll_t) (l : List resp_poll_t) (i : Nat) (h : i < l.length) :
    (l.eraseP (hasId l[i].cmd_ID) ++ [{ al with cmd_ID := l[i].cmd_ID }]).length = l.length := by
  rw [List.length_append, List.length_eraseP_of_mem (List.getElem_mem h) (by simp [hasId])]
  simp
  omega

theorem drop_rewrite (e : resp_poll_t) (l : List resp_poll_t) (i : Nat) (h : i < l.length) :
    (l.eraseP (hasId l[i].cmd_ID) ++ [e]).drop i = l.drop (i + 1) ++ [e] := by
  rw [eraseP_eq_eraseIdx_findIdx]
  have hk := findIdx_le_of_getElem (hasId l[i].cmd_ID) l i h (by simp [hasId])
  have hlen : (l.eraseIdx (List.findIdx (hasId l[i].cmd_ID) l)).length = l.length - 1 := by
    rw [List.length_eraseIdx]
    have : List.findIdx (hasId l[i].cmd_ID) l < l.length := by omega
    simp [this]
  rw [List.drop_append_of_le_length (by omega), drop_eraseIdx_of_le _ _ _ hk]

/-- The abort loop comes to an end: the number of slots still to visit plus the number
of unexecuted pending entries among them goes down at every iteration. -/
theorem abortLoopL_terminates (al : resp_poll_t) (hal : isUnexecuted al = false) :
    ∀ (fuel i : Nat) (l : List resp_poll_t), l.length ≤ 66 →
      (l.length - i) + (l.drop i).countP isUnexecuted < fuel →
      ∃ r, abortLoopL al fuel i l = some r := by
  intro fuel
  induction fuel with
  | zero => intro i l _ h; omega
  | succ n ih =>
    intro i l hlen hf
    unfold abortLoopL
    by_cases hlt : i < l.length
    · rw [dif_pos hlt]
      rw [List.drop_eq_getElem_cons hlt, List.countP_cons] at hf
      by_cases hu : isUnexecuted l[i] = true
      · rw [if_pos hu, updatePendingL_at al l i hlt hlen]
        apply ih
        · rw [length_rewrite]; exact hlen
        · rw [length_rewrite, drop_rewrite _ _ _ hlt, List.countP_append]
          have he : isUnexecuted { al with cmd_ID := l[i].cmd_ID } = false := by
            simpa [isUnexecuted] using hal
          simp only [hu, if_true] at hf
          simp [he]
          omega
      · rw [if_neg hu]
        apply ih _ _ hlen
        simp only [hu] at hf
        simp at hf
        omega
    · rw [dif_neg hlt]
      exact ⟨l, rfl⟩

/-- Loop rule for the abort loop: a property kept by a rewrite at the current index and
by a step over an entry that is not rewritten holds at the exit, where the index has
reached the end of the queue. -/
theorem abortLoopL_invariant (al : resp_poll_t) (Inv : Nat → List resp_poll_t → Prop)
    (hrw : ∀ (i : Nat) (l : List resp_poll_t) (h : i < l.length), l.length ≤ 66 → Inv i l →
      isUnexecuted l[i] = true →
      Inv i (l.eraseP (hasId l[i].cmd_ID) ++ [{ al with cmd_ID := l[i].cmd_ID }]))
    (hskip : ∀ (i : Nat) (l : List resp_poll_t) (h : i < l.length), Inv i l →
      isUnexecuted l[i] = false → Inv (i + 1) l) :
    ∀ (fuel i : Nat) (l r : List resp_poll_t), l.length ≤ 66 → Inv i l →
      abortLoopL al fuel i l = some r → ∃ k, r.length ≤ k ∧ Inv k r ∧ r.length ≤ 66 := by
  intro fuel
  induction fuel with
  | zero => intro i l r _ _ h; simp [abortLoopL] at h
  | succ n ih =>
    intro i l r hlen hinv h
    unfold abortLoopL at h
    by_cases hlt : i < l.length
    · rw [dif_pos hlt] at h
      by_cases hu : isUnexecuted l[i] = true
      · rw [if_pos hu, updatePendingL_at al l i hlt hlen] at h
        exact ih i _ r (by rw [length_rewrite]; exact hlen) (hrw i l hlt hlen hinv hu) h
      · rw [if_neg hu] at h
        exact ih (i + 1) l r hlen (hskip i l hlt hinv (by simpa using hu)) h
    · rw [dif_neg hlt] at h
      cases h
      exact ⟨i, by omega, hinv, hlen⟩

theorem mem_queue (s : response_poll_t) (x : resp_poll_t) :
    x ∈ queue s ↔ ∃ i, i < s.head ∧ s.poll_queue i = x := by
  simp [queue]

theorem enqueueL_cases (e : resp_poll_t) (l : List resp_poll_t) :
    enqueueL e l = l.eraseP isImmediate ++ [e] ∨ enqueueL e l = l.eraseP isImmediate ∨
      enqueueL e l = l ++ [e] ∨ enqueueL e l = l := by
  unfold enqueueL
  dsimp only
  split_ifs <;> simp

theorem mem_of_mem_enqueueL (e x : resp_poll_t) (l : List resp_poll_t)
    (h : x ∈ enqueueL e l) : x ∈ l ∨ x = e := by
  rcases enqueueL_cases e l with hc | hc | hc | hc <;> rw [hc] at h
  · rcases List.mem_append.1 h with h1 | h1
    · exact Or.inl ((List.eraseP_sublist l).subset h1)
    · exact Or.inr (by simpa using h1)
  · exact Or.inl ((List.eraseP_sublist l).subset h)
  · rcases List.mem_append.1 h with h1 | h1
    · exact Or.inl h1
    · exact Or.inr (by simpa using h1)
  · exact Or.inl h

theorem mem_enqueueL (e x : resp_poll_t) (l : List resp_poll_t) (hx : x ∈ l)
    (hi : isImmediate x = false) : x ∈ enqueueL e l := by
  have h1 : x ∈ l.eraseP isImmediate := (List.mem_eraseP_of_neg (by simp [hi])).2 hx
  rcases enqueueL_cases e l with hc | hc | hc | hc <;> rw [hc]
  · exact List.mem_append_left _ h1
  · exact h1
  · exact List.mem_append_left _ hx
  · exact hx

theorem pairwise_enqueueL (R : resp_poll_t → resp_poll_t → Prop) (e : resp_poll_t)
    (l : List resp_poll_t) (hR : ∀ a, a ∈ l → R a e) (h : l.Pairwise R) :
    (enqueueL e l).Pairwise R := by
  have h1 : (l.eraseP isImmediate).Pairwise R := h.sublist (List.eraseP_sublist l)
  have hR1 : ∀ a, a ∈ l.eraseP isImmediate → R a e :=
    fun a ha => hR a ((List.eraseP_sublist l).subset ha)
  rcases enqueueL_cases e l with hc | hc | hc | hc <;> rw [hc]
  · exact List.pairwise_append.2 ⟨h1, List.pairwise_singleton _ _, by simpa using hR1⟩
  · exact h1
  · exact List.pairwise_append.2 ⟨h, List.pairwise_singleton _ _, by simpa using hR⟩
  · exact h

/-- `respPollAbort` returns: its loop ends within the budget, and the entries of the
result are those the list view of the loop computes. -/
theorem respPollAbort_some (status time : Nat) (s : response_poll_t) (h : s.head ≤ 66) :
    ∃ r, respPollAbort status time s = some r ∧ r.head ≤ 66 ∧
      ∃ fuel, abortLoopL (abortMarker status time) fuel 0
        (enqueueL (abortMarker status time) (queue s)) = some (queue r) := by
  have hl0 : (enqueueL (abortMarker status time) (queue s)).length ≤ 66 :=
    enqueueL_length_le _ _ (by rw [queue_length]; exact h)
  have hs1 : (respPollEnqueue (abortMarker status time) s).head ≤ 66 := by
    rw [← queue_length, queue_enqueue]; exact hl0
  have hq := abortLoop_queue (abortMarker status time)
    (2 * (respPollEnqueue (abortMarker status time) s).head + 1) 0 _ hs1
  rw [queue_enqueue] at hq
  obtain ⟨r1, hr1⟩ := abortLoopL_terminates (abortMarker status time)
    (by simp [isUnexecuted, abortMarker])
    (2 * (respPollEnqueue (abortMarker status time) s).head + 1) 0
    (enqueueL (abortMarker status time) (queue s)) hl0 (by
      have hc := List.countP_le_length isUnexecuted
        (l := enqueueL (abortMarker status time) (queue s))
      have he : (respPollEnqueue (abortMarker status time) s).head =
          (enqueueL (abortMarker status time) (queue s)).length := by
        rw [← queue_length, queue_enqueue]
      rw [List.drop_zero, he]
      omega)
  rw [hr1] at hq
  cases hloop : respPollAbort.loop (abortMarker status time)
      (2 * (respPollEnqueue (abortMarker status time) s).head + 1) 0
      (respPollEnqueue (abortMarker status time) s) with
  | none => rw [hloop] at hq; simp at hq
  | some r =>
    rw [hloop] at hq
    simp only [Option.map_some', Option.some.injEq] at hq
    refine ⟨r, hloop, ?_,
      2 * (respPollEnqueue (abortMarker status time) s).head + 1, ?_⟩
    · obtain ⟨k, _, _, h66⟩ := abortLoopL_invariant (abortMarker status time)
        (fun _ _ => True) (fun _ _ _ _ _ _ => trivial) (fun _ _ _ _ _ => trivial)
        _ 0 _ r1 hl0 trivial hr1
      rw [← queue_length, hq]; exact h66
    · rw [hq]; exact hr1

/-- The abort marker, once in the poll, stays in the poll: a rewrite that removes it
puts an equal entry back. -/
theorem respPollAbort_keeps_marker (status time : Nat) (fuel : Nat) (l r : List resp_poll_t)
    (hlen : l.length ≤ 66) (hm : abortMarker status time ∈ l)
    (h : abortLoopL (abortMarker status time) fuel 0 l = some r) :
    abortMarker status time ∈ r := by
  obtain ⟨k, _, hk, _⟩ := abortLoopL_invariant (abortMarker status time)
    (fun _ l => abortMarker status time ∈ l)
    (by
      intro i l hi _ hin _
      by_cases hc : l[i].cmd_ID = (abortMarker status time).cmd_ID
      · apply List.mem_append_right
        rw [hc]
        exact List.mem_singleton.2 rfl
      · apply List.mem_append_left
        exact (List.mem_eraseP_of_neg (by simpa [hasId] using fun h => hc h.symm)).2 hin)
    (fun _ _ _ hin _ => hin) fuel 0 l r hlen hm h
  exact hk

theorem respPollAbort_loop_rewrites (al : resp_poll_t) (hal : al.type = PENDING_COMPLETE)
    (q0 : List resp_poll_t) (fuel : Nat) (l r : List resp_poll_t)
    (hlen : l.length ≤ 66)
    (h42 : ∀ x, x ∈ l → x.type = PENDING → x.status = 42)
    (hfirst : l.Pairwise firstOfId)
    (hq0 : ∀ x, x ∈ q0 → x.type = PENDING → x ∈ l)
    (h : abortLoopL al fuel 0 l = some r) :
    (∀ x, x ∈ r → x.type ≠ PENDING) ∧
      ∀ x, x ∈ q0 → x.type = PENDING → { al with cmd_ID := x.cmd_ID } ∈ r := by
  obtain ⟨k, hk, ⟨_, _, htake, hcp⟩, _⟩ := abortLoopL_invariant al
    (fun i l => (∀ x, x ∈ l → x.type = PENDING → x.status = 42) ∧ l.Pairwise firstOfId ∧
      (∀ x, x ∈ l.take i → x.type ≠ PENDING) ∧
      ∀ x, x ∈ q0 → x.type = PENDING → x ∈ l ∨ { al with cmd_ID := x.cmd_ID } ∈ l)
    (by
      rintro i l hi _ ⟨h1, h2, h3, h4⟩ hu
      have hpi : l[i].type = PENDING := by
        simp only [isUnexecuted, decide_eq_true_eq] at hu; exact hu.1
      have hnone : ∀ a, a ∈ l.take i → ¬ hasId l[i].cmd_ID a = true := by
        intro a ha
        obtain ⟨j, hj, rfl⟩ := List.getElem_of_mem ha
        rw [List.length_take] at hj
        have hj1 : j < i := by omega
        have hR := (List.pairwise_iff_getElem.1 h2) j i (by omega) hi hj1
        have hnp := h3 _ ha
        rw [List.getElem_take] at hnp ⊢
        simpa [hasId] using hR hpi hnp
      have hsplit : l.eraseP (hasId l[i].cmd_ID) =
          l.take i ++ (l.drop i).eraseP (hasId l[i].cmd_ID) := by
        have hs := @List.eraseP_append_right _ (hasId l[i].cmd_ID) (l.take i) (l.drop i) hnone
        rwa [List.take_append_drop] at hs
      refine ⟨?_, ?_, ?_, ?_⟩
      · intro x hx hp
        rcases List.mem_append.1 hx with hx1 | hx1
        · exact h1 x ((List.eraseP_sublist l).subset hx1) hp
        · rw [List.mem_singleton.1 hx1] at hp
          simp [hal] at hp
      · refine List.pairwise_append.2
          ⟨h2.sublist (List.eraseP_sublist l), List.pairwise_singleton _ _, ?_⟩
        intro a _ b hb
        rw [List.mem_singleton.1 hb]
        intro hp
        simp [hal] at hp
      · intro x hx
        rw [hsplit, List.append_assoc, List.take_left' (by simp; omega)] at hx
        exact h3 x hx
      · intro x hx hp
        by_cases hc : x.cmd_ID = l[i].cmd_ID
        · right
          apply List.mem_append_right
          rw [hc]
          exact List.mem_singleton.2 rfl
        · rcases h4 x hx hp with hin | hin
          · left
            apply List.mem_append_left
            exact (List.mem_eraseP_of_neg (by simpa [hasId] using hc)).2 hin
          · right
            apply List.mem_append_left
            exact (List.mem_eraseP_of_neg (by simpa [hasId] using hc)).2 hin)
    (by
      rintro i l hi ⟨h1, h2, h3, h4⟩ hu
      refine ⟨h1, h2, ?_, h4⟩
      intro x hx
      rw [List.take_succ, List.getElem?_eq_getElem hi] at hx
      rcases List.mem_append.1 hx with hx1 | hx1
      · exact h3 x hx1
      · have hxe : x = l[i] := by simpa using hx1
        intro hp
        rw [hxe] at hp
        have := h1 _ (List.getElem_mem hi) hp
        simp [isUnexecuted, hp, this] at hu)
    fuel 0 l r hlen
    ⟨h42, hfirst, by simp, fun x hx hp => Or.inl (hq0 x hx hp)⟩ h
  rw [List.take_of_length_le hk] at htake
  refine ⟨htake, ?_⟩
  intro x hx hp
  rcases hcp x hx hp with hin | hin
  · exact absurd hp (htake x hin)
  · exact hin

theorem sensor_val_some (now : Nat) (g : GlobalX) (c : condition_t) (h : validCond c) :
    ∃ v, checkCond.sensor_val now g c = some v ∧
      (c.sensor_id = 254 →
        (v : Int) = ((now : Int) - (g.csSequence.lastCmdTime : Int)) % 4294967296) ∧
      (c.sensor_id = 255 → v = now) ∧
      (c.sensor_id < 44 → v = g.csLastTelemetry.reading c.sensor_id) := by
  unfold checkCond.sensor_val
  simp only [PSENSOR_COMMAND_RELATIVE_TIME, PSENSOR_ABSOLUTE_TIME, NUM_READINGS]
  by_cases h1 : c.sensor_id = 254
  · rw [if_pos h1]
    refine ⟨_, rfl, ?_, ?_, ?_⟩
    · intro _; omega
    · intro h2; omega
    · intro h2; omega
  · rw [if_neg h1]
    by_cases h2 : c.sensor_id = 255
    · rw [if_pos h2]
      exact ⟨_, rfl, fun h => absurd h h1, fun _ => rfl, fun h => by omega⟩
    · rw [if_neg h2]
      have h3 : c.sensor_id < 44 := by
        rcases h with h | h | h
        · exact h
        · exact absurd h h1
        · exact absurd h h2
      rw [if_pos h3]
      exact ⟨_, rfl, fun h => absurd h h1, fun h => absurd h h2, fun _ => rfl⟩

theorem checkCond_some (now : Nat) (g : GlobalX) (c : condition_t) (h : validCond c) :
    ∃ v b, checkCond now g c = some b ∧ (b = true ↔ cmpHolds c.comparator v c.value) ∧
      (c.sensor_id = 254 →
        (v : Int) = ((now : Int) - (g.csSequence.lastCmdTime : Int)) % 4294967296) ∧
      (c.sensor_id = 255 → v = now) ∧
      (c.sensor_id < 44 → v = g.csLastTelemetry.reading c.sensor_id) := by
  obtain ⟨v, hv, h1, h2, h3⟩ := sensor_val_some now g c h
  unfold checkCond
  rw [hv, Option.map_some']
  refine ⟨v, _, rfl, ?_, h1, h2, h3⟩
  cases c.comparator <;> simp [cmpHolds]

theorem evalSwitch_result (now : Nat) (g : GlobalX) (cs : conditions_t) (status0 : Nat)
    (l r : Bool) (hl : checkCond now g cs.left = some l)
    (hr : cs.op ≠ cond_op_t.JUST → checkCond now g cs.right = some r) :
    ∃ status, pendingProcess.evalSwitch now g cs status0 =
      some ((match cs.op with
        | cond_op_t.JUST => l
        | cond_op_t.AND => l && r
        | cond_op_t.OR => l || r), status) := by
  unfold pendingProcess.evalSwitch
  cases hop : cs.op with
  | JUST => exact ⟨1, by simp [hl]⟩
  | AND =>
    have hr1 := hr (by simp [hop])
    cases l <;> simp [hl, hr1]
  | OR =>
    have hr1 := hr (by simp [hop])
    cases l <;> cases r <;> simp [hl, hr1]
    split_ifs <;> exact ⟨_, rfl⟩

theorem evalSwitch_some (now : Nat) (g : GlobalX) (cs : conditions_t) (status0 : Nat)
    (h : validConds cs) : ∃ b status, pendingProcess.evalSwitch now g cs status0 = some (b, status) := by
  obtain ⟨_, l, hl, _⟩ := checkCond_some now g cs.left h.1
  by_cases hop : cs.op = cond_op_t.JUST
  · obtain ⟨st, hst⟩ := evalSwitch_result now g cs status0 l false hl (fun h => absurd hop h)
    exact ⟨_, st, hst⟩
  · obtain ⟨_, r, hr, _⟩ := checkCond_some now g cs.right (h.2 hop)
    obtain ⟨st, hst⟩ := evalSwitch_result now g cs status0 l r hl (fun _ => hr)
    exact ⟨_, st, hst⟩

/-- A compound condition that triggers carries a status in 1..5 (never 3). -/
theorem evalSwitch_true_status (now : Nat) (g : GlobalX) (cs : conditions_t)
    (status0 status : Nat)
    (h : pendingProcess.evalSwitch now g cs status0 = some (true, status)) :
    status = 1 ∨ status = 2 ∨ status = 4 ∨ status = 5 := by
  unfold pendingProcess.evalSwitch at h
  cases hop : cs.op with
  | JUST =>
    rw [hop] at h
    cases hl : checkCond now g cs.left with
    | none => simp [hl] at h
    | some l => simp [hl] at h; omega
  | AND =>
    rw [hop] at h
    cases hl : checkCond now g cs.left with
    | none => simp [hl] at h
    | some l =>
      cases l
      · simp [hl] at h
      · cases hr : checkCond now g cs.right with
        | none => simp [hl, hr] at h
        | some r => simp [hl, hr] at h; omega
  | OR =>
    rw [hop] at h
    cases hl : checkCond now g cs.left with
    | none => simp [hl] at h
    | some l =>
      cases l
      · cases hr : checkCond now g cs.right with
        | none => simp [hl, hr] at h
        | some r =>
          cases r
          · simp [hl, hr] at h
          · simp [hl, hr] at h
            split_ifs at h <;> simp at h <;> omega
      · simp [hl] at h; omega

theorem normalize_frame (time : Nat) (g : GlobalX) :
    (pendingProcess.normalize time g).csSequence.cmd_queue = g.csSequence.cmd_queue ∧
    (pendingProcess.normalize time g).csSequence.seq_ready_flag = g.csSequence.seq_ready_flag ∧
    (pendingProcess.normalize time g).csSequence.lastCmdTime = g.csSequence.lastCmdTime ∧
    (pendingProcess.normalize time g).csResponsePoll = g.csResponsePoll ∧
    (pendingProcess.normalize time g).csLastTelemetry = g.csLastTelemetry ∧
    (pendingProcess.normalize time g).csState = g.csState ∧
    (pendingProcess.normalize time g).csBeacon = g.csBeacon := by
  unfold pendingProcess.normalize
  dsimp only
  split_ifs <;> simp

theorem beaconMsgUpdateSingle_D (g : GlobalX) :
    beaconMsgUpdateSingle SOFTWARE_STATE 'D' g =
      { g with csBeacon := { g.csBeacon with
          beaconMsg := Function.update g.csBeacon.beaconMsg SOFTWARE_STATE 'D' } } := by
  unfold beaconMsgUpdateSingle
  have h1 : ¬ ('D' < '0') := by decide
  have h2 : ¬ ('D' > '9' ∧ 'D' < 'A') := by decide
  have h3 : ¬ ('D' > 'Z') := by decide
  have h4 : ¬ ('D' = 'E' ∨ 'D' = 'T') := by decide
  rw [if_neg h1, if_neg h2, if_neg h3]
  simp only [if_neg h4]

theorem mem_enqueueL_self (e : resp_poll_t) (l : List resp_poll_t) (hlen : l.length ≤ 66)
    (hroom : l.length < 66 ∨ ∃ x, x ∈ l ∧ isImmediate x = true) : e ∈ enqueueL e l := by
  by_cases hlt : l.length < 66
  · rw [enqueueL_of_lt e l hlt]; simp
  · have h66 : l.length = 66 := by omega
    obtain ⟨x, hx, hi⟩ := hroom.resolve_left hlt
    unfold enqueueL
    have hA : l.length = POLL_SIZE := h66
    have hB : (l.eraseP isImmediate).length < POLL_SIZE := by
      rw [List.length_eraseP_of_mem hx hi, h66]; decide
    simp only [if_pos hA, if_pos hB]
    simp

theorem pendingProcess_guard (now status0 : Nat) (w : World)
    (hcount : w.g.csSequence.cmd_queue.count > 0) (hready : w.g.csSequence.seq_ready_flag ≠ 0) :
    pendingProcess now status0 w =
      (pendingProcess.body now status0 w).map fun w1 =>
        if w1.g.csState.statMonState = StatMonState.PENDING_PROCESS then
          { w1 with g := statMonStateToPrevious w1.g }
        else w1 := by
  unfold pendingProcess
  rw [if_pos ⟨hcount, hready⟩]

theorem peek_of_count (q : PendCmdQueue) (h : q.count > 0) :
    ∃ cmd rest, q.items = cmd :: rest ∧ PendCmdQueue_Peek q = some cmd := by
  unfold PendCmdQueue.count at h
  unfold PendCmdQueue_Peek
  cases hq : q.items with
  | nil => rw [hq] at h; simp at h
  | cons c r => exact ⟨c, r, rfl, rfl⟩

theorem statMon_step_frame (w1 : World) :
    (if w1.g.csState.statMonState = StatMonState.PENDING_PROCESS then
      ({ w1 with g := statMonStateToPrevious w1.g } : World) else w1).calls = w1.calls ∧
    (if w1.g.csState.statMonState = StatMonState.PENDING_PROCESS then
      ({ w1 with g := statMonStateToPrevious w1.g } : World) else w1).g.csSequence =
        w1.g.csSequence ∧
    (if w1.g.csState.statMonState = StatMonState.PENDING_PROCESS then
      ({ w1 with g := statMonStateToPrevious w1.g } : World) else w1).g.csResponsePoll =
        w1.g.csResponsePoll ∧
    (if w1.g.csState.statMonState = StatMonState.PENDING_PROCESS then
      ({ w1 with g := statMonStateToPrevious w1.g } : World) else w1).g.csBeacon =
        w1.g.csBeacon := by
  split_ifs <;> simp [statMonStateToPrevious, changeStatMonState]

theorem body_abort (now status0 : Nat) (w : World) (status : Nat)
    (hcount : w.g.csSequence.cmd_queue.count > 0)
    (hexit : pendingProcess.evalSwitch now (pendingProcess.normalize now w.g)
      (pendingProcess.normalize now w.g).csSequence.exit status0 = some (true, status))
    (hhead : w.g.csResponsePoll.head ≤ 66) :
    ∃ r, respPollAbort status now w.g.csResponsePoll = some r ∧
      pendingProcess.body now status0 w = some
        { g := beaconMsgUpdateSingle SOFTWARE_STATE 'D'
            { pendingProcess.normalize now w.g with
              csSequence := { (pendingProcess.normalize now w.g).csSequence with
                cmd_queue := PendCmdQueue.cleared }
              csResponsePoll := r }
          calls := w.calls ++ [hw_call.resetPayload] } := by
  obtain ⟨r, hr, _⟩ := respPollAbort_some status now w.g.csResponsePoll hhead
  refine ⟨r, hr, ?_⟩
  obtain ⟨hq, _, _, hp, _⟩ := normalize_frame now w.g
  obtain ⟨cmd, rest, _, hpeek⟩ := peek_of_count w.g.csSequence.cmd_queue hcount
  unfold pendingProcess.body
  simp only [hq, hpeek, Option.some_bind, hexit, if_true, abortSequence, hp, hr,
    Option.map_some']

theorem findIdx_eq_of_first (p : resp_poll_t → Bool) (l : List resp_poll_t) (k : Nat)
    (hk : k < l.length) (hp : p l[k] = true)
    (hfirst : ∀ j, j < k → ∀ (hj : j < l.length), p l[j] = false) : l.findIdx p = k := by
  have hle := findIdx_le_of_getElem p l k hk hp
  by_contra hne
  have hlt : l.findIdx p < k := by omega
  have h1 := @List.findIdx_getElem _ p l (by omega)
  rw [hfirst _ hlt (by omega)] at h1
  simp at h1

theorem filter_eraseP_of_neg (p : resp_poll_t → Bool) (l : List resp_poll_t) :
    (l.eraseP p).filter (fun x => !p x) = l.filter (fun x => !p x) := by
  induction l with
  | nil => rfl
  | cons a t ih =>
    rw [List.eraseP_cons]
    cases hp : p a
    · simp only [cond_false, List.filter_cons, hp, Bool.not_false, if_true, ih]
    · simp only [cond_true, List.filter_cons, hp, Bool.not_true]
      simp

theorem filter_sublist_enqueueL (e : resp_poll_t) (l : List resp_poll_t) :
    (l.filter (fun x => !isImmediate x)).Sublist (enqueueL e l) := by
  have h1 : (l.filter (fun x => !isImmediate x)).Sublist (l.eraseP isImmediate) := by
    rw [← filter_eraseP_of_neg]; exact List.filter_sublist _
  rcases enqueueL_cases e l with hc | hc | hc | hc <;> rw [hc]
  · exact h1.trans (List.sublist_append_left _ _)
  · exact h1
  · exact (List.filter_sublist _).trans (List.sublist_append_left _ _)
  · exact List.filter_sublist _

/-- C1: `respPollEnqueue` on a poll with `head <= 66`. With room the entry is appended at
index `head`; a full poll loses its lowest-index `IMMEDIATE` entry, keeps the others in
order and gets the entry as its last one; a full poll without `IMMEDIATE` entry is left
unchanged; the entries that are not `IMMEDIATE` are all kept, in order. -/
theorem respPollEnqueue_contract (s : response_poll_t) (e : resp_poll_t) (_hhead : s.head ≤ 66) :
    (s.head < 66 →
      (respPollEnqueue e s).head = s.head + 1 ∧
        queue (respPollEnqueue e s) = queue s ++ [e]) ∧
    (s.head = 66 → ∀ k, k < 66 → (s.poll_queue k).type = IMMEDIATE →
      (∀ j, j < k → (s.poll_queue j).type ≠ IMMEDIATE) →
      (respPollEnqueue e s).head = 66 ∧
        queue (respPollEnqueue e s) = (queue s).eraseIdx k ++ [e]) ∧
    (s.head = 66 → (∀ j, j < 66 → (s.poll_queue j).type ≠ IMMEDIATE) →
      respPollEnqueue e s = s) ∧
    ((queue s).filter (fun x => !isImmediate x)).Sublist (queue (respPollEnqueue e s)) := by
  refine ⟨?_, ?_, ?_, ?_⟩
  · intro hlt
    have hq : queue (respPollEnqueue e s) = queue s ++ [e] := by
      rw [queue_enqueue, enqueueL_of_lt _ _ (by rw [queue_length]; exact hlt)]
    refine ⟨?_, hq⟩
    rw [← queue_length, hq, List.length_append, queue_length]
    rfl
  · intro h66 k hk himm hfirst
    have hkl : k < (queue s).length := by rw [queue_length]; omega
    have hidx : (queue s).findIdx isImmediate = k := by
      apply findIdx_eq_of_first _ _ _ hkl
      · rw [queue_getElem]; simp [isImmediate, himm]
      · intro j hj hjl
        rw [queue_getElem]
        simp [isImmediate, hfirst j hj]
    have hq : queue (respPollEnqueue e s) = (queue s).eraseIdx k ++ [e] := by
      rw [queue_enqueue, ← hidx, ← eraseP_eq_eraseIdx_findIdx]
      unfold enqueueL
      have hA : (queue s).length = POLL_SIZE := by rw [queue_length]; exact h66
      have hB : ((queue s).eraseP isImmediate).length < POLL_SIZE := by
        rw [List.length_eraseP_of_mem (List.getElem_mem hkl)
          (by rw [queue_getElem]; simp [isImmediate, himm]), hA]
        decide
      simp only [if_pos hA, if_pos hB]
    refine ⟨?_, hq⟩
    rw [← queue_length, hq, List.length_append, List.length_eraseIdx, queue_length]
    simp [h66, hk]
  · intro h66 hnone
    unfold respPollEnqueue
    have hA : s.head = POLL_SIZE := h66
    have hs : respPollEnqueue.scan s.head s.head 0 s = s :=
      enqueue_scan_none s.head s.head 0 s (fun j _ hj => hnone j (by omega))
    have hB : ¬ s.head < POLL_SIZE := by rw [hA]; exact lt_irrefl _
    simp only [if_pos hA, hs, if_neg hB]
  · rw [queue_enqueue]
    exact filter_sublist_enqueueL e (queue s)

/-- The overflow scenario: 40 `PENDING` entries, then 26 `IMMEDIATE` entries; the entry at
index 40 goes, the new entry is the last one and the size stays 66. -/
theorem respPollEnqueue_contract_witness :
    pollS5.head ≤ 66 ∧
      (respPollEnqueue { epoch := 9, cmd_ID := 100, type := IMMEDIATE, status := 0 } pollS5).head
        = 66 ∧
      queue (respPollEnqueue { epoch := 9, cmd_ID := 100, type := IMMEDIATE, status := 0 } pollS5)
        = (queue pollS5).eraseIdx 40 ++
          [{ epoch := 9, cmd_ID := 100, type := IMMEDIATE, status := 0 }] :=
  ⟨by decide,
    (respPollEnqueue_contract pollS5 _ (by decide)).2.1 rfl 40 (by decide) (by decide)
      (by decide)⟩

/-- C2 (as amended): on a poll with `head <= 66` in which every `PENDING` entry has
status 42 and no entry of another type precedes a `PENDING` entry with the same
`cmd_ID`, `respPollAbort(status, time)` returns, leaves no entry of type `PENDING`, and
for every entry that was `PENDING` the poll holds a `PENDING_COMPLETE` entry with the same
`cmd_ID` and status `(uint8)(-status)`. -/
theorem respPollAbort_rewrites_pending (s : response_poll_t) (status time : Nat)
    (hhead : s.head ≤ 66)
    (h42 : ∀ i, i < s.head → (s.poll_queue i).type = PENDING → (s.poll_queue i).status = 42)
    (hfirst : ∀ j, j < s.head → ∀ i, i < j → (s.poll_queue j).type = PENDING →
      (s.poll_queue i).type ≠ PENDING → (s.poll_queue i).cmd_ID ≠ (s.poll_queue j).cmd_ID) :
    ∃ r, respPollAbort status time s = some r ∧ r.head ≤ 66 ∧
      (∀ i, i < r.head → (r.poll_queue i).type ≠ PENDING) ∧
      ∀ i, i < s.head → (s.poll_queue i).type = PENDING →
        ∃ j, j < r.head ∧ (r.poll_queue j).type = PENDING_COMPLETE ∧
          (r.poll_queue j).cmd_ID = (s.poll_queue i).cmd_ID ∧
          (r.poll_queue j).status = (256 - status % 256) % 256 := by
  obtain ⟨r, hr, hr66, fuel, hloop⟩ := respPollAbort_some status time s hhead
  have hl42 : ∀ x, x ∈ queue s → x.type = PENDING → x.status = 42 := by
    intro x hx hp
    obtain ⟨i, hi, rfl⟩ := (mem_queue s x).1 hx
    exact h42 i hi hp
  have hpw : (queue s).Pairwise firstOfId := by
    rw [List.pairwise_iff_getElem]
    intro i j hi hj hij
    rw [queue_getElem, queue_getElem]
    rw [queue_length] at hj
    exact hfirst j hj i hij
  have hM : (abortMarker status time).type = PENDING_COMPLETE := rfl
  obtain ⟨hnone, hcp⟩ := respPollAbort_loop_rewrites (abortMarker status time) hM (queue s)
    fuel (enqueueL (abortMarker status time) (queue s)) (queue r)
    (enqueueL_length_le _ _ (by rw [queue_length]; exact hhead))
    (by
      intro x hx hp
      rcases mem_of_mem_enqueueL _ _ _ hx with h1 | h1
      · exact hl42 x h1 hp
      · rw [h1, hM] at hp; cases hp)
    (pairwise_enqueueL firstOfId _ _ (by intro a _ hp; rw [hM] at hp; cases hp) hpw)
    (by
      intro x hx hp
      exact mem_enqueueL _ _ _ hx (by simp [isImmediate, hp]))
    hloop
  refine ⟨r, hr, hr66, ?_, ?_⟩
  · intro i hi
    exact hnone _ ((mem_queue r _).2 ⟨i, hi, rfl⟩)
  · intro i hi hp
    have hin := hcp _ ((mem_queue s _).2 ⟨i, hi, rfl⟩) hp
    obtain ⟨j, hj, hjeq⟩ := (mem_queue r _).1 hin
    exact ⟨j, hj, by rw [hjeq]; rfl, by rw [hjeq], by rw [hjeq]; rfl⟩

/-- A poll with one `IMMEDIATE` and two unexecuted `PENDING` entries, aborted with
status 1 at time 77. -/
theorem respPollAbort_rewrites_pending_witness :
    pollTwoPending.head ≤ 66 ∧
      ∃ r, respPollAbort 1 77 pollTwoPending = some r ∧ r.head ≤ 66 ∧
        (∀ i, i < r.head → (r.poll_queue i).type ≠ PENDING) ∧
        ∀ i, i < pollTwoPending.head → (pollTwoPending.poll_queue i).type = PENDING →
          ∃ j, j < r.head ∧ (r.poll_queue j).type = PENDING_COMPLETE ∧
            (r.poll_queue j).cmd_ID = (pollTwoPending.poll_queue i).cmd_ID ∧
            (r.poll_queue j).status = (256 - 1 % 256) % 256 :=
  ⟨by decide,
    respPollAbort_rewrites_pending pollTwoPending 1 77 (by decide) (by decide) (by decide)⟩

/-- C2 fails as stated: a `PENDING` entry behind an `IMMEDIATE` entry with the same
`cmd_ID` is still `PENDING` after the abort (the rewrite deletes the `IMMEDIATE` entry
and the scan steps over the pending one), and a `PENDING` entry whose status is not 42 is
not rewritten at all. -/
theorem respPollAbort_counterexample :
    (pollDuplicateId.head ≤ 66 ∧
      (respPollAbort 1 77 pollDuplicateId).map queue = some
        [{ epoch := 20, cmd_ID := 5, type := PENDING, status := 42 },
         { epoch := 77, cmd_ID := 0xFFFE, type := PENDING_COMPLETE, status := 255 },
         { epoch := 77, cmd_ID := 5, type := PENDING_COMPLETE, status := 255 }]) ∧
    (pollOddStatus.head ≤ 66 ∧
      (respPollAbort 1 77 pollOddStatus).map queue = some
        [{ epoch := 10, cmd_ID := 7, type := PENDING, status := 0 },
         { epoch := 77, cmd_ID := 0xFFFE, type := PENDING_COMPLETE, status := 255 }]) := by
  decide

/-- C3 (as amended): for a ready sequence whose exit condition evaluates true at time
`now`, and a response poll with `head <= 66`, one call of `pendingProcess` returns, calls
the payload reset hook and executes no command (whatever the wait condition of the head
command), leaves the command queue empty and sets the beacon character at
`SOFTWARE_STATE` to `'D'`; the exit classification `status` lies in 1..5; and when the
poll has room or holds an `IMMEDIATE` entry, the response poll afterwards holds the abort
marker (`cmd_ID` 0xFFFE, `PENDING_COMPLETE`, status `256 - status`, epoch `now`). -/
theorem pendingProcess_exit_abort (now status0 : Nat) (w : World) (status : Nat)
    (hcount : w.g.csSequence.cmd_queue.count > 0)
    (hready : w.g.csSequence.seq_ready_flag ≠ 0)
    (hexit : pendingProcess.evalSwitch now (pendingProcess.normalize now w.g)
      (pendingProcess.normalize now w.g).csSequence.exit status0 = some (true, status))
    (hhead : w.g.csResponsePoll.head ≤ 66) :
    ∃ w1, pendingProcess now status0 w = some w1 ∧
      w1.calls = w.calls ++ [hw_call.resetPayload] ∧
      w1.g.csSequence.cmd_queue.count = 0 ∧
      (1 ≤ status ∧ status ≤ 5) ∧
      w1.g.csBeacon.beaconMsg SOFTWARE_STATE = 'D' ∧
      ((w.g.csResponsePoll.head < 66 ∨
          ∃ i, i < w.g.csResponsePoll.head ∧
            (w.g.csResponsePoll.poll_queue i).type = IMMEDIATE) →
        ∃ i, i < w1.g.csResponsePoll.head ∧ w1.g.csResponsePoll.poll_queue i =
          { epoch := now, cmd_ID := 0xFFFE, type := PENDING_COMPLETE,
            status := 256 - status }) := by
  obtain ⟨r, hr, hbody⟩ := body_abort now status0 w status hcount hexit hhead
  have hst : 1 ≤ status ∧ status ≤ 5 := by
    have := evalSwitch_true_status now _ _ status0 status hexit
    omega
  have hmarker : abortMarker status now =
      { epoch := now, cmd_ID := 0xFFFE, type := PENDING_COMPLETE, status := 256 - status } := by
    unfold abortMarker
    congr 1
    omega
  obtain ⟨r2, hr2, _, fuel, hloop⟩ := respPollAbort_some status now w.g.csResponsePoll hhead
  rw [hr] at hr2
  cases hr2
  rw [pendingProcess_guard now status0 w hcount hready, hbody, Option.map_some']
  refine ⟨_, rfl, ?_, ?_, hst, ?_, ?_⟩
  · rw [(statMon_step_frame _).1]
  · rw [(statMon_step_frame _).2.1, beaconMsgUpdateSingle_D]
    rfl
  · rw [(statMon_step_frame _).2.2.2, beaconMsgUpdateSingle_D]
    simp
  · intro hroom
    have hin : abortMarker status now ∈ queue r := by
      apply respPollAbort_keeps_marker status now fuel _ _
        (enqueueL_length_le _ _ (by rw [queue_length]; exact hhead)) _ hloop
      apply mem_enqueueL_self _ _ (by rw [queue_length]; exact hhead)
      rcases hroom with h | ⟨i, hi, himm⟩
      · left; rw [queue_length]; exact h
      · right
        exact ⟨_, (mem_queue _ _).2 ⟨i, hi, rfl⟩, by simp [isImmediate, himm]⟩
    rw [hmarker] at hin
    rw [(statMon_step_frame _).2.2.1, beaconMsgUpdateSingle_D]
    exact (mem_queue _ _).1 hin

/-- Scenario S1 with the two commands pending in the poll. -/
theorem pendingProcess_exit_abort_witness :
    (worldS1 pollS1).g.csSequence.cmd_queue.count > 0 ∧
    (worldS1 pollS1).g.csSequence.seq_ready_flag ≠ 0 ∧
    (worldS1 pollS1).g.csResponsePoll.head ≤ 66 ∧
    ∃ w1, pendingProcess 1000 0 (worldS1 pollS1) = some w1 ∧
      w1.calls = [hw_call.resetPayload] ∧
      w1.g.csSequence.cmd_queue.count = 0 ∧
      w1.g.csBeacon.beaconMsg SOFTWARE_STATE = 'D' ∧
      ∃ i, i < w1.g.csResponsePoll.head ∧ w1.g.csResponsePoll.poll_queue i =
        { epoch := 1000, cmd_ID := 0xFFFE, type := PENDING_COMPLETE, status := 255 } := by
  refine ⟨by decide, by decide, by decide, ?_⟩
  obtain ⟨w1, h1, h2, h3, _, h4, h5⟩ := pendingProcess_exit_abort 1000 0 (worldS1 pollS1) 1
    (by decide) (by decide) (by decide) (by decide)
  exact ⟨w1, h1, h2, h3, h4, h5 (Or.inl (by decide))⟩

/-- C3 fails as stated: with a response poll full of `PENDING_COMPLETE` entries the abort
marker is dropped by `respPollEnqueue`; the poll still holds its 66 old entries (all with
`cmd_ID` 1) and no entry with `cmd_ID` 0xFFFE. -/
theorem pendingProcess_exit_abort_counterexample :
    (worldS1 pollFullComplete).g.csSequence.cmd_queue.count > 0 ∧
    (worldS1 pollFullComplete).g.csSequence.seq_ready_flag ≠ 0 ∧
    pendingProcess.evalSwitch 1000 (pendingProcess.normalize 1000 (worldS1 pollFullComplete).g)
      (pendingProcess.normalize 1000 (worldS1 pollFullComplete).g).csSequence.exit 0 =
        some (true, 1) ∧
    (pendingProcess 1000 0 (worldS1 pollFullComplete)).map
        (fun w => (queue w.g.csResponsePoll).map (fun x => x.cmd_ID)) =
      some (List.replicate 66 1) := by
  decide

theorem decodeAndRunPending_frame (cmd : seq_command_t) (w : World) :
    (decodeAndRunPending cmd w).calls = w.calls ++ [hw_call.decodeAndRunPending cmd] ∧
    (decodeAndRunPending cmd w).g.csSequence = w.g.csSequence ∧
    (decodeAndRunPending cmd w).g.csResponsePoll = w.g.csResponsePoll ∧
    (decodeAndRunPending cmd w).g.csState = w.g.csState ∧
    (decodeAndRunPending cmd w).g.csLastTelemetry = w.g.csLastTelemetry := by
  unfold decodeAndRunPending
  cases cmd.opcode <;> simp [beaconMsgUpdateSingle]

theorem execute_spec (time : Nat) (w : World) (cmd : seq_command_t)
    (rest : List seq_command_t) (hitems : w.g.csSequence.cmd_queue.items = cmd :: rest) :
    ∃ w1, pendingProcess.execute time w = some w1 ∧
      w1.calls = w.calls ++ [hw_call.decodeAndRunPending cmd] ∧
      w1.g.csSequence.cmd_queue.items = rest ∧
      w1.g.csSequence.exit = w.g.csSequence.exit ∧
      w1.g.csResponsePoll = respPollUpdatePending
        { epoch := time, cmd_ID := cmd.cmd_id, type := PENDING_COMPLETE, status := 0 }
        w.g.csResponsePoll := by
  have hpeek : PendCmdQueue_Peek w.g.csSequence.cmd_queue = some cmd := by
    simp [PendCmdQueue_Peek, hitems]
  unfold pendingProcess.execute
  rw [hpeek, Option.map_some']
  refine ⟨_, rfl, ?_, ?_, ?_, ?_⟩
  · exact (decodeAndRunPending_frame cmd _).1
  · dsimp only
    split_ifs <;> (try split) <;> (try split_ifs) <;>
      simp [(decodeAndRunPending_frame cmd _).2.1, PendCmdQueue_Dequeue, hitems]
  · dsimp only
    split_ifs <;> (try split) <;> (try split_ifs) <;>
      simp [(decodeAndRunPending_frame cmd _).2.1]
  · dsimp only
    split_ifs <;> (try split) <;> (try split_ifs) <;>
      simp [(decodeAndRunPending_frame cmd _).2.2.1]

theorem body_wait (now status0 : Nat) (w : World) (cmd : seq_command_t)
    (rest : List seq_command_t) (status : Nat) (b : Bool) (status1 : Nat)
    (hitems : w.g.csSequence.cmd_queue.items = cmd :: rest)
    (hexit : pendingProcess.evalSwitch now (pendingProcess.normalize now w.g)
      (pendingProcess.normalize now w.g).csSequence.exit status0 = some (false, status))
    (hwait : pendingProcess.evalSwitch now (pendingProcess.normalize now w.g) cmd.wait status =
      some (b, status1)) :
    pendingProcess.body now status0 w =
      if b then pendingProcess.execute now { w with g := pendingProcess.normalize now w.g }
      else some { w with g := pendingProcess.normalize now w.g } := by
  obtain ⟨hq, _⟩ := normalize_frame now w.g
  have hpeek : PendCmdQueue_Peek w.g.csSequence.cmd_queue = some cmd := by
    simp [PendCmdQueue_Peek, hitems]
  unfold pendingProcess.body
  simp only [hq, hpeek, Option.some_bind, hexit, hwait]
  simp

/-- C4: for a ready sequence whose exit condition evaluates false at time `now`, one call
of `pendingProcess` returns and, if the wait condition of the head command holds, removes
exactly that command (the others keep their order), executes it and applies
`respPollUpdatePending` with `(cmd_id, now, PENDING_COMPLETE, 0)`; if the wait condition
does not hold, the command queue and the response poll are unchanged. At most one command
is executed by the call. -/
theorem pendingProcess_wait_step (now status0 : Nat) (w : World) (cmd : seq_command_t)
    (rest : List seq_command_t) (status : Nat) (b : Bool) (status1 : Nat)
    (hitems : w.g.csSequence.cmd_queue.items = cmd :: rest)
    (hready : w.g.csSequence.seq_ready_flag ≠ 0)
    (hexit : pendingProcess.evalSwitch now (pendingProcess.normalize now w.g)
      (pendingProcess.normalize now w.g).csSequence.exit status0 = some (false, status))
    (hwait : pendingProcess.evalSwitch now (pendingProcess.normalize now w.g) cmd.wait status =
      some (b, status1)) :
    ∃ w1, pendingProcess now status0 w = some w1 ∧
      (b = true →
        w1.calls = w.calls ++ [hw_call.decodeAndRunPending cmd] ∧
        w1.g.csSequence.cmd_queue.items = rest ∧
        w1.g.csSequence.cmd_queue.count + 1 = w.g.csSequence.cmd_queue.count ∧
        w1.g.csResponsePoll = respPollUpdatePending
          { epoch := now, cmd_ID := cmd.cmd_id, type := PENDING_COMPLETE, status := 0 }
          w.g.csResponsePoll) ∧
      (b = false →
        w1.calls = w.calls ∧
        w1.g.csSequence.cmd_queue = w.g.csSequence.cmd_queue ∧
        w1.g.csResponsePoll = w.g.csResponsePoll) ∧
      ∃ extra, w1.calls = w.calls ++ extra ∧ extra.countP isDispatch ≤ 1 := by
  have hcount : w.g.csSequence.cmd_queue.count > 0 := by
    simp [PendCmdQueue.count, hitems]
  obtain ⟨hq, _, _, hp, _⟩ := normalize_frame now w.g
  rw [pendingProcess_guard now status0 w hcount hready,
    body_wait now status0 w cmd rest status b status1 hitems hexit hwait]
  cases b with
  | true =>
    obtain ⟨w1, hw1, hc, hi, _, hpoll⟩ := execute_spec now
      { w with g := pendingProcess.normalize now w.g } cmd rest (by rw [hq]; exact hitems)
    simp only [if_true, hw1, Option.map_some']
    refine ⟨_, rfl, ?_, ?_, ?_⟩
    · intro _
      rw [(statMon_step_frame w1).1, (statMon_step_frame w1).2.1,
        (statMon_step_frame w1).2.2.1]
      refine ⟨hc, hi, ?_, ?_⟩
      · simp [PendCmdQueue.count, hi, hitems]
      · rw [hpoll, hp]
    · intro h; cases h
    · rw [(statMon_step_frame w1).1]
      exact ⟨_, hc, by simp [isDispatch]⟩
  | false =>
    have hf := statMon_step_frame ({ w with g := pendingProcess.normalize now w.g } : World)
    rw [if_neg (by simp), Option.map_some']
    refine ⟨_, rfl, ?_, ?_, ?_⟩
    · intro h; cases h
    · intro _
      rw [hf.1, hf.2.1, hf.2.2.1]
      exact ⟨rfl, hq, hp⟩
    · rw [hf.1]
      exact ⟨[], by simp, by simp⟩

/-- Scenario S2: at `now = 125` the command is not executed and nothing changes; at
`now = 130` it is executed and removed from the queue. -/
theorem pendingProcess_wait_step_witness :
    (∃ w1, pendingProcess 125 0 worldS2 = some w1 ∧
      w1.calls = worldS2.calls ∧
      w1.g.csSequence.cmd_queue = worldS2.g.csSequence.cmd_queue ∧
      w1.g.csResponsePoll = worldS2.g.csResponsePoll) ∧
    (∃ w1, pendingProcess 130 0 worldS2 = some w1 ∧
      w1.calls = [hw_call.decodeAndRunPending (cmdAfter 31 opcode_t.OP_CHECK_SD_CARD
        { sensor_id := 254, comparator := comparator_t.GREATER_EQ, value := 30 })] ∧
      w1.g.csSequence.cmd_queue.items = [] ∧
      queue w1.g.csResponsePoll =
        [{ epoch := 130, cmd_ID := 31, type := PENDING_COMPLETE, status := 0 }]) := by
  constructor
  · obtain ⟨w1, h1, _, h3, _⟩ := pendingProcess_wait_step 125 0 worldS2 _ [] 1 false 1
      rfl (by decide) (by decide) (by decide)
    exact ⟨w1, h1, (h3 rfl).1, (h3 rfl).2.1, (h3 rfl).2.2⟩
  · obtain ⟨w1, h1, h2, _, _⟩ := pendingProcess_wait_step 130 0 worldS2 _ [] 1 true 1
      rfl (by decide) (by decide) (by decide)
    refine ⟨w1, h1, (h2 rfl).1, (h2 rfl).2.1, ?_⟩
    rw [(h2 rfl).2.2.2]
    decide

theorem normalize_exit (time : Nat) (g : GlobalX) :
    ((g.csSequence.exit.left.sensor_id = 254 →
        (pendingProcess.normalize time g).csSequence.exit.left =
          { sensor_id := 255
            comparator := g.csSequence.exit.left.comparator
            value := (g.csSequence.exit.left.value + time) % 4294967296 }) ∧
      (g.csSequence.exit.left.sensor_id ≠ 254 →
        (pendingProcess.normalize time g).csSequence.exit.left = g.csSequence.exit.left)) ∧
    (pendingProcess.normalize time g).csSequence.exit.op = g.csSequence.exit.op ∧
    (g.csSequence.exit.op ≠ cond_op_t.JUST → g.csSequence.exit.right.sensor_id = 254 →
      (pendingProcess.normalize time g).csSequence.exit.right =
        { sensor_id := 255
          comparator := g.csSequence.exit.right.comparator
          value := (g.csSequence.exit.right.value + time) % 4294967296 }) ∧
    (g.csSequence.exit.op ≠ cond_op_t.JUST → g.csSequence.exit.right.sensor_id ≠ 254 →
      (pendingProcess.normalize time g).csSequence.exit.right = g.csSequence.exit.right) ∧
    (g.csSequence.exit.op = cond_op_t.JUST →
      (pendingProcess.normalize time g).csSequence.exit.right = g.csSequence.exit.right) := by
  unfold pendingProcess.normalize
  dsimp only
  split_ifs <;> simp_all

theorem normalize_exitNormal (time : Nat) (g : GlobalX) :
    exitNormal (pendingProcess.normalize time g).csSequence.exit := by
  unfold exitNormal pendingProcess.normalize
  dsimp only
  split_ifs <;> simp_all

theorem normalize_of_exitNormal (time : Nat) (g : GlobalX) (h : exitNormal g.csSequence.exit) :
    pendingProcess.normalize time g = g := by
  unfold pendingProcess.normalize
  dsimp only
  rw [if_neg h.1, if_neg h.1]
  by_cases hop : g.csSequence.exit.op = cond_op_t.JUST
  · rw [if_neg (not_not.2 hop)]
  · rw [if_pos hop, if_neg (h.2 hop)]

theorem normalize_valid (time : Nat) (g : GlobalX) (h : validConds g.csSequence.exit) :
    validConds (pendingProcess.normalize time g).csSequence.exit := by
  obtain ⟨⟨hl1, hl2⟩, hop, hr1, hr2, _⟩ := normalize_exit time g
  constructor
  · by_cases hc : g.csSequence.exit.left.sensor_id = 254
    · rw [hl1 hc]; exact Or.inr (Or.inr rfl)
    · rw [hl2 hc]; exact h.1
  · intro hj
    rw [hop] at hj
    by_cases hc : g.csSequence.exit.right.sensor_id = 254
    · rw [hr1 hj hc]; exact Or.inr (Or.inr rfl)
    · rw [hr2 hj hc]; exact h.2 hj

theorem body_exit (now status0 : Nat) (w w1 : World)
    (h : pendingProcess.body now status0 w = some w1) :
    w1.g.csSequence.exit = (pendingProcess.normalize now w.g).csSequence.exit := by
  unfold pendingProcess.body at h
  cases hpeek : PendCmdQueue_Peek (pendingProcess.normalize now w.g).csSequence.cmd_queue with
  | none => simp [hpeek] at h
  | some cmd =>
    have hitems : ∃ rest, (pendingProcess.normalize now w.g).csSequence.cmd_queue.items =
        cmd :: rest := by
      unfold PendCmdQueue_Peek at hpeek
      cases hq : (pendingProcess.normalize now w.g).csSequence.cmd_queue.items with
      | nil => rw [hq] at hpeek; simp at hpeek
      | cons c r =>
        rw [hq] at hpeek
        simp at hpeek
        exact ⟨r, by rw [hpeek]⟩
    obtain ⟨rest, hitems⟩ := hitems
    cases hex : pendingProcess.evalSwitch now (pendingProcess.normalize now w.g)
        (pendingProcess.normalize now w.g).csSequence.exit status0 with
    | none => simp [hpeek, hex] at h
    | some p =>
      obtain ⟨b, st⟩ := p
      cases b with
      | true =>
        simp only [hpeek, Option.some_bind, hex, if_true, abortSequence] at h
        cases hab : respPollAbort st now (pendingProcess.normalize now w.g).csResponsePoll with
        | none => simp [hab] at h
        | some r =>
          simp only [hab, Option.map_some', Option.some.injEq] at h
          rw [← h, beaconMsgUpdateSingle_D]
      | false =>
        simp only [hpeek, Option.some_bind, hex] at h
        cases hwt : pendingProcess.evalSwitch now (pendingProcess.normalize now w.g)
            cmd.wait st with
        | none => simp [hwt] at h
        | some p1 =>
          obtain ⟨b1, st1⟩ := p1
          cases b1 with
          | true =>
            simp only [hwt, Option.some_bind, Bool.false_eq_true, if_false, if_true] at h
            obtain ⟨w2, hw2, _, _, hexit, _⟩ := execute_spec now
              { w with g := pendingProcess.normalize now w.g } cmd rest hitems
            rw [hw2] at h
            cases h
            exact hexit
          | false =>
            simp only [hwt, Option.some_bind, Bool.false_eq_true, if_false,
              Option.some.injEq] at h
            rw [← h]

theorem pendingProcess_exit (now status0 : Nat) (w w1 : World)
    (h : pendingProcess now status0 w = some w1) :
    w1.g.csSequence.exit = (pendingProcess.normalize now w.g).csSequence.exit ∨
      w1.g.csSequence.exit = w.g.csSequence.exit := by
  unfold pendingProcess at h
  by_cases hg : w.g.csSequence.cmd_queue.count > 0 ∧ w.g.csSequence.seq_ready_flag ≠ 0
  · rw [if_pos hg] at h
    cases hb : pendingProcess.body now status0 w with
    | none => simp [hb] at h
    | some w2 =>
      rw [hb, Option.map_some', Option.some.injEq] at h
      left
      rw [← h, (statMon_step_frame w2).2.1]
      exact body_exit now status0 w w2 hb
  · rw [if_neg hg, Option.map_some', Option.some.injEq] at h
    right
    rw [← h, (statMon_step_frame w).2.1]

theorem pendingProcess_total (now status0 : Nat) (w : World) (h : executable w) :
    ∃ w1, pendingProcess now status0 w = some w1 := by
  obtain ⟨hhead, hvalid, hwait⟩ := h
  by_cases hg : w.g.csSequence.cmd_queue.count > 0 ∧ w.g.csSequence.seq_ready_flag ≠ 0
  · obtain ⟨cmd, rest, hitems, hpeek⟩ := peek_of_count _ hg.1
    obtain ⟨b, st, hex⟩ := evalSwitch_some now (pendingProcess.normalize now w.g)
      (pendingProcess.normalize now w.g).csSequence.exit status0 (normalize_valid now w.g hvalid)
    rw [pendingProcess_guard now status0 w hg.1 hg.2]
    cases b with
    | true =>
      obtain ⟨r, _, hbody⟩ := body_abort now status0 w st hg.1 hex hhead
      rw [hbody]
      exact ⟨_, rfl⟩
    | false =>
      obtain ⟨b1, st1, hw⟩ := evalSwitch_some now (pendingProcess.normalize now w.g)
        cmd.wait st (hwait cmd hpeek)
      rw [body_wait now status0 w cmd rest st b1 st1 hitems hex hw]
      cases b1 with
      | true =>
        obtain ⟨w1, hw1, _⟩ := execute_spec now
          { w with g := pendingProcess.normalize now w.g } cmd rest
          (by rw [(normalize_frame now w.g).1]; exact hitems)
        rw [if_pos rfl, hw1]
        exact ⟨_, rfl⟩
      | false =>
        rw [if_neg (by simp)]
        exact ⟨_, rfl⟩
  · unfold pendingProcess
    rw [if_neg hg]
    exact ⟨_, rfl⟩

/-- C6: one call of `pendingProcess` on a ready sequence at time `now` returns (when it
reads only inside the embedded state) and stores the exit condition normalised: a left
side with sensor id 254 and value `v` becomes sensor id 255 with value
`(v + now) mod 2^32` and the same comparator, likewise the right side when `op != JUST`;
the operator, a side that is not a relative time and the right side under `JUST` are
untouched. Any later call, at any time, on a state holding this exit condition leaves it
as it is. -/
theorem pendingProcess_normalizes_exit (now status0 : Nat) (w : World)
    (hcount : w.g.csSequence.cmd_queue.count > 0)
    (hready : w.g.csSequence.seq_ready_flag ≠ 0) :
    (executable w → ∃ w1, pendingProcess now status0 w = some w1) ∧
    ∀ w1, pendingProcess now status0 w = some w1 →
      (w.g.csSequence.exit.left.sensor_id = 254 →
        w1.g.csSequence.exit.left =
          { sensor_id := 255
            comparator := w.g.csSequence.exit.left.comparator
            value := (w.g.csSequence.exit.left.value + now) % 4294967296 }) ∧
      (w.g.csSequence.exit.left.sensor_id ≠ 254 →
        w1.g.csSequence.exit.left = w.g.csSequence.exit.left) ∧
      w1.g.csSequence.exit.op = w.g.csSequence.exit.op ∧
      (w.g.csSequence.exit.op ≠ cond_op_t.JUST → w.g.csSequence.exit.right.sensor_id = 254 →
        w1.g.csSequence.exit.right =
          { sensor_id := 255
            comparator := w.g.csSequence.exit.right.comparator
            value := (w.g.csSequence.exit.right.value + now) % 4294967296 }) ∧
      (w.g.csSequence.exit.op ≠ cond_op_t.JUST → w.g.csSequence.exit.right.sensor_id ≠ 254 →
        w1.g.csSequence.exit.right = w.g.csSequence.exit.right) ∧
      (w.g.csSequence.exit.op = cond_op_t.JUST →
        w1.g.csSequence.exit.right = w.g.csSequence.exit.right) ∧
      ∀ (later status2 : Nat) (v : World), v.g.csSequence.exit = w1.g.csSequence.exit →
        (executable v → ∃ v1, pendingProcess later status2 v = some v1) ∧
        ∀ v1, pendingProcess later status2 v = some v1 →
          v1.g.csSequence.exit = w1.g.csSequence.exit := by
  refine ⟨pendingProcess_total now status0 w, ?_⟩
  intro w1 hw1
  have hex1 : w1.g.csSequence.exit = (pendingProcess.normalize now w.g).csSequence.exit := by
    rw [pendingProcess_guard now status0 w hcount hready] at hw1
    cases hb : pendingProcess.body now status0 w with
    | none => simp [hb] at hw1
    | some w2 =>
      rw [hb, Option.map_some', Option.some.injEq] at hw1
      rw [← hw1, (statMon_step_frame w2).2.1]
      exact body_exit now status0 w w2 hb
  obtain ⟨⟨hl1, hl2⟩, hop, hr1, hr2, hr3⟩ := normalize_exit now w.g
  refine ⟨?_, ?_, ?_, ?_, ?_, ?_, ?_⟩
  · rw [hex1]; exact hl1
  · rw [hex1]; exact hl2
  · rw [hex1]; exact hop
  · rw [hex1]; exact hr1
  · rw [hex1]; exact hr2
  · rw [hex1]; exact hr3
  · intro later status2 v hv
    refine ⟨pendingProcess_total later status2 v, ?_⟩
    intro v1 hv1
    have hn : exitNormal v.g.csSequence.exit := by
      rw [hv, hex1]; exact normalize_exitNormal now w.g
    rcases pendingProcess_exit later status2 v v1 hv1 with h | h
    · rw [h, normalize_of_exitNormal later v.g hn, hv]
    · rw [h, hv]

/-- The example world of the normalisation reads only inside the embedded state. -/
theorem worldRelativeExit_executable : executable worldRelativeExit := by
  refine ⟨by decide, ⟨Or.inr (Or.inl rfl), fun _ => Or.inr (Or.inl rfl)⟩, ?_⟩
  intro cmd hc
  have hcmd : cmd = cmdAfter 41 opcode_t.OP_SET_SWITCH
      { sensor_id := 255, comparator := comparator_t.GREATER_EQ, value := 5000 } := by
    simpa [PendCmdQueue_Peek, worldRelativeExit] using hc.symm
  rw [hcmd]
  exact ⟨Or.inr (Or.inr rfl), fun h => absurd rfl h⟩

/-- A relative exit condition `(254, >, 600) OR (254, >=, 900)` evaluated at time 1000 is
stored as `(255, >, 1600) OR (255, >=, 1900)`. -/
theorem pendingProcess_normalizes_exit_witness :
    worldRelativeExit.g.csSequence.cmd_queue.count > 0 ∧
    worldRelativeExit.g.csSequence.seq_ready_flag ≠ 0 ∧
    ∃ w1, pendingProcess 1000 0 worldRelativeExit = some w1 ∧
      w1.g.csSequence.exit =
        { left := { sensor_id := 255, comparator := comparator_t.GREATER, value := 1600 }
          op := cond_op_t.OR
          right := { sensor_id := 255, comparator := comparator_t.GREATER_EQ, value := 1900 } } := by
  refine ⟨by decide, by decide, ?_⟩
  obtain ⟨htotal, hprops⟩ := pendingProcess_normalizes_exit 1000 0 worldRelativeExit
    (by decide) (by decide)
  obtain ⟨w1, h1⟩ := htotal worldRelativeExit_executable
  obtain ⟨h2, _, h3, h4, _⟩ := hprops w1 h1
  refine ⟨w1, h1, ?_⟩
  have e1 := h2 rfl
  have e2 := h4 (by decide) rfl
  cases hx : w1.g.csSequence.exit with
  | mk l o r =>
    rw [hx] at e1 e2 h3
    simp only at e1 e2 h3
    rw [e1, e2, h3]
    rfl

/-- C5 (failing input): with op = OR, left condition true and right condition false, the
status handed to `abortSequence` is 5, not 3: the value 3 set after the left check is
overwritten by the `else if`, whatever the variable held before; the abort marker
carries `(uint8)(-5) = 251`. -/
theorem exit_status_or_left_only :
    checkCond 1000 worldOrLeftOnly.g worldOrLeftOnly.g.csSequence.exit.left = some true ∧
    checkCond 1000 worldOrLeftOnly.g worldOrLeftOnly.g.csSequence.exit.right = some false ∧
    (∀ status0 : Nat, pendingProcess.evalSwitch 1000
      (pendingProcess.normalize 1000 worldOrLeftOnly.g)
      (pendingProcess.normalize 1000 worldOrLeftOnly.g).csSequence.exit status0 =
        some (true, 5)) ∧
    (pendingProcess 1000 0 worldOrLeftOnly).map (fun w => queue w.g.csResponsePoll) =
      some [{ epoch := 1000, cmd_ID := 0xFFFE, type := PENDING_COMPLETE, status := 251 }] := by
  refine ⟨by decide, by decide, ?_, by decide⟩
  intro status0
  rfl

/-- C7: for a condition with `sensor_id < 44` or `sensor_id` 254 or 255, `checkCond`
returns `true` exactly when the comparator holds between `v` and the condition's value,
where `v` is `(now - lastCmdTime) mod 2^32` for sensor id 254, `now` for 255 and
`csLastTelemetry.reading[sensor_id]` otherwise; and the result of the `switch` of
`pendingProcess` on a compound condition is `left` for `JUST`, `left && right` for `AND`
and `left || right` for `OR`. -/
theorem checkCond_contract (now : Nat) (g : GlobalX) :
    (∀ c : condition_t, validCond c →
      ∃ v b, checkCond now g c = some b ∧ (b = true ↔ cmpHolds c.comparator v c.value) ∧
        (c.sensor_id = 254 →
          (v : Int) = ((now : Int) - (g.csSequence.lastCmdTime : Int)) % 4294967296) ∧
        (c.sensor_id = 255 → v = now) ∧
        (c.sensor_id < 44 → v = g.csLastTelemetry.reading c.sensor_id)) ∧
    ∀ (cs : conditions_t) (status0 : Nat) (l r : Bool),
      checkCond now g cs.left = some l →
      (cs.op ≠ cond_op_t.JUST → checkCond now g cs.right = some r) →
      ∃ status, pendingProcess.evalSwitch now g cs status0 =
        some ((match cs.op with
          | cond_op_t.JUST => l
          | cond_op_t.AND => l && r
          | cond_op_t.OR => l || r), status) :=
  ⟨fun c hc => checkCond_some now g c hc,
    fun cs status0 l r hl hr => evalSwitch_result now g cs status0 l r hl hr⟩

/-- The relative-time condition of scenario S2 at `now = 130`: 30 s have elapsed. -/
theorem checkCond_contract_witness :
    validCond { sensor_id := 254, comparator := comparator_t.GREATER_EQ, value := 30 } ∧
    ∃ v b, checkCond 130 worldS2.g
        { sensor_id := 254, comparator := comparator_t.GREATER_EQ, value := 30 } = some b ∧
      (b = true ↔ cmpHolds comparator_t.GREATER_EQ v 30) ∧
      (v : Int) = ((130 : Nat) - (worldS2.g.csSequence.lastCmdTime : Int)) % 4294967296 := by
  refine ⟨Or.inr (Or.inl rfl), ?_⟩
  obtain ⟨v, b, h1, h2, h3, _⟩ := (checkCond_contract 130 worldS2.g).1
    { sensor_id := 254, comparator := comparator_t.GREATER_EQ, value := 30 }
    (Or.inr (Or.inl rfl))
  exact ⟨v, b, h1, h2, h3 rfl⟩

/-- C8: restricted to 0..33, `intToBeaconChar` is a bijection onto the 34-symbol beacon
alphabet (`0..9` and `A..Z` without `E` and `T`): it is injective, every image is in the
alphabet, every symbol of the alphabet is an image, and `beaconCharToInt` is an inverse. -/
theorem intToBeaconChar_bijective :
    (∀ v, v < 34 → ∀ w, w < 34 → intToBeaconChar v = intToBeaconChar w → v = w) ∧
    (∀ v, v < 34 → intToBeaconChar v ∈ beaconAlphabet) ∧
    (∀ c, c ∈ beaconAlphabet → ∃ v, v < 34 ∧ intToBeaconChar v = c) ∧
    beaconAlphabet = "0123456789ABCDFGHIJKLMNOPQRSUVWXYZ".toList ∧
    beaconAlphabet.length = 34 ∧
    ∀ v, v < 34 → beaconCharToInt (intToBeaconChar v) = v := by
  refine ⟨by decide, by decide, by decide, by decide, by decide, by decide⟩

/-- The values 4 and 5: distinct images in the alphabet, and 4 is recovered from its
image. -/
theorem intToBeaconChar_bijective_witness :
    (4 < 34 ∧ 5 < 34) ∧ (intToBeaconChar 4 = intToBeaconChar 5 → 4 = 5) ∧
      intToBeaconChar 4 ∈ beaconAlphabet ∧ beaconCharToInt (intToBeaconChar 4) = 4 :=
  ⟨by decide, intToBeaconChar_bijective.1 4 (by decide) 5 (by decide),
    intToBeaconChar_bijective.2.1 4 (by decide),
    intToBeaconChar_bijective.2.2.2.2.2 4 (by decide)⟩

/-- C9 (as amended): the boundary values of `intToBeaconChar` are
`(3) = 'D'`, `(4) = 'F'` (skip `E`), `(17) = 'S'`, `(18) = 'U'` (skip `T`), `(23) = 'Z'`,
`(24) = '0'`, `(33) = '9'` and `(34) = 'A'` (guard). -/
theorem intToBeaconChar_boundaries :
    intToBeaconChar 3 = 'D' ∧ intToBeaconChar 4 = 'F' ∧ intToBeaconChar 17 = 'S' ∧
    intToBeaconChar 18 = 'U' ∧ intToBeaconChar 23 = 'Z' ∧ intToBeaconChar 24 = '0' ∧
    intToBeaconChar 33 = '9' ∧ intToBeaconChar 34 = 'A' := by
  decide

/-- C9 fails as stated: the values at 4, 5, 18 and 19 are `'F'`, `'G'`, `'U'` and `'V'`,
not `'D'`, `'F'`, `'S'` and `'U'`. -/
theorem intToBeaconChar_boundaries_counterexample :
    ¬ (intToBeaconChar 4 = 'D' ∧ intToBeaconChar 5 = 'F' ∧ intToBeaconChar 18 = 'S' ∧
      intToBeaconChar 19 = 'U' ∧ intToBeaconChar 23 = 'Z' ∧ intToBeaconChar 24 = '0' ∧
      intToBeaconChar 33 = '9' ∧ intToBeaconChar 34 = 'A') ∧
    intToBeaconChar 4 = 'F' ∧ intToBeaconChar 5 = 'G' ∧ intToBeaconChar 18 = 'U' ∧
    intToBeaconChar 19 = 'V' := by
  decide

/-- C10 (as amended): `intToBeaconChar` is strictly increasing in character code on
`[0,24)` (the letters) and on `[24,34)` (the digits), and every letter image lies above
every digit image; hence it is monotone on `[0,34)` in the order that puts the letters
`A..Z` before the digits `0..9`. -/
theorem intToBeaconChar_monotone :
    (∀ b, b < 24 → ∀ a, a < b → intToBeaconChar a < intToBeaconChar b) ∧
    (∀ b, b < 34 → ∀ a, a < b → 24 ≤ a → intToBeaconChar a < intToBeaconChar b) ∧
    (∀ b, b < 34 → ∀ a, a < 24 → 24 ≤ b → intToBeaconChar b < intToBeaconChar a) ∧
    (∀ b, b < 34 → ∀ a, a < b + 1 →
      beaconRank (intToBeaconChar a) ≤ beaconRank (intToBeaconChar b)) := by
  refine ⟨by decide, by decide, by decide, by decide⟩

/-- The values 3 and 23 (`'D'` and `'Z'`). -/
theorem intToBeaconChar_monotone_witness :
    (23 < 34 ∧ 3 < 23 + 1) ∧
      beaconRank (intToBeaconChar 3) ≤ beaconRank (intToBeaconChar 23) ∧
      intToBeaconChar 3 < intToBeaconChar 23 :=
  ⟨by decide, intToBeaconChar_monotone.2.2.2 23 (by decide) 3 (by decide),
    intToBeaconChar_monotone.1 23 (by decide) 3 (by decide)⟩

/-- C10 fails as stated: 23 <= 24 < 34, but `intToBeaconChar 23 = 'Z'` is above
`intToBeaconChar 24 = '0'` in character code, which is also the order
`0 < ... < 9 < A < ... < Z` of the alphabet. -/
theorem intToBeaconChar_monotone_counterexample :
    23 ≤ 24 ∧ 24 < 34 ∧ intToBeaconChar 23 = 'Z' ∧ intToBeaconChar 24 = '0' ∧
      ¬ (intToBeaconChar 23 ≤ intToBeaconChar 24) := by
  decide

theorem char_le_iff (a b : Char) : a ≤ b ↔ a.toNat ≤ b.toNat := by
  rw [Char.le_def]
  exact Iff.rfl

theorem char_lt_iff (a b : Char) : a < b ↔ a.toNat < b.toNat := by
  rw [Char.lt_def]
  exact Iff.rfl

theorem char_eq_iff (a b : Char) : a = b ↔ a.toNat = b.toNat := by
  constructor
  · intro h; rw [h]
  · intro h
    rw [← Char.ofNat_toNat a, ← Char.ofNat_toNat b, h]

theorem intToBeaconChar_allowed (v : Nat) : beaconAllowed (intToBeaconChar v) := by
  by_cases h : v < 34
  · have key : ∀ v, v < 34 →
        ((48 ≤ (intToBeaconChar v).toNat ∧ (intToBeaconChar v).toNat ≤ 57) ∨
          (65 ≤ (intToBeaconChar v).toNat ∧ (intToBeaconChar v).toNat ≤ 90)) ∧
        (intToBeaconChar v).toNat ≠ 69 ∧ (intToBeaconChar v).toNat ≠ 84 := by decide
    obtain ⟨h1, h2, h3⟩ := key v h
    refine ⟨?_, ?_, ?_⟩
    · unfold inBeaconRange
      simp only [char_le_iff]
      exact h1
    · rw [Ne, char_eq_iff]; exact h2
    · rw [Ne, char_eq_iff]; exact h3
  · have : intToBeaconChar v = 'A' := by
      unfold intToBeaconChar
      rw [if_pos (by omega)]
    rw [this]
    exact ⟨Or.inr ⟨by decide, by decide⟩, by decide, by decide⟩

theorem getTempChar_allowed (index : Nat) (g : GlobalX) : beaconAllowed (getTempChar index g) := by
  unfold getTempChar
  dsimp only
  split_ifs <;> exact intToBeaconChar_allowed _

theorem setBeaconChar_allowed (index : Nat) (val : Char) (g : GlobalX)
    (hval : beaconAllowed val)
    (h : ∀ i, i < 31 → beaconAllowed (g.csBeacon.beaconMsg i)) :
    ∀ i, i < 31 → beaconAllowed ((setBeaconChar index val g).csBeacon.beaconMsg i) := by
  intro i hi
  unfold setBeaconChar
  by_cases hc : i = index
  · subst hc
    simpa using hval
  · simpa [Function.update_noteq hc] using h i hi

theorem beaconAllowed_of_range (c : Char) (h : inBeaconRange c) (hE : c ≠ 'E') (hT : c ≠ 'T') :
    beaconAllowed c := ⟨h, hE, hT⟩

theorem beaconMsgUpdateSingle_eq (index : Nat) (c : Char) (g : GlobalX) :
    (inBeaconRange c →
      beaconMsgUpdateSingle index c g =
        setBeaconChar index (if c = 'E' then 'F' else if c = 'T' then 'U' else c) g) ∧
    (¬ inBeaconRange c → beaconMsgUpdateSingle index c g = g) := by
  have e0 : '0'.toNat = 48 := rfl
  have e9 : '9'.toNat = 57 := rfl
  have eA : 'A'.toNat = 65 := rfl
  have eZ : 'Z'.toNat = 90 := rfl
  have eE : 'E'.toNat = 69 := rfl
  have eT : 'T'.toNat = 84 := rfl
  unfold inBeaconRange beaconMsgUpdateSingle setBeaconChar
  simp only [char_le_iff, char_lt_iff, gt_iff_lt, e0, e9, eA, eZ]
  constructor
  · intro h
    rw [if_neg (by omega), if_neg (by omega), if_neg (by omega)]
    by_cases hE : c = 'E'
    · subst hE
      rfl
    · by_cases hT : c = 'T'
      · subst hT
        rfl
      · simp only [hE, hT, or_self, if_false]
  · intro h
    by_cases h1 : c.toNat < 48
    · rw [if_pos h1]
    · rw [if_neg h1]
      by_cases h2 : 57 < c.toNat ∧ c.toNat < 65
      · rw [if_pos h2]
      · rw [if_neg h2, if_pos (by omega)]

/-- C12: for an index in 0..30 and a character `c`, `beaconMsgUpdateSingle(index, c)`
stores `c` at position `index` when `c` is in `0-9` or `A-Z` (`E` is stored as `F`, `T`
as `U`) and leaves the other positions unchanged; for any other character the beacon
message, and the whole state, is unchanged. -/
theorem beaconMsgUpdateSingle_contract (index : Nat) (c : Char) (g : GlobalX)
    (_hindex : index < 31) :
    (inBeaconRange c →
      (beaconMsgUpdateSingle index c g).csBeacon.beaconMsg index =
        (if c = 'E' then 'F' else if c = 'T' then 'U' else c) ∧
      ∀ j, j ≠ index →
        (beaconMsgUpdateSingle index c g).csBeacon.beaconMsg j = g.csBeacon.beaconMsg j) ∧
    (¬ inBeaconRange c → beaconMsgUpdateSingle index c g = g) := by
  refine ⟨?_, (beaconMsgUpdateSingle_eq index c g).2⟩
  intro h
  rw [(beaconMsgUpdateSingle_eq index c g).1 h]
  unfold setBeaconChar
  refine ⟨by simp, ?_⟩
  intro j hj
  simp [Function.update_noteq hj]

/-- Scenario S6 at position `SC_BATT_V`: `'E'` is stored as `'F'`, `'*'` changes
nothing, `'5'` is stored as `'5'`. -/
theorem beaconMsgUpdateSingle_contract_witness :
    SC_BATT_V < 31 ∧
    (beaconMsgUpdateSingle SC_BATT_V 'E' zeroGlobal).csBeacon.beaconMsg SC_BATT_V = 'F' ∧
    beaconMsgUpdateSingle SC_BATT_V '*' zeroGlobal = zeroGlobal ∧
    (beaconMsgUpdateSingle SC_BATT_V '5' zeroGlobal).csBeacon.beaconMsg SC_BATT_V = '5' :=
  ⟨by decide,
    ((beaconMsgUpdateSingle_contract SC_BATT_V 'E' zeroGlobal (by decide)).1
      (Or.inr ⟨by decide, by decide⟩)).1,
    (beaconMsgUpdateSingle_contract SC_BATT_V '*' zeroGlobal (by decide)).2
      (by unfold inBeaconRange; decide),
    ((beaconMsgUpdateSingle_contract SC_BATT_V '5' zeroGlobal (by decide)).1
      (Or.inl ⟨by decide, by decide⟩)).1⟩

theorem beaconMsgUpdateSingle_allowed (index : Nat) (c : Char) (g : GlobalX)
    (h : ∀ i, i < 31 → beaconAllowed (g.csBeacon.beaconMsg i)) :
    ∀ i, i < 31 → beaconAllowed ((beaconMsgUpdateSingle index c g).csBeacon.beaconMsg i) := by
  by_cases hr : inBeaconRange c
  · rw [(beaconMsgUpdateSingle_eq index c g).1 hr]
    apply setBeaconChar_allowed _ _ _ _ h
    by_cases hE : c = 'E'
    · rw [if_pos hE]
      exact ⟨Or.inr ⟨by decide, by decide⟩, by decide, by decide⟩
    · rw [if_neg hE]
      by_cases hT : c = 'T'
      · rw [if_pos hT]
        exact ⟨Or.inr ⟨by decide, by decide⟩, by decide, by decide⟩
      · rw [if_neg hT]
        exact ⟨hr, hE, hT⟩
  · rw [(beaconMsgUpdateSingle_eq index c g).2 hr]
    exact h

theorem beaconMsgUpdateTelemetry_count_allowed (position source : Nat) (g : GlobalX)
    (h : beaconMsgAllowed g) :
    beaconMsgAllowed (beaconMsgUpdateTelemetry.count position source g) :=
  setBeaconChar_allowed _ _ _ (intToBeaconChar_allowed _) h

theorem beaconMsgUpdateTelemetry_temp_allowed (position source : Nat) (g : GlobalX)
    (h : beaconMsgAllowed g) :
    beaconMsgAllowed (beaconMsgUpdateTelemetry.temp position source g) :=
  setBeaconChar_allowed _ _ _ (getTempChar_allowed _ _) h

theorem beaconMsgUpdateTelemetry_allowed (g : GlobalX) (h : beaconMsgAllowed g) :
    beaconMsgAllowed (beaconMsgUpdateTelemetry g) := by
  unfold beaconMsgUpdateTelemetry
  refine beaconMsgUpdateTelemetry_temp_allowed _ _ _ ?_
  refine beaconMsgUpdateTelemetry_count_allowed _ _ _ ?_
  refine beaconMsgUpdateTelemetry_count_allowed _ _ _ ?_
  refine beaconMsgUpdateTelemetry_count_allowed _ _ _ ?_
  refine beaconMsgUpdateTelemetry_count_allowed _ _ _ ?_
  refine beaconMsgUpdateTelemetry_count_allowed _ _ _ ?_
  refine beaconMsgUpdateTelemetry_count_allowed _ _ _ ?_
  refine beaconMsgUpdateTelemetry_count_allowed _ _ _ ?_
  refine beaconMsgUpdateTelemetry_count_allowed _ _ _ ?_
  refine beaconMsgUpdateTelemetry_count_allowed _ _ _ ?_
  refine beaconMsgUpdateTelemetry_count_allowed _ _ _ ?_
  refine beaconMsgUpdateTelemetry_count_allowed _ _ _ ?_
  refine beaconMsgUpdateTelemetry_count_allowed _ _ _ ?_
  refine beaconMsgUpdateTelemetry_count_allowed _ _ _ ?_
  refine beaconMsgUpdateTelemetry_count_allowed _ _ _ ?_
  refine beaconMsgUpdateTelemetry_count_allowed _ _ _ ?_
  refine beaconMsgUpdateTelemetry_count_allowed _ _ _ ?_
  refine beaconMsgUpdateTelemetry_count_allowed _ _ _ ?_
  refine beaconMsgUpdateTelemetry_count_allowed _ _ _ ?_
  refine beaconMsgUpdateTelemetry_temp_allowed _ _ _ ?_
  refine beaconMsgUpdateTelemetry_count_allowed _ _ _ ?_
  refine beaconMsgUpdateTelemetry_count_allowed _ _ _ ?_
  refine beaconMsgUpdateTelemetry_temp_allowed _ _ _ ?_
  refine beaconMsgUpdateTelemetry_count_allowed _ _ _ ?_
  refine beaconMsgUpdateTelemetry_count_allowed _ _ _ ?_
  exact h

theorem runBeaconCalls_allowed (calls : List beacon_call) :
    ∀ g : GlobalX, (∀ c, c ∈ calls → beaconCallValid c) →
      (∀ i, i < 31 → beaconAllowed (g.csBeacon.beaconMsg i)) →
      ∀ i, i < 31 → beaconAllowed ((runBeaconCalls calls g).csBeacon.beaconMsg i) := by
  induction calls with
  | nil => intro g _ h; exact h
  | cons c rest ih =>
    intro g hv h
    have hrest : ∀ c, c ∈ rest → beaconCallValid c :=
      fun c hc => hv c (List.mem_cons_of_mem _ hc)
    cases c with
    | updateSingle index val =>
      exact ih _ hrest (beaconMsgUpdateSingle_allowed index val g h)
    | updateTelemetry reading =>
      exact ih _ hrest (beaconMsgUpdateTelemetry_allowed _ h)

/-- C11: starting from `beaconMsgInit`, after any sequence of `beaconMsgUpdateSingle`
calls (index 0..30, any character) and `beaconMsgUpdateTelemetry` calls (any readings in
`csLastTelemetry`), each of the 31 characters of `beaconMsg` is in `0-9` or `A-Z` and is
neither `E` nor `T`. -/
theorem beaconMsg_alphabet_invariant (calls : List beacon_call) (g : GlobalX)
    (hvalid : ∀ c, c ∈ calls → beaconCallValid c) (i : Nat) (hi : i < 31) :
    (('0' ≤ (runBeaconCalls calls (beaconMsgInit g)).csBeacon.beaconMsg i ∧
        (runBeaconCalls calls (beaconMsgInit g)).csBeacon.beaconMsg i ≤ '9') ∨
      ('A' ≤ (runBeaconCalls calls (beaconMsgInit g)).csBeacon.beaconMsg i ∧
        (runBeaconCalls calls (beaconMsgInit g)).csBeacon.beaconMsg i ≤ 'Z')) ∧
    (runBeaconCalls calls (beaconMsgInit g)).csBeacon.beaconMsg i ≠ 'E' ∧
    (runBeaconCalls calls (beaconMsgInit g)).csBeacon.beaconMsg i ≠ 'T' := by
  apply runBeaconCalls_allowed calls (beaconMsgInit g) hvalid _ i hi
  intro j hj
  have : (beaconMsgInit g).csBeacon.beaconMsg j = 'A' := by
    unfold beaconMsgInit BEACON_MSG_LEN
    simp [hj]
  rw [this]
  exact ⟨Or.inr ⟨by decide, by decide⟩, by decide, by decide⟩

/-- A telemetry update with all readings at 0xFFFF, then single updates with `'E'` and
`'*'`: position 6 holds an allowed character. -/
theorem beaconMsg_alphabet_invariant_witness :
    (∀ c, c ∈ [beacon_call.updateTelemetry (fun _ => 65535),
        beacon_call.updateSingle 6 'E', beacon_call.updateSingle 6 '*'] →
      beaconCallValid c) ∧ 6 < 31 ∧
    (runBeaconCalls [beacon_call.updateTelemetry (fun _ => 65535),
        beacon_call.updateSingle 6 'E', beacon_call.updateSingle 6 '*']
      (beaconMsgInit zeroGlobal)).csBeacon.beaconMsg 6 ≠ 'E' := by
  have hv : ∀ c, c ∈ [beacon_call.updateTelemetry (fun _ => 65535),
      beacon_call.updateSingle 6 'E', beacon_call.updateSingle 6 '*'] →
      beaconCallValid c := by
    intro c hc
    simp only [List.mem_cons, List.mem_singleton, List.not_mem_nil, or_false] at hc
    rcases hc with rfl | rfl | rfl
    · trivial
    · show 6 < 31; decide
    · show 6 < 31; decide
  exact ⟨hv, by decide, (beaconMsg_alphabet_invariant _ zeroGlobal hv 6 (by decide)).2.1⟩

/-- C13: for a 12-bit reading `r` stored at the telemetry index, `getTempChar` returns
`intToBeaconChar(0) = 'A'` when `r <= 1385` and otherwise
`intToBeaconChar(min(33, (r - 1385) / 32))`; in particular `'9'` for every
`r >= 1385 + 32 * 33`. -/
theorem getTempChar_contract (index : Nat) (g : GlobalX) (r : Nat)
    (hr : g.csLastTelemetry.reading index = r) (h12 : r < 4096) :
    (r ≤ 1385 → getTempChar index g = intToBeaconChar 0 ∧ getTempChar index g = 'A') ∧
    (1385 < r → getTempChar index g = intToBeaconChar (min 33 ((r - 1385) / 32))) ∧
    (1385 + 32 * 33 ≤ r → getTempChar index g = '9') := by
  unfold getTempChar
  rw [hr]
  dsimp only
  refine ⟨?_, ?_, ?_⟩
  · intro h
    rw [if_pos (by omega)]
    exact ⟨rfl, by decide⟩
  · intro h
    have ht : (r + 64151) % 65536 = r - 1385 := by omega
    rw [ht, if_neg (by omega)]
    by_cases h33 : (r - 1385) / 32 ≥ 33
    · rw [if_pos h33, Nat.min_eq_left h33]
    · rw [if_neg h33, Nat.min_eq_right (by omega)]
  · intro h
    have ht : (r + 64151) % 65536 = r - 1385 := by omega
    rw [ht, if_neg (by omega), if_pos (by omega)]
    decide

/-- The readings 0, 1385 and 2441 = 1385 + 32 * 33 at index 21. -/
theorem getTempChar_contract_witness :
    getTempChar 21 { zeroGlobal with csLastTelemetry := { reading := fun _ => 0 } } = 'A' ∧
    getTempChar 21 { zeroGlobal with csLastTelemetry := { reading := fun _ => 1385 } } = 'A' ∧
    getTempChar 21 { zeroGlobal with csLastTelemetry := { reading := fun _ => 2441 } } = '9' :=
  ⟨((getTempChar_contract 21 _ 0 rfl (by decide)).1 (by decide)).2,
    ((getTempChar_contract 21 _ 1385 rfl (by decide)).1 (by decide)).2,
    (getTempChar_contract 21 _ 2441 rfl (by decide)).2.2 (by decide)⟩

theorem search_spec (ID : Nat) (s : response_poll_t) (hhead : s.head ≤ 66) :
    ∀ (fuel i : Nat), i ≤ s.head → s.head ≤ i + fuel →
      ((∀ j, i ≤ j → j < s.head → (s.poll_queue j).cmd_ID ≠ ID) →
        (respPollUserDelete.search ID s fuel i).2 = (false, false)) ∧
      ∀ k, i ≤ k → k < s.head → (s.poll_queue k).cmd_ID = ID →
        (∀ j, i ≤ j → j < k → (s.poll_queue j).cmd_ID ≠ ID) →
        ((s.poll_queue k).type = PENDING →
          (respPollUserDelete.search ID s fuel i).2 = (true, false)) ∧
        ((s.poll_queue k).type ≠ PENDING →
          respPollUserDelete.search ID s fuel i = (k, true, true)) := by
  intro fuel
  induction fuel with
  | zero =>
    intro i hi hf
    refine ⟨fun _ => rfl, ?_⟩
    intro k hk1 hk2
    omega
  | succ n ih =>
    intro i hi hf
    unfold respPollUserDelete.search
    by_cases hlt : i < s.head
    · rw [if_pos hlt]
      by_cases hid : (s.poll_queue i).cmd_ID = ID
      · rw [if_pos hid]
        refine ⟨fun h => absurd hid (h i (le_refl _) hlt), ?_⟩
        intro k hk1 hk2 hkid hfirst
        have hki : k = i := by
          by_contra hne
          exact hfirst i (le_refl _) (by omega) hid
        subst hki
        constructor
        · intro hp
          rw [if_neg (not_not.2 hp)]
        · intro hp
          rw [if_pos hp]
          have : ((k + 255) % 256 + 1) % 256 = k := by omega
          rw [this]
      · rw [if_neg hid]
        obtain ⟨ih1, ih2⟩ := ih (i + 1) (by omega) (by omega)
        refine ⟨fun h => ih1 (fun j hj hjh => h j (by omega) hjh), ?_⟩
        intro k hk1 hk2 hkid hfirst
        have hki : k ≠ i := fun h => hid (h ▸ hkid)
        exact ih2 k (by omega) hk2 hkid (fun j hj hjk => hfirst j (by omega) hjk)
    · rw [if_neg hlt]
      refine ⟨fun _ => rfl, ?_⟩
      intro k hk1 hk2
      omega

theorem respPollUserDelete_spec (s : response_poll_t) (ID : Nat) (hhead : s.head ≤ 66) :
    ((∀ j, j < s.head → (s.poll_queue j).cmd_ID ≠ ID) →
      respPollUserDelete ID s = (0xFF, s)) ∧
    ∀ k, k < s.head → (s.poll_queue k).cmd_ID = ID →
      (∀ j, j < k → (s.poll_queue j).cmd_ID ≠ ID) →
      ((s.poll_queue k).type = PENDING → respPollUserDelete ID s = (0xFE, s)) ∧
      ((s.poll_queue k).type ≠ PENDING →
        (respPollUserDelete ID s).1 = 0 ∧
        (respPollUserDelete ID s).2.head + 1 = s.head ∧
        queue (respPollUserDelete ID s).2 = (queue s).eraseIdx k) := by
  obtain ⟨h1, h2⟩ := search_spec ID s hhead s.head 0 (Nat.zero_le _) (by omega)
  constructor
  · intro hnone
    have := h1 (fun j _ hj => hnone j hj)
    unfold respPollUserDelete
    simp [this]
  · intro k hk hid hfirst
    obtain ⟨hp, hd⟩ := h2 k (Nat.zero_le _) hk hid (fun j _ hjk => hfirst j hjk)
    constructor
    · intro hpend
      have := hp hpend
      unfold respPollUserDelete
      simp [this]
    · intro hnp
      have hs := hd hnp
      have hdel : (respPollUserDelete ID s).2 = (respPollSysDelete k s).2 := by
        unfold respPollUserDelete respPollSysDelete
        simp [hs, le_of_lt hk]
      refine ⟨?_, ?_, ?_⟩
      · unfold respPollUserDelete
        simp [hs]
      · rw [hdel, sysDelete_head k s hk hhead]
        omega
      · rw [hdel, queue_sysDelete k s hk hhead]

/-- C14: `respPollUserDelete(ID)` on a poll with `head <= 66` returns 0xFF and changes
nothing when no entry has the command id; returns 0xFE and changes nothing when the first
entry with the id is `PENDING`; otherwise returns 0, removes exactly that entry, shifts
the later entries down by one and decreases `head` by 1. -/
theorem respPollUserDelete_contract (s : response_poll_t) (ID : Nat) (hhead : s.head ≤ 66) :
    ((∀ j, j < s.head → (s.poll_queue j).cmd_ID ≠ ID) →
      respPollUserDelete ID s = (0xFF, s)) ∧
    ∀ k, k < s.head → (s.poll_queue k).cmd_ID = ID →
      (∀ j, j < k → (s.poll_queue j).cmd_ID ≠ ID) →
      ((s.poll_queue k).type = PENDING → respPollUserDelete ID s = (0xFE, s)) ∧
      ((s.poll_queue k).type ≠ PENDING →
        (respPollUserDelete ID s).1 = 0 ∧
        (respPollUserDelete ID s).2.head + 1 = s.head ∧
        queue (respPollUserDelete ID s).2 = (queue s).eraseIdx k) :=
  respPollUserDelete_spec s ID hhead

/-- The poll of scenario S1 plus one immediate entry: deleting id 21 (pending) is
refused, deleting id 9 (absent) finds nothing, deleting id 3 removes the entry at
index 0 of `pollTwoPending`. -/
theorem respPollUserDelete_contract_witness :
    pollTwoPending.head ≤ 66 ∧
    respPollUserDelete 9 pollTwoPending = (0xFF, pollTwoPending) ∧
    respPollUserDelete 5 pollTwoPending = (0xFE, pollTwoPending) ∧
    (respPollUserDelete 3 pollTwoPending).1 = 0 ∧
    queue (respPollUserDelete 3 pollTwoPending).2 = (queue pollTwoPending).eraseIdx 0 :=
  ⟨by decide,
    (respPollUserDelete_contract pollTwoPending 9 (by decide)).1 (by decide),
    ((respPollUserDelete_contract pollTwoPending 5 (by decide)).2 1 (by decide) rfl
      (by decide)).1 rfl,
    (((respPollUserDelete_contract pollTwoPending 3 (by decide)).2 0 (by decide) rfl
      (by decide)).2 (by decide)).1,
    (((respPollUserDelete_contract pollTwoPending 3 (by decide)).2 0 (by decide) rfl
      (by decide)).2 (by decide)).2.2⟩

theorem updatePending_scan_none (c : Nat) (head : Nat) :
    ∀ (fuel i : Nat) (s : response_poll_t),
      (∀ j, i ≤ j → j < head → (s.poll_queue j).cmd_ID ≠ c) →
      respPollUpdatePending.scan c head fuel i s = s := by
  intro fuel
  induction fuel with
  | zero => intro i s _; rfl
  | succ n ih =>
    intro i s h
    unfold respPollUpdatePending.scan
    by_cases hlt : i < head
    · rw [if_pos hlt, if_neg (h i (le_refl _) hlt)]
      exact ih (i + 1) s (fun j hj hjh => h j (by omega) hjh)
    · rw [if_neg hlt]

theorem updatePending_scan_first (c : Nat) (head : Nat) :
    ∀ (fuel i : Nat) (s : response_poll_t) (k : Nat), i ≤ k → k < head → head ≤ i + fuel →
      (s.poll_queue k).cmd_ID = c →
      (∀ j, i ≤ j → j < k → (s.poll_queue j).cmd_ID ≠ c) →
      respPollUpdatePending.scan c head fuel i s = (respPollSysDelete k s).2 := by
  intro fuel
  induction fuel with
  | zero => intro i s k h1 h2 h3; omega
  | succ n ih =>
    intro i s k hik hk hf hid hfirst
    unfold respPollUpdatePending.scan
    rw [if_pos (by omega)]
    by_cases hki : k = i
    · subst hki
      rw [if_pos hid]
    · rw [if_neg (hfirst i (le_refl _) (by omega))]
      exact ih (i + 1) s k (by omega) hk (by omega) hid
        (fun j hj hjk => hfirst j (by omega) hjk)

/-- C15: on a poll with `head <= 66`, `respPollUpdatePending(e)` is `respPollEnqueue(e)`
applied to the poll without its first entry of `cmd_ID = e.cmd_ID` (whatever its type);
when there is such an entry, it is deleted before `e` is inserted, `head` is unchanged,
`e` is the last entry and the other entries keep their order. -/
theorem respPollUpdatePending_contract (s : response_poll_t) (e : resp_poll_t)
    (hhead : s.head ≤ 66) :
    ((∀ j, j < s.head → (s.poll_queue j).cmd_ID ≠ e.cmd_ID) →
      respPollUpdatePending e s = respPollEnqueue e s) ∧
    ∀ k, k < s.head → (s.poll_queue k).cmd_ID = e.cmd_ID →
      (∀ j, j < k → (s.poll_queue j).cmd_ID ≠ e.cmd_ID) →
      respPollUpdatePending e s = respPollEnqueue e (respPollSysDelete k s).2 ∧
      (respPollUpdatePending e s).head = s.head ∧
      queue (respPollUpdatePending e s) = (queue s).eraseIdx k ++ [e] := by
  constructor
  · intro hnone
    unfold respPollUpdatePending
    rw [updatePending_scan_none e.cmd_ID s.head s.head 0 s (fun j _ hj => hnone j hj)]
  · intro k hk hid hfirst
    have hscan : respPollUpdatePending e s = respPollEnqueue e (respPollSysDelete k s).2 := by
      unfold respPollUpdatePending
      rw [updatePending_scan_first e.cmd_ID s.head s.head 0 s k (Nat.zero_le _) hk (by omega)
        hid (fun j _ hjk => hfirst j hjk)]
    have hq : queue (respPollUpdatePending e s) = (queue s).eraseIdx k ++ [e] := by
      rw [hscan, queue_enqueue, queue_sysDelete k s hk hhead]
      apply enqueueL_of_lt
      rw [List.length_eraseIdx, queue_length]
      simp [hk]
      omega
    refine ⟨hscan, ?_, hq⟩
    rw [← queue_length, hq, List.length_append, List.length_eraseIdx, queue_length]
    simp [hk]
    omega

/-- Completing command 5 of `pollTwoPending`: the pending entry at index 1 goes, the
receipt is the last entry and `head` stays 3. -/
theorem respPollUpdatePending_contract_witness :
    pollTwoPending.head ≤ 66 ∧
    (respPollUpdatePending { epoch := 30, cmd_ID := 5, type := PENDING_COMPLETE, status := 0 }
      pollTwoPending).head = pollTwoPending.head ∧
    queue (respPollUpdatePending
        { epoch := 30, cmd_ID := 5, type := PENDING_COMPLETE, status := 0 } pollTwoPending) =
      (queue pollTwoPending).eraseIdx 1 ++
        [{ epoch := 30, cmd_ID := 5, type := PENDING_COMPLETE, status := 0 }] :=
  ⟨by decide,
    ((respPollUpdatePending_contract pollTwoPending
      { epoch := 30, cmd_ID := 5, type := PENDING_COMPLETE, status := 0 } (by decide)).2 1
      (by decide) rfl (by decide)).2.1,
    ((respPollUpdatePending_contract pollTwoPending
      { epoch := 30, cmd_ID := 5, type := PENDING_COMPLETE, status := 0 } (by decide)).2 1
      (by decide) rfl (by decide)).2.2⟩

theorem exists_first_index (P : Nat → Prop) (n : Nat) (h : ∃ k, k < n ∧ P k) :
    ∃ k, k < n ∧ P k ∧ ∀ j, j < k → ¬ P j := by
  classical
  refine ⟨Nat.find h, (Nat.find_spec h).1, (Nat.find_spec h).2, ?_⟩
  intro j hj hP
  exact Nat.find_min h hj ⟨lt_trans hj (Nat.find_spec h).1, hP⟩

theorem respPollUserDelete_head_le (ID : Nat) (s : response_poll_t) (hhead : s.head ≤ 66) :
    (respPollUserDelete ID s).2.head ≤ 66 := by
  obtain ⟨h1, h2⟩ := respPollUserDelete_spec s ID hhead
  by_cases hex : ∃ k, k < s.head ∧ (s.poll_queue k).cmd_ID = ID
  · obtain ⟨k, hk, hid, hfirst⟩ := exists_first_index _ _ hex
    obtain ⟨hp, hd⟩ := h2 k hk hid hfirst
    by_cases hpend : (s.poll_queue k).type = PENDING
    · rw [hp hpend]; exact hhead
    · have := (hd hpend).2.1
      omega
  · rw [h1 (fun j hj hid => hex ⟨j, hj, hid⟩)]
    exact hhead

theorem respPollEnqueue_head_le (e : resp_poll_t) (s : response_poll_t) (hhead : s.head ≤ 66) :
    (respPollEnqueue e s).head ≤ 66 := by
  rw [← queue_length, queue_enqueue]
  exact enqueueL_length_le _ _ (by rw [queue_length]; exact hhead)

theorem respPollUpdatePending_head_le (e : resp_poll_t) (s : response_poll_t)
    (hhead : s.head ≤ 66) : (respPollUpdatePending e s).head ≤ 66 := by
  rw [← queue_length, queue_updatePending _ _ hhead]
  exact updatePendingL_length_le _ _ (by rw [queue_length]; exact hhead)

theorem runPollCalls_head_le (calls : List poll_call) :
    ∀ s : response_poll_t, s.head ≤ 66 →
      ∃ s1, runPollCalls calls s = some s1 ∧ s1.head ≤ 66 := by
  induction calls with
  | nil => intro s h; exact ⟨s, rfl, h⟩
  | cons c rest ih =>
    intro s h
    cases c with
    | enqueue newest => exact ih _ (respPollEnqueue_head_le newest s h)
    | userDelete ID => exact ih _ (respPollUserDelete_head_le ID s h)
    | updatePending update => exact ih _ (respPollUpdatePending_head_le update s h)
    | abort status time =>
      obtain ⟨r, hr, hr66, _⟩ := respPollAbort_some status time s h
      obtain ⟨s1, hs1, h66⟩ := ih r hr66
      exact ⟨s1, by simp [runPollCalls, hr, hs1], h66⟩

/-- C16: starting from `initResponsePoll`, every sequence of `respPollEnqueue`,
`respPollUserDelete`, `respPollUpdatePending` and `respPollAbort` calls with arbitrary
arguments returns and leaves `head <= 66`. -/
theorem respPoll_size_invariant (calls : List poll_call) (s0 : response_poll_t) :
    ∃ s, runPollCalls calls (initResponsePoll s0) = some s ∧ s.head ≤ 66 :=
  runPollCalls_head_le calls (initResponsePoll s0) (Nat.zero_le _)

/-- C18 (failing input): `respPollSysDelete(index)` with `index = head`, where no item
exists, returns `true`: on an empty poll `head` wraps to 255, on a poll of three entries
the last entry is dropped (`head` becomes 2). The test `index <= head` should be
`index < head`. -/
theorem respPollSysDelete_index_head :
    (pollOfList []).head = 0 ∧
    (respPollSysDelete 0 (pollOfList [])).1 = true ∧
    (respPollSysDelete 0 (pollOfList [])).2.head = 255 ∧
    pollTwoPending.head = 3 ∧
    (respPollSysDelete 3 pollTwoPending).1 = true ∧
    (respPollSysDelete 3 pollTwoPending).2.head = 2 := by
  decide

theorem respPollResponse_loop_spec (s : response_poll_t) :
    ∀ (fuel i : Nat) (telem : Nat → Nat), i ≤ s.head → s.head ≤ i + fuel →
      (respPollResponse.loop s fuel i telem).1 = s.head ∧
      ∀ j, (respPollResponse.loop s fuel i telem).2 j =
        if i * 7 ≤ j ∧ j < s.head * 7 then respPollResponse.byte (s.poll_queue (j / 7)) (j % 7)
        else telem j := by
  intro fuel
  induction fuel with
  | zero =>
    intro i telem hi hf
    refine ⟨by simp [respPollResponse.loop]; omega, ?_⟩
    intro j
    rw [if_neg (by omega)]
    rfl
  | succ n ih =>
    intro i telem hi hf
    unfold respPollResponse.loop
    by_cases hlt : i < s.head
    · rw [if_pos hlt]
      dsimp only
      obtain ⟨ih1, ih2⟩ := ih (i + 1) (Function.update (Function.update (Function.update
        (Function.update (Function.update (Function.update (Function.update telem (i * 7 + 0)
        (respPollResponse.byte (s.poll_queue i) 0)) (i * 7 + 1)
        (respPollResponse.byte (s.poll_queue i) 1)) (i * 7 + 2)
        (respPollResponse.byte (s.poll_queue i) 2)) (i * 7 + 3)
        (respPollResponse.byte (s.poll_queue i) 3)) (i * 7 + 4)
        (respPollResponse.byte (s.poll_queue i) 4)) (i * 7 + 5)
        (respPollResponse.byte (s.poll_queue i) 5)) (i * 7 + 6)
        (respPollResponse.byte (s.poll_queue i) 6)) (by omega) (by omega)
      refine ⟨ih1, ?_⟩
      intro j
      rw [ih2 j]
      by_cases hj : (i + 1) * 7 ≤ j ∧ j < s.head * 7
      · rw [if_pos hj, if_pos (by omega)]
      · rw [if_neg hj]
        by_cases hj2 : i * 7 ≤ j ∧ j < s.head * 7
        · rw [if_pos hj2]
          have hdiv : j / 7 = i := by omega
          rw [hdiv]
          have hcases : j = i * 7 + 0 ∨ j = i * 7 + 1 ∨ j = i * 7 + 2 ∨ j = i * 7 + 3 ∨
              j = i * 7 + 4 ∨ j = i * 7 + 5 ∨ j = i * 7 + 6 := by omega
          rcases hcases with h | h | h | h | h | h | h
          · subst h
            rw [show (i * 7 + 0) % 7 = 0 by omega]
            simp [Function.update]
          · subst h
            rw [show (i * 7 + 1) % 7 = 1 by omega]
            simp [Function.update]
          · subst h
            rw [show (i * 7 + 2) % 7 = 2 by omega]
            simp [Function.update]
          · subst h
            rw [show (i * 7 + 3) % 7 = 3 by omega]
            simp [Function.update]
          · subst h
            rw [show (i * 7 + 4) % 7 = 4 by omega]
            simp [Function.update]
          · subst h
            rw [show (i * 7 + 5) % 7 = 5 by omega]
            simp [Function.update]
          · subst h
            rw [show (i * 7 + 6) % 7 = 6 by omega]
            simp [Function.update]
        · rw [if_neg hj2]
          have h0 : j ≠ i * 7 + 0 := by omega
          have h1 : j ≠ i * 7 + 1 := by omega
          have h2 : j ≠ i * 7 + 2 := by omega
          have h3 : j ≠ i * 7 + 3 := by omega
          have h4 : j ≠ i * 7 + 4 := by omega
          have h5 : j ≠ i * 7 + 5 := by omega
          have h6 : j ≠ i * 7 + 6 := by omega
          rw [Function.update_noteq h6, Function.update_noteq h5, Function.update_noteq h4,
            Function.update_noteq h3, Function.update_noteq h2, Function.update_noteq h1,
            Function.update_noteq h0]
    · rw [if_neg hlt]
      refine ⟨by show i = s.head; omega, ?_⟩
      intro j
      rw [if_neg (by omega)]

theorem respPollResponse_byte_lt (e : resp_poll_t) (k : Nat) :
    respPollResponse.byte e k < 256 := by
  unfold respPollResponse.byte
  split <;> exact Nat.mod_lt _ (by decide)

/-- C17: on a poll with `head <= 66` whose entries hold a 16-bit `cmd_ID`, an 8-bit
`status` and a 32-bit `epoch`, `respPollResponse` returns `7 * head`, leaves the bytes
from `7 * head` on untouched and writes, for every `i < head`, seven bytes at
`7i .. 7i+6` that decode (big-endian 16 bits, 8 bits, big-endian 32 bits) to the
`cmd_ID`, `status` and `epoch` of entry `i`; the type is not written. -/
theorem respPollResponse_roundtrip (s : response_poll_t) (telem : Nat → Nat)
    (hhead : s.head ≤ 66)
    (htyped : ∀ i, i < s.head → (s.poll_queue i).cmd_ID < 65536 ∧
      (s.poll_queue i).status < 256 ∧ (s.poll_queue i).epoch < 4294967296) :
    (respPollResponse s telem).1 = 7 * s.head ∧
    (∀ j, 7 * s.head ≤ j → (respPollResponse s telem).2 j = telem j) ∧
    ∀ i, i < s.head →
      (∀ k, k < 7 → (respPollResponse s telem).2 (7 * i + k) < 256) ∧
      (respPollResponse s telem).2 (7 * i) * 256 + (respPollResponse s telem).2 (7 * i + 1) =
        (s.poll_queue i).cmd_ID ∧
      (respPollResponse s telem).2 (7 * i + 2) = (s.poll_queue i).status ∧
      (respPollResponse s telem).2 (7 * i + 3) * 16777216 +
          (respPollResponse s telem).2 (7 * i + 4) * 65536 +
          (respPollResponse s telem).2 (7 * i + 5) * 256 +
          (respPollResponse s telem).2 (7 * i + 6) =
        (s.poll_queue i).epoch := by
  obtain ⟨h1, h2⟩ := respPollResponse_loop_spec s s.head 0 telem (Nat.zero_le _) (by omega)
  have hout : ∀ j, (respPollResponse s telem).2 j =
      if j < s.head * 7 then respPollResponse.byte (s.poll_queue (j / 7)) (j % 7)
      else telem j := by
    intro j
    show (respPollResponse.loop s s.head 0 telem).2 j = _
    rw [h2 j]
    by_cases hj : j < s.head * 7
    · rw [if_pos ⟨by omega, hj⟩, if_pos hj]
    · rw [if_neg (fun h => hj h.2), if_neg hj]
  refine ⟨?_, ?_, ?_⟩
  · show ((respPollResponse.loop s s.head 0 telem).1 * 7) % 65536 = 7 * s.head
    rw [h1]
    omega
  · intro j hj
    rw [hout j, if_neg (by omega)]
  · intro i hi
    obtain ⟨hc, hs, he⟩ := htyped i hi
    have hb : ∀ k, k < 7 → (respPollResponse s telem).2 (7 * i + k) =
        respPollResponse.byte (s.poll_queue i) k := by
      intro k hk
      rw [hout, if_pos (by omega)]
      have hd : (7 * i + k) / 7 = i := by omega
      have hm : (7 * i + k) % 7 = k := by omega
      rw [hd, hm]
    refine ⟨?_, ?_, ?_, ?_⟩
    · intro k hk
      rw [hb k hk]
      exact respPollResponse_byte_lt _ _
    · have h0 := hb 0 (by decide)
      rw [Nat.add_zero] at h0
      rw [h0, hb 1 (by decide)]
      simp only [respPollResponse.byte, Nat.shiftRight_eq_div_pow]
      omega
    · rw [hb 2 (by decide)]
      simp only [respPollResponse.byte]
      omega
    · rw [hb 3 (by decide), hb 4 (by decide), hb 5 (by decide), hb 6 (by decide)]
      simp only [respPollResponse.byte, Nat.shiftRight_eq_div_pow]
      omega

/-- The three entries of `pollTwoPending`: 21 bytes are used, and entry 1 is read back
from bytes 7..13. -/
theorem respPollResponse_roundtrip_witness :
    pollTwoPending.head ≤ 66 ∧
    (respPollResponse pollTwoPending (fun _ => 0)).1 = 7 * pollTwoPending.head ∧
    (respPollResponse pollTwoPending (fun _ => 0)).2 (7 * 1) * 256 +
        (respPollResponse pollTwoPending (fun _ => 0)).2 (7 * 1 + 1) =
      (pollTwoPending.poll_queue 1).cmd_ID ∧
    (respPollResponse pollTwoPending (fun _ => 0)).2 (7 * 1 + 2) =
      (pollTwoPending.poll_queue 1).status :=
  ⟨by decide,
    (respPollResponse_roundtrip pollTwoPending (fun _ => 0) (by decide) (by decide)).1,
    ((respPollResponse_roundtrip pollTwoPending (fun _ => 0) (by decide) (by decide)).2.2 1
      (by decide)).2.1,
    ((respPollResponse_roundtrip pollTwoPending (fun _ => 0) (by decide) (by decide)).2.2 1
      (by decide)).2.2.1⟩

theorem storeBasicTelemetry_loop_spec (values : telemetry_block_t) :
    ∀ (fuel i : Nat) (b : csBasicTelemetryX), i ≤ 44 → 44 ≤ i + fuel →
      (∀ j, i ≤ j → j < 44 →
        ∃ t, storeBasicTelemetry.sensor values j (b.csSingleTelemetry j) = some t) →
      ∃ b1, storeBasicTelemetry.loop values fuel i b = some b1 ∧
        (∀ j, i ≤ j → j < 44 →
          storeBasicTelemetry.sensor values j (b.csSingleTelemetry j) =
            some (b1.csSingleTelemetry j)) ∧
        (∀ j, j < i → b1.csSingleTelemetry j = b.csSingleTelemetry j) ∧
        b1.battSlot = b.battSlot ∧ b1.battRecentTemp = b.battRecentTemp ∧
        b1.battDeltaTemp = b.battDeltaTemp ∧ b1.anomalyslot = b.anomalyslot ∧
        b1.anomalyModeTime = b.anomalyModeTime ∧
        b1.anomalyModeBasicInfo = b.anomalyModeBasicInfo := by
  intro fuel
  induction fuel with
  | zero =>
    intro i b hi hf _
    refine ⟨b, rfl, ?_, fun _ _ => rfl, rfl, rfl, rfl, rfl, rfl, rfl⟩
    intro j hj1 hj2
    omega
  | succ n ih =>
    intro i b hi hf hs
    unfold storeBasicTelemetry.loop
    by_cases hlt : i < 44
    · rw [if_pos (show i < NUM_SENSORS from hlt)]
      obtain ⟨t, ht⟩ := hs i (le_refl _) hlt
      rw [ht, Option.some_bind]
      obtain ⟨b1, hb1, hA, hB, hC⟩ := ih (i + 1)
        { b with csSingleTelemetry := Function.update b.csSingleTelemetry i t }
        (by omega) (by omega) (by
          intro j hj1 hj2
          have hne : j ≠ i := by omega
          simp only [Function.update_noteq hne]
          exact hs j (by omega) hj2)
      refine ⟨b1, hb1, ?_, ?_, hC⟩
      · intro j hj1 hj2
        by_cases hji : j = i
        · subst hji
          have := hB j (by omega)
          simp only [Function.update_same] at this
          rw [this, ht]
        · have := hA j (by omega) hj2
          simpa only [Function.update_noteq hji] using this
      · intro j hj
        have := hB j (by omega)
        have hne : j ≠ i := by omega
        simpa only [Function.update_noteq hne] using this
    · rw [if_neg (show ¬ i < NUM_SENSORS from hlt)]
      refine ⟨b, rfl, ?_, fun _ _ => rfl, rfl, rfl, rfl, rfl, rfl, rfl⟩
      intro j hj1 hj2
      omega

theorem sensor_fields (values : telemetry_block_t) (i : Nat) (t : csSingleBasicTelemetry)
    (hn : t.n < 65535) :
    ∃ t1, storeBasicTelemetry.sensor values i t = some t1 ∧
      t1.n = t.n + 1 ∧
      t1.avg = ((t.avg * t.n % 4294967296 + values.readings i) % 4294967296 / (t.n + 1))
        % 65536 ∧
      ((values.readings i ≥ t.hiVal ∨ t.n = 0) →
        t1.hiVal = values.readings i ∧ t1.hiTime = values.epoch) ∧
      (¬ (values.readings i ≥ t.hiVal ∨ t.n = 0) →
        t1.hiVal = t.hiVal ∧ t1.hiTime = t.hiTime) ∧
      ((values.readings i ≤ t.lowVal ∨ t.n = 0) →
        t1.lowVal = values.readings i ∧ t1.lowTime = values.epoch) ∧
      (¬ (values.readings i ≤ t.lowVal ∨ t.n = 0) →
        t1.lowVal = t.lowVal ∧ t1.lowTime = t.lowTime) := by
  have hn1 : (t.n + 1) % 65536 = t.n + 1 := by omega
  have hne : ¬ (t.n + 1 = 0) := by omega
  have h1 : t.n + 1 = 1 ↔ t.n = 0 := by omega
  unfold storeBasicTelemetry.sensor
  simp only [hn1, if_neg hne, h1]
  refine ⟨_, rfl, ?_⟩
  by_cases hh : values.readings i ≥ t.hiVal ∨ t.n = 0 <;>
    by_cases hl : values.readings i ≤ t.lowVal ∨ t.n = 0 <;>
    simp [hh, hl]

theorem sensor_average (values : telemetry_block_t) (i : Nat) (t : csSingleBasicTelemetry)
    (hn : t.n < 65535) (havg : t.avg < 65536) (hr : values.readings i < 65536) :
    t.avg * t.n + values.readings i < 4294967296 ∧
    ∃ t1, storeBasicTelemetry.sensor values i t = some t1 ∧
      t1.n = t.n + 1 ∧
      t1.avg = (t.avg * t.n + values.readings i) / (t.n + 1) := by
  have hmul : t.avg * t.n ≤ 65535 * t.n := Nat.mul_le_mul_right _ (by omega)
  have hsum : t.avg * t.n + values.readings i < 4294967296 := by omega
  refine ⟨hsum, ?_⟩
  obtain ⟨t1, ht1, hn1, hav, _⟩ := sensor_fields values i t hn
  refine ⟨t1, ht1, hn1, ?_⟩
  rw [hav, Nat.mod_eq_of_lt (show t.avg * t.n < 4294967296 by omega), Nat.mod_eq_of_lt hsum]
  apply Nat.mod_eq_of_lt
  rw [Nat.div_lt_iff_lt_mul (by omega)]
  have : 65536 * (t.n + 1) = 65535 * t.n + t.n + 65536 := by ring
  omega

theorem storeBasicTelemetry_singles (values : telemetry_block_t) (b : csBasicTelemetryX)
    (hs : ∀ j, j < 44 →
      ∃ t, storeBasicTelemetry.sensor values j (b.csSingleTelemetry j) = some t) :
    ∃ b1, storeBasicTelemetry values b = some b1 ∧
      ∀ j, j < 44 →
        storeBasicTelemetry.sensor values j (b.csSingleTelemetry j) =
          some (b1.csSingleTelemetry j) := by
  obtain ⟨b1, hb1, hA, _⟩ := storeBasicTelemetry_loop_spec values 44 0 b (by omega) (by omega)
    (fun j _ hj => hs j hj)
  unfold storeBasicTelemetry
  rw [show NUM_SENSORS = 44 from rfl, hb1, Option.map_some']
  refine ⟨_, rfl, ?_⟩
  intro j hj
  rw [hA j (Nat.zero_le _) hj]
  split_ifs
  · rfl
  · rfl

theorem storeBasicTelemetry_loop_some (values : telemetry_block_t) :
    ∀ (fuel i : Nat) (b b1 : csBasicTelemetryX), i ≤ 44 → 44 ≤ i + fuel →
      storeBasicTelemetry.loop values fuel i b = some b1 →
      (∀ j, i ≤ j → j < 44 →
        storeBasicTelemetry.sensor values j (b.csSingleTelemetry j) =
          some (b1.csSingleTelemetry j)) ∧
      (∀ j, j < i → b1.csSingleTelemetry j = b.csSingleTelemetry j) := by
  intro fuel
  induction fuel with
  | zero =>
    intro i b b1 hi hf h
    simp only [storeBasicTelemetry.loop, Option.some.injEq] at h
    subst h
    exact ⟨fun j hj1 hj2 => by omega, fun _ _ => rfl⟩
  | succ n ih =>
    intro i b b1 hi hf h
    unfold storeBasicTelemetry.loop at h
    by_cases hlt : i < 44
    · rw [if_pos (show i < NUM_SENSORS from hlt)] at h
      cases ht : storeBasicTelemetry.sensor values i (b.csSingleTelemetry i) with
      | none => rw [ht] at h; simp at h
      | some t =>
        rw [ht, Option.some_bind] at h
        obtain ⟨hA, hB⟩ := ih (i + 1) _ b1 (by omega) (by omega) h
        constructor
        · intro j hj1 hj2
          by_cases hji : j = i
          · subst hji
            have := hB j (by omega)
            simp only [Function.update_same] at this
            rw [this, ht]
          · have := hA j (by omega) hj2
            simpa only [Function.update_noteq hji] using this
        · intro j hj
          have := hB j (by omega)
          have hne : j ≠ i := by omega
          simpa only [Function.update_noteq hne] using this
    · rw [if_neg (show ¬ i < NUM_SENSORS from hlt), Option.some.injEq] at h
      subst h
      exact ⟨fun j hj1 hj2 => by omega, fun _ _ => rfl⟩

theorem storeBasicTelemetry_singles_of_some (values : telemetry_block_t)
    (b b1 : csBasicTelemetryX) (h : storeBasicTelemetry values b = some b1) :
    ∀ j, j < 44 →
      storeBasicTelemetry.sensor values j (b.csSingleTelemetry j) =
        some (b1.csSingleTelemetry j) := by
  unfold storeBasicTelemetry at h
  cases hl : storeBasicTelemetry.loop values NUM_SENSORS 0 b with
  | none => rw [hl] at h; simp at h
  | some b2 =>
    rw [hl, Option.map_some', Option.some.injEq] at h
    obtain ⟨hA, _⟩ := storeBasicTelemetry_loop_some values 44 0 b b2 (by omega) (by omega) hl
    intro j hj
    rw [hA j (Nat.zero_le _) hj, ← h]
    split_ifs
    · rfl
    · rfl

/-- C19: for a block with 16-bit readings and aggregates with 16-bit averages,
`storeBasicTelemetry` sets, for every sensor `i` whose sample count is `n < 65535`,
`avg = floor((avg * n + readings[i]) / (n + 1))` and `n = n + 1`, and the 32-bit
intermediate `avg * n + readings[i]` does not wrap around; the call returns when every
sample count is below 65535 (a count of 65535 wraps to 0 and is divided by). -/
theorem storeBasicTelemetry_average (values : telemetry_block_t) (b : csBasicTelemetryX)
    (havg : ∀ i, i < 44 → (b.csSingleTelemetry i).avg < 65536)
    (hr : ∀ i, i < 44 → values.readings i < 65536) :
    ((∀ i, i < 44 → (b.csSingleTelemetry i).n < 65535) →
      ∃ b1, storeBasicTelemetry values b = some b1) ∧
    ∀ b1, storeBasicTelemetry values b = some b1 →
      ∀ i, i < 44 → (b.csSingleTelemetry i).n < 65535 →
        (b.csSingleTelemetry i).avg * (b.csSingleTelemetry i).n + values.readings i
          < 4294967296 ∧
        (b1.csSingleTelemetry i).avg =
          ((b.csSingleTelemetry i).avg * (b.csSingleTelemetry i).n + values.readings i) /
            ((b.csSingleTelemetry i).n + 1) ∧
        (b1.csSingleTelemetry i).n = (b.csSingleTelemetry i).n + 1 := by
  constructor
  · intro hn
    obtain ⟨b1, hb1, _⟩ := storeBasicTelemetry_singles values b (by
      intro j hj
      obtain ⟨_, t1, ht1, _⟩ := sensor_average values j _ (hn j hj) (havg j hj) (hr j hj)
      exact ⟨t1, ht1⟩)
    exact ⟨b1, hb1⟩
  · intro b1 hb1 i hi hn
    obtain ⟨hsum, t1, ht1, hn1, hav⟩ := sensor_average values i _ hn (havg i hi) (hr i hi)
    have := storeBasicTelemetry_singles_of_some values b b1 hb1 i hi
    rw [ht1, Option.some.injEq] at this
    rw [← this]
    exact ⟨hsum, hav, hn1⟩

/-- A block with all readings at 4095, stored into aggregates with average 4000 over 10
samples: the new average is `(4000 * 10 + 4095) / 11 = 4008`. -/
theorem storeBasicTelemetry_average_witness :
    ∃ b1, storeBasicTelemetry { epoch := 7, readings := fun _ => 4095 }
        { csBasicTelemetryX.cleared with csSingleTelemetry := fun _ =>
            { n := 10, hiVal := 4050, lowVal := 3900, avg := 4000, hiTime := 5, lowTime := 3 } }
        = some b1 ∧
      (b1.csSingleTelemetry 0).avg = (4000 * 10 + 4095) / (10 + 1) ∧
      (b1.csSingleTelemetry 0).n = 10 + 1 := by
  obtain ⟨h1, h2⟩ := storeBasicTelemetry_average { epoch := 7, readings := fun _ => 4095 }
    { csBasicTelemetryX.cleared with csSingleTelemetry := fun _ =>
        { n := 10, hiVal := 4050, lowVal := 3900, avg := 4000, hiTime := 5, lowTime := 3 } }
    (by decide) (by decide)
  obtain ⟨b1, hb1⟩ := h1 (by decide)
  exact ⟨b1, hb1, (h2 b1 hb1 0 (by decide) (by decide)).2.1,
    (h2 b1 hb1 0 (by decide) (by decide)).2.2⟩


theorem storeBasicTelemetryAll_append (l : List telemetry_block_t) (v : telemetry_block_t) :
    ∀ b : csBasicTelemetryX,
      storeBasicTelemetryAll (l ++ [v]) b =
        (storeBasicTelemetryAll l b).bind (storeBasicTelemetry v) := by
  induction l with
  | nil =>
    intro b
    simp [storeBasicTelemetryAll]
  | cons a t ih =>
    intro b
    simp only [List.cons_append, storeBasicTelemetryAll]
    cases h : storeBasicTelemetry a b with
    | none => rfl
    | some b1 => simp only [Option.some_bind]; exact ih b1

theorem extremes_step (l : List telemetry_block_t) (v : telemetry_block_t) (i : Nat)
    (t t1 : csSingleBasicTelemetry) (hn : t.n = l.length) (hlen : t.n < 65535)
    (hext : l ≠ [] → extremesOf l i t)
    (ht1 : storeBasicTelemetry.sensor v i t = some t1) :
    extremesOf (l ++ [v]) i t1 := by
  obtain ⟨t2, ht2, _, _, hh1, hh2, hl1, hl2⟩ := sensor_fields v i t hlen
  rw [ht1, Option.some.injEq] at ht2
  subst ht2
  by_cases hnil : l = []
  · subst hnil
    have h0 : t.n = 0 := by simpa using hn
    obtain ⟨e1, e2⟩ := hh1 (Or.inr h0)
    obtain ⟨e3, e4⟩ := hl1 (Or.inr h0)
    refine ⟨?_, ⟨[], v, [], rfl, e1.symm, e2.symm, by simp⟩, ?_,
      ⟨[], v, [], rfl, e3.symm, e4.symm, by simp⟩⟩
    · intro x hx
      have : x = v := by simpa using hx
      rw [this, e1]
    · intro x hx
      have : x = v := by simpa using hx
      rw [this, e3]
  · have hpos : t.n ≠ 0 := by
      rw [hn]
      exact fun h => hnil (List.length_eq_zero.1 h)
    obtain ⟨hA, ⟨pre, blk, post, hsplit, hb1, hb2, hb3⟩, hC,
      ⟨pre2, blk2, post2, hsplit2, hd1, hd2, hd3⟩⟩ := hext hnil
    refine ⟨?_, ?_, ?_, ?_⟩
    · intro x hx
      by_cases hc : v.readings i ≥ t.hiVal ∨ t.n = 0
      · rw [(hh1 hc).1]
        rcases List.mem_append.1 hx with h | h
        · have := hA x h
          omega
        · have : x = v := by simpa using h
          rw [this]
      · rw [(hh2 hc).1]
        rcases List.mem_append.1 hx with h | h
        · exact hA x h
        · have : x = v := by simpa using h
          rw [this]
          omega
    · by_cases hc : v.readings i ≥ t.hiVal ∨ t.n = 0
      · exact ⟨l, v, [], rfl, (hh1 hc).1.symm, (hh1 hc).2.symm, by simp⟩
      · refine ⟨pre, blk, post ++ [v], by rw [hsplit]; simp, ?_, ?_, ?_⟩
        · rw [(hh2 hc).1]; exact hb1
        · rw [(hh2 hc).2]; exact hb2
        · intro x hx
          rw [(hh2 hc).1]
          rcases List.mem_append.1 hx with h | h
          · exact hb3 x h
          · have : x = v := by simpa using h
            rw [this]
            omega
    · intro x hx
      by_cases hc : v.readings i ≤ t.lowVal ∨ t.n = 0
      · rw [(hl1 hc).1]
        rcases List.mem_append.1 hx with h | h
        · have := hC x h
          omega
        · have : x = v := by simpa using h
          rw [this]
      · rw [(hl2 hc).1]
        rcases List.mem_append.1 hx with h | h
        · exact hC x h
        · have : x = v := by simpa using h
          rw [this]
          omega
    · by_cases hc : v.readings i ≤ t.lowVal ∨ t.n = 0
      · exact ⟨l, v, [], rfl, (hl1 hc).1.symm, (hl1 hc).2.symm, by simp⟩
      · refine ⟨pre2, blk2, post2 ++ [v], by rw [hsplit2]; simp, ?_, ?_, ?_⟩
        · rw [(hl2 hc).1]; exact hd1
        · rw [(hl2 hc).2]; exact hd2
        · intro x hx
          rw [(hl2 hc).1]
          rcases List.mem_append.1 hx with h | h
          · exact hd3 x h
          · have : x = v := by simpa using h
            rw [this]
            omega

theorem storeBasicTelemetryAll_extremes (l : List telemetry_block_t) :
    l.length < 65536 →
    ∃ b, storeBasicTelemetryAll l csBasicTelemetryX.cleared = some b ∧
      (∀ i, i < 44 → (b.csSingleTelemetry i).n = l.length) ∧
      (l ≠ [] → ∀ i, i < 44 → extremesOf l i (b.csSingleTelemetry i)) := by
  induction l using List.reverseRecOn with
  | nil =>
    intro _
    exact ⟨_, rfl, fun _ _ => rfl, fun h => absurd rfl h⟩
  | append_singleton l v ih =>
    intro hlen
    rw [List.length_append, List.length_singleton] at hlen
    obtain ⟨b, hb, hn, hext⟩ := ih (by omega)
    have hs : ∀ j, j < 44 →
        ∃ t, storeBasicTelemetry.sensor v j (b.csSingleTelemetry j) = some t := by
      intro j hj
      obtain ⟨t, ht, _⟩ := sensor_fields v j (b.csSingleTelemetry j) (by rw [hn j hj]; omega)
      exact ⟨t, ht⟩
    obtain ⟨b1, hb1, hA⟩ := storeBasicTelemetry_singles v b hs
    refine ⟨b1, ?_, ?_, ?_⟩
    · rw [storeBasicTelemetryAll_append, hb, Option.some_bind, hb1]
    · intro i hi
      obtain ⟨t, ht, htn, _⟩ := sensor_fields v i (b.csSingleTelemetry i)
        (by rw [hn i hi]; omega)
      have := hA i hi
      rw [ht, Option.some.injEq] at this
      rw [← this, htn, hn i hi, List.length_append, List.length_singleton]
    · intro _ i hi
      exact extremes_step l v i _ _ (hn i hi) (by rw [hn i hi]; omega)
        (fun h => hext h i hi) (hA i hi)

/-- C20: starting from a cleared structure, `storeBasicTelemetry` applied to a non-empty
sequence of fewer than 65536 blocks returns and leaves, for every sensor `i`, `hiVal` the
maximum and `lowVal` the minimum of the sensor's readings (the first sample seeds both),
with `hiTime` and `lowTime` the epochs of the most recent block whose reading equals the
maximum and the minimum. -/
theorem storeBasicTelemetry_extremes (blocks : List telemetry_block_t) (hne : blocks ≠ [])
    (hlen : blocks.length < 65536) :
    ∃ b, storeBasicTelemetryAll blocks csBasicTelemetryX.cleared = some b ∧
      ∀ i, i < 44 →
        (∀ v, v ∈ blocks → v.readings i ≤ (b.csSingleTelemetry i).hiVal) ∧
        (∃ pre blk post, blocks = pre ++ blk :: post ∧
          blk.readings i = (b.csSingleTelemetry i).hiVal ∧
          blk.epoch = (b.csSingleTelemetry i).hiTime ∧
          ∀ v, v ∈ post → v.readings i < (b.csSingleTelemetry i).hiVal) ∧
        (∀ v, v ∈ blocks → (b.csSingleTelemetry i).lowVal ≤ v.readings i) ∧
        (∃ pre blk post, blocks = pre ++ blk :: post ∧
          blk.readings i = (b.csSingleTelemetry i).lowVal ∧
          blk.epoch = (b.csSingleTelemetry i).lowTime ∧
          ∀ v, v ∈ post → (b.csSingleTelemetry i).lowVal < v.readings i) := by
  obtain ⟨b, hb, _, hext⟩ := storeBasicTelemetryAll_extremes blocks hlen
  exact ⟨b, hb, fun i hi => hext hne i hi⟩

/-- Three blocks with readings 7, 9, 7 at epochs 1, 2, 3: every reading of sensor 0 lies
between the stored `lowVal` and `hiVal` (the first sample, 7 > 0, seeds the low). -/
theorem storeBasicTelemetry_extremes_witness :
    ∃ b, storeBasicTelemetryAll
        [{ epoch := 1, readings := fun _ => 7 }, { epoch := 2, readings := fun _ => 9 },
         { epoch := 3, readings := fun _ => 7 }] csBasicTelemetryX.cleared = some b ∧
      (b.csSingleTelemetry 0).lowVal ≤ 7 ∧ 9 ≤ (b.csSingleTelemetry 0).hiVal ∧
      b.csSingleTelemetry 0 =
        { n := 3, hiVal := 9, lowVal := 7, avg := 7, hiTime := 2, lowTime := 3 } := by
  obtain ⟨b, h1, h2⟩ := storeBasicTelemetry_extremes
    [{ epoch := 1, readings := fun _ => 7 }, { epoch := 2, readings := fun _ => 9 },
     { epoch := 3, readings := fun _ => 7 }] (by simp) (by decide)
  obtain ⟨hA, _, hC, _⟩ := h2 0 (by decide)
  refine ⟨b, h1, ?_, ?_, ?_⟩
  · exact hC { epoch := 1, readings := fun _ => 7 } (by simp)
  · exact hA { epoch := 2, readings := fun _ => 9 } (by simp)
  · have hv : (storeBasicTelemetryAll
        [{ epoch := 1, readings := fun _ => 7 }, { epoch := 2, readings := fun _ => 9 },
         { epoch := 3, readings := fun _ => 7 }] csBasicTelemetryX.cleared).map
        (fun b => b.csSingleTelemetry 0) =
        some { n := 3, hiVal := 9, lowVal := 7, avg := 7, hiTime := 2, lowTime := 3 } := by
      decide
    rw [h1] at hv
    exact Option.some.inj hv

/-- C21: with `battSlot < 3`, a 16-bit battery value and a 16-bit ring,
`storeBattDelta(b)` sets `battDeltaTemp` to `b - battRecentTemp[battSlot]` modulo 2^16
(read as an `int16` it is the exact difference when that fits), overwrites that slot
with `b`, leaves the other slots and fields as they were and sets `battSlot` to
`(battSlot + 1) mod 3`; after four consecutive pushes `b1, b2, b3, b4` the delta is
`b4 - b1` modulo 2^16. -/
theorem storeBattDelta_contract (battery : Nat) (b : csBasicTelemetryX)
    (hslot : b.battSlot < 3) (hbatt : battery < 65536)
    (hring : ∀ k, k < 3 → b.battRecentTemp k < 65536) :
    ((storeBattDelta battery b).battDeltaTemp : Int) =
      ((battery : Int) - (b.battRecentTemp b.battSlot : Int)) % 65536 ∧
    (-32768 ≤ (battery : Int) - (b.battRecentTemp b.battSlot : Int) →
      (battery : Int) - (b.battRecentTemp b.battSlot : Int) < 32768 →
      int16Val (storeBattDelta battery b).battDeltaTemp =
        (battery : Int) - (b.battRecentTemp b.battSlot : Int)) ∧
    (storeBattDelta battery b).battRecentTemp b.battSlot = battery ∧
    (∀ k, k ≠ b.battSlot →
      (storeBattDelta battery b).battRecentTemp k = b.battRecentTemp k) ∧
    (storeBattDelta battery b).battSlot = (b.battSlot + 1) % 3 ∧
    (storeBattDelta battery b).csSingleTelemetry = b.csSingleTelemetry ∧
    (storeBattDelta battery b).anomalyModeTime = b.anomalyModeTime ∧
    (storeBattDelta battery b).anomalyModeBasicInfo = b.anomalyModeBasicInfo ∧
    (storeBattDelta battery b).anomalyslot = b.anomalyslot ∧
    ∀ b1 b2 b3 b4, b1 < 65536 → b2 < 65536 → b3 < 65536 → b4 < 65536 →
      ((storeBattDelta b4 (storeBattDelta b3 (storeBattDelta b2
        (storeBattDelta b1 b)))).battDeltaTemp : Int) = ((b4 : Int) - (b1 : Int)) % 65536 := by
  have hold := hring b.battSlot hslot
  have hdelta : ∀ (x : Nat) (c : csBasicTelemetryX), x < 65536 →
      c.battRecentTemp c.battSlot < 65536 →
      ((storeBattDelta x c).battDeltaTemp : Int) =
        ((x : Int) - (c.battRecentTemp c.battSlot : Int)) % 65536 := by
    intro x c hx hc
    show (((x + (65536 - c.battRecentTemp c.battSlot % 65536)) % 65536 : Nat) : Int) = _
    omega
  refine ⟨hdelta battery b hbatt hold, ?_, ?_, ?_, rfl, rfl, rfl, rfl, rfl, ?_⟩
  · intro hlo hhi
    have h := hdelta battery b hbatt hold
    unfold int16Val
    split_ifs with hlt <;> omega
  · show Function.update b.battRecentTemp b.battSlot battery b.battSlot = battery
    rw [Function.update_same]
  · intro k hk
    show Function.update b.battRecentTemp b.battSlot battery k = b.battRecentTemp k
    rw [Function.update_noteq hk]
  · intro b1 b2 b3 b4 h1 h2 h3 h4
    have hs3 : (storeBattDelta b3 (storeBattDelta b2 (storeBattDelta b1 b))).battSlot =
        b.battSlot := by
      show (((b.battSlot + 1) % 3 + 1) % 3 + 1) % 3 = b.battSlot
      omega
    have hv3 : (storeBattDelta b3 (storeBattDelta b2 (storeBattDelta b1 b))).battRecentTemp
        b.battSlot = b1 := by
      show Function.update (Function.update (Function.update b.battRecentTemp b.battSlot b1)
        ((b.battSlot + 1) % 3) b2) (((b.battSlot + 1) % 3 + 1) % 3) b3 b.battSlot = b1
      rw [Function.update_noteq (by omega), Function.update_noteq (by omega),
        Function.update_same]
    rw [hdelta b4 _ h4 (by rw [hs3, hv3]; exact h1), hs3, hv3]

/-- Pushes 3000, 3010, 3020, 3005 onto a cleared ring: the last delta is
`3005 - 3000 = 5`. -/
theorem storeBattDelta_contract_witness :
    ((storeBattDelta 3005 (storeBattDelta 3020 (storeBattDelta 3010
      (storeBattDelta 3000 csBasicTelemetryX.cleared)))).battDeltaTemp : Int) =
        ((3005 : Int) - (3000 : Int)) % 65536 :=
  (storeBattDelta_contract 0 csBasicTelemetryX.cleared (by decide) (by decide)
    (by decide)).2.2.2.2.2.2.2.2.2 3000 3010 3020 3005 (by decide) (by decide) (by decide)
    (by decide)

theorem foldl_zero_of_fixed {α : Type} (f : Nat → α → Nat) (h : ∀ i, f 0 i = 0)
    (l : List α) : l.foldl f 0 = 0 := by
  induction l with
  | nil => rfl
  | cons a l ih => rw [List.foldl_cons, h a, ih]

theorem checkInitBasicTelemetry_cleared :
    checkInitBasicTelemetry csBasicTelemetryX.cleared = 0 := by
  have hor : checkInitBasicTelemetry.or 0 0 = 0 := by decide
  unfold checkInitBasicTelemetry
  simp only [csBasicTelemetryX.cleared, hor]
  rw [foldl_zero_of_fixed _ (fun _ => rfl), foldl_zero_of_fixed _ (fun _ => rfl), hor,
    foldl_zero_of_fixed _ (fun _ => rfl), hor, hor]

theorem initBasicTelemetry_spec (b : csBasicTelemetryX) :
    (initBasicTelemetry b).1 = 0 ∧
    (∀ i, (initBasicTelemetry b).2.csSingleTelemetry i =
      { n := 0, hiVal := 0, lowVal := 0, avg := 0, hiTime := 0, lowTime := 0 }) ∧
    (∀ k, (initBasicTelemetry b).2.anomalyModeTime k = 0 ∧
      (initBasicTelemetry b).2.anomalyModeBasicInfo k = 0) ∧
    (initBasicTelemetry b).2.anomalyslot = 0 ∧
    (∀ k, k < 3 → (initBasicTelemetry b).2.battRecentTemp k =
      b.battRecentTemp ((b.battSlot + 2) % 3)) ∧
    (initBasicTelemetry b).2.battSlot = 0 ∧
    (initBasicTelemetry b).2.battDeltaTemp = b.battRecentTemp ((b.battSlot + 2) % 3) % 65536 := by
  refine ⟨checkInitBasicTelemetry_cleared, fun _ => rfl, fun _ => ⟨rfl, rfl⟩, rfl, ?_, ?_, ?_⟩
  · intro k hk
    have : k = 0 ∨ k = 1 ∨ k = 2 := by omega
    rcases this with h | h | h <;> subst h <;>
      simp [initBasicTelemetry, storeBattDelta, csBasicTelemetryX.cleared, Function.update]
  · simp [initBasicTelemetry, storeBattDelta, csBasicTelemetryX.cleared]
  · simp [initBasicTelemetry, storeBattDelta, csBasicTelemetryX.cleared, Function.update]

/-- C22 (failing input): on a state whose ring holds 2990, 2995, 3000 (the most recent),
`initBasicTelemetry` clears the aggregates and the anomaly slots and fills the ring with
3000, but leaves `battDeltaTemp = 3000`, not 0: the third replay subtracts the cleared
slot. -/
theorem initBasicTelemetry_delta :
    battRingWarm.battSlot < 3 ∧
    (∀ k, k < 3 → (initBasicTelemetry battRingWarm).2.battRecentTemp k = 3000) ∧
    (initBasicTelemetry battRingWarm).2.battDeltaTemp = 3000 ∧
    int16Val (initBasicTelemetry battRingWarm).2.battDeltaTemp ≠ 0 := by
  decide

theorem getBasicTelemetry_time_apply (base value : Nat) (telem : Nat → Nat) (p : Nat) :
    getBasicTelemetry.time base value telem p =
      if p = base then value / 16777216 % 256
      else if p = base + 1 then value / 65536 % 256
      else if p = base + 2 then value / 256 % 256
      else if p = base + 3 then value % 256
      else telem p := by
  unfold getBasicTelemetry.time
  simp only [Function.update_apply, Nat.shiftRight_eq_div_pow, Nat.add_zero]
  split_ifs <;> first | rfl | omega

theorem getBasicTelemetry_sensor_apply (t : csSingleBasicTelemetry) (i : Nat)
    (telem : Nat → Nat) (p : Nat) :
    getBasicTelemetry.sensor t i telem p =
      if i * 14 ≤ p ∧ p < i * 14 + 14 then sensorImage t (p - i * 14) else telem p := by
  unfold getBasicTelemetry.sensor SENSOR_BYTES
  simp only [Function.update_apply, getBasicTelemetry_time_apply, Nat.shiftRight_eq_div_pow,
    Nat.add_zero]
  by_cases hp : i * 14 ≤ p ∧ p < i * 14 + 14
  · rw [if_pos hp]
    obtain ⟨k, hk, rfl⟩ : ∃ k, k < 14 ∧ p = i * 14 + k := ⟨p - i * 14, by omega, by omega⟩
    rw [Nat.add_sub_cancel_left]
    interval_cases k <;> simp [sensorImage, Nat.add_assoc]
  · rw [if_neg hp]
    have h : ∀ k, k < 14 → p ≠ i * 14 + k := by
      intro k hk
      omega
    rw [if_neg (h 13 (by decide)), if_neg (h 12 (by decide)), if_neg (h 8 (by decide)),
      if_neg (h 9 (by decide)), if_neg (h 10 (by decide)), if_neg (h 11 (by decide)),
      if_neg (h 7 (by decide)), if_neg (h 6 (by decide)), if_neg (h 2 (by decide)),
      if_neg (h 3 (by decide)), if_neg (h 4 (by decide)), if_neg (h 5 (by decide)),
      if_neg (h 1 (by decide)), if_neg (by omega)]

theorem getBasicTelemetry_anomaly_apply (b : csBasicTelemetryX) (i : Nat)
    (telem : Nat → Nat) (p : Nat) :
    getBasicTelemetry.anomaly b i telem p =
      if 619 + i * 6 ≤ p ∧ p < 619 + i * 6 + 6 then anomalyImage b i (p - (619 + i * 6))
      else telem p := by
  unfold getBasicTelemetry.anomaly SENSOR_BYTES NUM_SENSORS
  simp only [Function.update_apply, getBasicTelemetry_time_apply, Nat.shiftRight_eq_div_pow]
  by_cases hp : 619 + i * 6 ≤ p ∧ p < 619 + i * 6 + 6
  · rw [if_pos hp]
    obtain ⟨k, hk, rfl⟩ : ∃ k, k < 6 ∧ p = 619 + i * 6 + k :=
      ⟨p - (619 + i * 6), by omega, by omega⟩
    rw [Nat.add_sub_cancel_left]
    interval_cases k <;> simp [anomalyImage, Nat.add_assoc]
  · rw [if_neg hp]
    iterate 6 rw [if_neg (by omega)]

theorem getBasicTelemetry_sensors_spec (b : csBasicTelemetryX) :
    ∀ (fuel i : Nat) (telem : Nat → Nat), i ≤ 44 → 44 ≤ i + fuel →
      ∀ p, getBasicTelemetry.sensors b fuel i telem p =
        if i * 14 ≤ p ∧ p < 616 then sensorImage (b.csSingleTelemetry (p / 14)) (p % 14)
        else telem p := by
  intro fuel
  induction fuel with
  | zero =>
    intro i telem hi hf p
    rw [if_neg (by omega)]
    rfl
  | succ n ih =>
    intro i telem hi hf p
    unfold getBasicTelemetry.sensors
    by_cases hlt : i < 44
    · rw [if_pos (show i < NUM_SENSORS from hlt), ih (i + 1) _ (by omega) (by omega) p]
      by_cases hp : (i + 1) * 14 ≤ p ∧ p < 616
      · rw [if_pos hp, if_pos (by omega)]
      · rw [if_neg hp, getBasicTelemetry_sensor_apply]
        by_cases hp2 : i * 14 ≤ p ∧ p < 616
        · rw [if_pos hp2, if_pos (by omega)]
          have hd : p / 14 = i := by omega
          have hm : p % 14 = p - i * 14 := by omega
          rw [hd, hm]
        · rw [if_neg hp2, if_neg (by omega)]
    · rw [if_neg (show ¬ i < NUM_SENSORS from hlt), if_neg (by omega)]

theorem getBasicTelemetry_anomalies_spec (b : csBasicTelemetryX) :
    ∀ (fuel i : Nat) (telem : Nat → Nat), i ≤ 5 → 5 ≤ i + fuel →
      ∀ p, getBasicTelemetry.anomalies b fuel i telem p =
        if 619 + i * 6 ≤ p ∧ p < 649 then anomalyImage b ((p - 619) / 6) ((p - 619) % 6)
        else telem p := by
  intro fuel
  induction fuel with
  | zero =>
    intro i telem hi hf p
    rw [if_neg (by omega)]
    rfl
  | succ n ih =>
    intro i telem hi hf p
    unfold getBasicTelemetry.anomalies
    by_cases hlt : i < 5
    · rw [if_pos hlt, ih (i + 1) _ (by omega) (by omega) p]
      by_cases hp : 619 + (i + 1) * 6 ≤ p ∧ p < 649
      · rw [if_pos hp, if_pos (by omega)]
      · rw [if_neg hp, getBasicTelemetry_anomaly_apply]
        by_cases hp2 : 619 + i * 6 ≤ p ∧ p < 649
        · rw [if_pos hp2, if_pos (by omega)]
          have hd : (p - 619) / 6 = i := by omega
          have hm : (p - 619) % 6 = p - (619 + i * 6) := by omega
          rw [hd, hm]
        · rw [if_neg hp2, if_neg (by omega)]
    · rw [if_neg hlt, if_neg (by omega)]

theorem getBasicTelemetry_apply (g : GlobalX) (telem : Nat → Nat) (p : Nat) :
    (getBasicTelemetry g telem).2 p =
      if p < 616 then sensorImage (g.csBasicTelemetry.csSingleTelemetry (p / 14)) (p % 14)
      else if p = 616 then g.csBasicTelemetry.battDeltaTemp / 256 % 256
      else if p = 617 then g.csBasicTelemetry.battDeltaTemp % 256
      else if p = 618 then g.csState.mainState.toNat % 256
      else if p < 649 then anomalyImage g.csBasicTelemetry ((p - 619) / 6) ((p - 619) % 6)
      else telem p := by
  unfold getBasicTelemetry
  simp only [NUM_SENSORS, SENSOR_BYTES]
  rw [getBasicTelemetry_anomalies_spec _ 5 0 _ (by omega) (by omega)]
  by_cases h1 : p < 616
  · rw [if_neg (by omega), if_pos h1, Function.update_noteq (by omega),
      Function.update_noteq (by omega), Function.update_noteq (by omega),
      getBasicTelemetry_sensors_spec _ 44 0 _ (by omega) (by omega), if_pos (by omega)]
  · rw [if_neg h1]
    by_cases h2 : p = 616
    · subst h2
      simp [Function.update, Nat.shiftRight_eq_div_pow]
    · rw [if_neg h2]
      by_cases h3 : p = 617
      · subst h3
        simp [Function.update]
      · rw [if_neg h3]
        by_cases h4 : p = 618
        · subst h4
          simp [Function.update]
        · rw [if_neg h4]
          by_cases h5 : p < 649
          · rw [if_pos (by omega), if_pos h5]
          · rw [if_neg (by omega), if_neg h5, Function.update_noteq (by omega),
              Function.update_noteq (by omega), Function.update_noteq (by omega),
              getBasicTelemetry_sensors_spec _ 44 0 _ (by omega) (by omega),
              if_neg (by omega)]

theorem sensorImage_lt (t : csSingleBasicTelemetry) (k : Nat) : sensorImage t k < 256 := by
  unfold sensorImage
  split <;> exact Nat.mod_lt _ (by decide)

theorem anomalyImage_lt (b : csBasicTelemetryX) (i k : Nat) : anomalyImage b i k < 256 := by
  unfold anomalyImage
  split <;> exact Nat.mod_lt _ (by decide)

/-- C23: `getBasicTelemetry` returns 649, leaves the bytes from 649 on untouched and
writes bytes 0..648, each below 256; for a store whose fields fit their C widths, the
bytes `14i .. 14i+13` of sensor `i < 44` decode (most significant byte first) to
`hiVal(2) | hiTime(4) | lowVal(2) | lowTime(4) | avg(2)`, bytes 616..617 to
`battDeltaTemp` (its 16-bit pattern), byte 618 is the number of `mainState`, and the
bytes `619+6k .. 619+6k+5` of anomaly slot `k < 5` decode to
`anomalyModeBasicInfo[k](2) | anomalyModeTime[k](4)`. -/
theorem getBasicTelemetry_layout (g : GlobalX) (telem : Nat → Nat)
    (hsensor : ∀ i, i < 44 →
      (g.csBasicTelemetry.csSingleTelemetry i).hiVal < 65536 ∧
      (g.csBasicTelemetry.csSingleTelemetry i).hiTime < 4294967296 ∧
      (g.csBasicTelemetry.csSingleTelemetry i).lowVal < 65536 ∧
      (g.csBasicTelemetry.csSingleTelemetry i).lowTime < 4294967296 ∧
      (g.csBasicTelemetry.csSingleTelemetry i).avg < 65536)
    (hdelta : g.csBasicTelemetry.battDeltaTemp < 65536)
    (hanomaly : ∀ k, k < 5 → g.csBasicTelemetry.anomalyModeBasicInfo k < 65536 ∧
      g.csBasicTelemetry.anomalyModeTime k < 4294967296) :
    (getBasicTelemetry g telem).1 = 649 ∧
    (∀ p, 649 ≤ p → (getBasicTelemetry g telem).2 p = telem p) ∧
    (∀ p, p < 649 → (getBasicTelemetry g telem).2 p < 256) ∧
    (∀ telem2 p, p < 649 → (getBasicTelemetry g telem).2 p = (getBasicTelemetry g telem2).2 p) ∧
    (∀ i, i < 44 →
      (getBasicTelemetry g telem).2 (14 * i) * 256 + (getBasicTelemetry g telem).2 (14 * i + 1) =
        (g.csBasicTelemetry.csSingleTelemetry i).hiVal ∧
      (getBasicTelemetry g telem).2 (14 * i + 2) * 16777216 +
          (getBasicTelemetry g telem).2 (14 * i + 3) * 65536 +
          (getBasicTelemetry g telem).2 (14 * i + 4) * 256 +
          (getBasicTelemetry g telem).2 (14 * i + 5) =
        (g.csBasicTelemetry.csSingleTelemetry i).hiTime ∧
      (getBasicTelemetry g telem).2 (14 * i + 6) * 256 +
          (getBasicTelemetry g telem).2 (14 * i + 7) =
        (g.csBasicTelemetry.csSingleTelemetry i).lowVal ∧
      (getBasicTelemetry g telem).2 (14 * i + 8) * 16777216 +
          (getBasicTelemetry g telem).2 (14 * i + 9) * 65536 +
          (getBasicTelemetry g telem).2 (14 * i + 10) * 256 +
          (getBasicTelemetry g telem).2 (14 * i + 11) =
        (g.csBasicTelemetry.csSingleTelemetry i).lowTime ∧
      (getBasicTelemetry g telem).2 (14 * i + 12) * 256 +
          (getBasicTelemetry g telem).2 (14 * i + 13) =
        (g.csBasicTelemetry.csSingleTelemetry i).avg) ∧
    (getBasicTelemetry g telem).2 616 * 256 + (getBasicTelemetry g telem).2 617 =
      g.csBasicTelemetry.battDeltaTemp ∧
    (getBasicTelemetry g telem).2 618 = g.csState.mainState.toNat ∧
    ∀ k, k < 5 →
      (getBasicTelemetry g telem).2 (619 + 6 * k) * 256 +
          (getBasicTelemetry g telem).2 (619 + 6 * k + 1) =
        g.csBasicTelemetry.anomalyModeBasicInfo k ∧
      (getBasicTelemetry g telem).2 (619 + 6 * k + 2) * 16777216 +
          (getBasicTelemetry g telem).2 (619 + 6 * k + 3) * 65536 +
          (getBasicTelemetry g telem).2 (619 + 6 * k + 4) * 256 +
          (getBasicTelemetry g telem).2 (619 + 6 * k + 5) =
        g.csBasicTelemetry.anomalyModeTime k := by
  have hs : ∀ i k, i < 44 → k < 14 → (getBasicTelemetry g telem).2 (14 * i + k) =
      sensorImage (g.csBasicTelemetry.csSingleTelemetry i) k := by
    intro i k hi hk
    rw [getBasicTelemetry_apply, if_pos (by omega)]
    have hd : (14 * i + k) / 14 = i := by omega
    have hm : (14 * i + k) % 14 = k := by omega
    rw [hd, hm]
  have ha : ∀ i k, i < 5 → k < 6 → (getBasicTelemetry g telem).2 (619 + 6 * i + k) =
      anomalyImage g.csBasicTelemetry i k := by
    intro i k hi hk
    rw [getBasicTelemetry_apply, if_neg (by omega), if_neg (by omega), if_neg (by omega),
      if_neg (by omega), if_pos (by omega)]
    have hd : (619 + 6 * i + k - 619) / 6 = i := by omega
    have hm : (619 + 6 * i + k - 619) % 6 = k := by omega
    rw [hd, hm]
  have hstate : g.csState.mainState.toNat < 256 := by
    cases g.csState.mainState <;> decide
  refine ⟨rfl, ?_, ?_, ?_, ?_, ?_, ?_, ?_⟩
  · intro p hp
    rw [getBasicTelemetry_apply, if_neg (by omega), if_neg (by omega), if_neg (by omega),
      if_neg (by omega), if_neg (by omega)]
  · intro p hp
    rw [getBasicTelemetry_apply]
    split_ifs
    · exact sensorImage_lt _ _
    · exact Nat.mod_lt _ (by decide)
    · exact Nat.mod_lt _ (by decide)
    · exact Nat.mod_lt _ (by decide)
    · exact anomalyImage_lt _ _ _
  · intro telem2 p hp
    rw [getBasicTelemetry_apply, getBasicTelemetry_apply g telem2]
    split_ifs <;> rfl
  · intro i hi
    obtain ⟨h1, h2, h3, h4, h5⟩ := hsensor i hi
    have e0 := hs i 0 hi (by decide)
    rw [Nat.add_zero] at e0
    rw [e0, hs i 1 hi (by decide), hs i 2 hi (by decide), hs i 3 hi (by decide),
      hs i 4 hi (by decide), hs i 5 hi (by decide), hs i 6 hi (by decide),
      hs i 7 hi (by decide), hs i 8 hi (by decide), hs i 9 hi (by decide),
      hs i 10 hi (by decide), hs i 11 hi (by decide), hs i 12 hi (by decide),
      hs i 13 hi (by decide)]
    simp only [sensorImage]
    refine ⟨by omega, by omega, by omega, by omega, by omega⟩
  · rw [getBasicTelemetry_apply, getBasicTelemetry_apply]
    simp only [show ¬ (616 < 616) by decide, show ¬ (617 < 616) by decide, if_false, if_true,
      show (617 : Nat) ≠ 616 by decide]
    omega
  · rw [getBasicTelemetry_apply]
    simp only [show ¬ (618 < 616) by decide, if_false, if_true,
      show (618 : Nat) ≠ 616 by decide, show (618 : Nat) ≠ 617 by decide]
    omega
  · intro k hk
    obtain ⟨h1, h2⟩ := hanomaly k hk
    have e0 := ha k 0 hk (by decide)
    rw [Nat.add_zero] at e0
    rw [e0, ha k 1 hk (by decide), ha k 2 hk (by decide), ha k 3 hk (by decide),
      ha k 4 hk (by decide), ha k 5 hk (by decide)]
    simp only [anomalyImage]
    refine ⟨by omega, by omega⟩

/-- A store in the main state `STATUS_MONITORING` whose battery ring holds 2990, 2995,
3000: the blob is 649 bytes long and byte 618 is 5. -/
theorem getBasicTelemetry_layout_witness :
    (getBasicTelemetry { zeroGlobal with csBasicTelemetry := battRingWarm } (fun _ => 0)).1 = 649 ∧
    (getBasicTelemetry { zeroGlobal with csBasicTelemetry := battRingWarm } (fun _ => 0)).2 616
        * 256 +
      (getBasicTelemetry { zeroGlobal with csBasicTelemetry := battRingWarm } (fun _ => 0)).2 617
        = 3000 ∧
    (getBasicTelemetry { zeroGlobal with csBasicTelemetry := battRingWarm } (fun _ => 0)).2 618
      = 5 :=
  ⟨(getBasicTelemetry_layout { zeroGlobal with csBasicTelemetry := battRingWarm } (fun _ => 0)
      (by decide) (by decide) (by decide)).1,
    (getBasicTelemetry_layout { zeroGlobal with csBasicTelemetry := battRingWarm } (fun _ => 0)
      (by decide) (by decide) (by decide)).2.2.2.2.2.1,
    (getBasicTelemetry_layout { zeroGlobal with csBasicTelemetry := battRingWarm } (fun _ => 0)
      (by decide) (by decide) (by decide)).2.2.2.2.2.2.1⟩

theorem digitChar_toNat (d : Nat) (h : d < 10) : (Char.ofNat ('0'.toNat + d)).toNat = 48 + d := by
  interval_cases d <;> rfl

theorem epoch_to_telemetry_filename_apply (epoch : Nat) (filename : Nat → Char) :
    epoch_to_telemetry_filename epoch filename 0 =
      Char.ofNat ('0'.toNat + (epoch / 86400 / 10000000) % 10) ∧
    epoch_to_telemetry_filename epoch filename 1 =
      Char.ofNat ('0'.toNat + (epoch / 86400 / 1000000) % 10) ∧
    epoch_to_telemetry_filename epoch filename 2 =
      Char.ofNat ('0'.toNat + (epoch / 86400 / 100000) % 10) ∧
    epoch_to_telemetry_filename epoch filename 3 =
      Char.ofNat ('0'.toNat + (epoch / 86400 / 10000) % 10) ∧
    epoch_to_telemetry_filename epoch filename 4 =
      Char.ofNat ('0'.toNat + (epoch / 86400 / 1000) % 10) ∧
    epoch_to_telemetry_filename epoch filename 5 =
      Char.ofNat ('0'.toNat + (epoch / 86400 / 100) % 10) ∧
    epoch_to_telemetry_filename epoch filename 6 =
      Char.ofNat ('0'.toNat + (epoch / 86400 / 10) % 10) ∧
    epoch_to_telemetry_filename epoch filename 7 =
      Char.ofNat ('0'.toNat + (epoch / 86400) % 10) ∧
    epoch_to_telemetry_filename epoch filename 8 = '.' ∧
    epoch_to_telemetry_filename epoch filename 9 = 'T' ∧
    epoch_to_telemetry_filename epoch filename 10 = 'E' ∧
    epoch_to_telemetry_filename epoch filename 11 = 'L' ∧
    ∀ k, 12 ≤ k → epoch_to_telemetry_filename epoch filename k = filename k := by
  refine ⟨?_, ?_, ?_, ?_, ?_, ?_, ?_, ?_, ?_, ?_, ?_, ?_, ?_⟩ <;>
    first
    | (simp [epoch_to_telemetry_filename, Function.update]; done)
    | (intro k hk
       unfold epoch_to_telemetry_filename
       simp only [Function.update_apply]
       iterate 12 rw [if_neg (by omega)])

theorem filenameDays_epoch (epoch : Nat) (filename : Nat → Char) (h : epoch < 4294967296) :
    filenameDays (epoch_to_telemetry_filename epoch filename) = epoch / 86400 := by
  obtain ⟨h0, h1, h2, h3, h4, h5, h6, h7, _⟩ := epoch_to_telemetry_filename_apply epoch filename
  unfold filenameDays
  rw [h0, h1, h2, h3, h4, h5, h6, h7, digitChar_toNat _ (Nat.mod_lt _ (by decide)),
    digitChar_toNat _ (Nat.mod_lt _ (by decide)), digitChar_toNat _ (Nat.mod_lt _ (by decide)),
    digitChar_toNat _ (Nat.mod_lt _ (by decide)), digitChar_toNat _ (Nat.mod_lt _ (by decide)),
    digitChar_toNat _ (Nat.mod_lt _ (by decide)), digitChar_toNat _ (Nat.mod_lt _ (by decide)),
    digitChar_toNat _ (Nat.mod_lt _ (by decide))]
  omega

theorem filenameChars_epoch (epoch : Nat) (filename : Nat → Char) :
    filenameChars (epoch_to_telemetry_filename epoch filename) =
      [Char.ofNat ('0'.toNat + (epoch / 86400 / 10000000) % 10),
       Char.ofNat ('0'.toNat + (epoch / 86400 / 1000000) % 10),
       Char.ofNat ('0'.toNat + (epoch / 86400 / 100000) % 10),
       Char.ofNat ('0'.toNat + (epoch / 86400 / 10000) % 10),
       Char.ofNat ('0'.toNat + (epoch / 86400 / 1000) % 10),
       Char.ofNat ('0'.toNat + (epoch / 86400 / 100) % 10),
       Char.ofNat ('0'.toNat + (epoch / 86400 / 10) % 10),
       Char.ofNat ('0'.toNat + (epoch / 86400) % 10), '.', 'T', 'E', 'L'] := by
  obtain ⟨h0, h1, h2, h3, h4, h5, h6, h7, h8, h9, h10, h11, _⟩ :=
    epoch_to_telemetry_filename_apply epoch filename
  show [_, _, _, _, _, _, _, _, _, _, _, _] = _
  rw [h0, h1, h2, h3, h4, h5, h6, h7, h8, h9, h10, h11]

theorem filenameDays_congr (f g : Nat → Char) (h : filenameChars f = filenameChars g) :
    filenameDays f = filenameDays g := by
  have h12 : [f 0, f 1, f 2, f 3, f 4, f 5, f 6, f 7, f 8, f 9, f 10, f 11] =
      [g 0, g 1, g 2, g 3, g 4, g 5, g 6, g 7, g 8, g 9, g 10, g 11] := h
  simp only [List.cons.injEq] at h12
  obtain ⟨h0, h1, h2, h3, h4, h5, h6, h7, _⟩ := h12
  unfold filenameDays
  rw [h0, h1, h2, h3, h4, h5, h6, h7]

/-- C24: for a 32-bit epoch, `epoch_to_telemetry_filename` writes the 12 characters made
of the eight decimal digits of `epoch / 86400` (zero-padded, most significant first) and
`.TEL`, and leaves the rest of the buffer alone; the eight digits read back as
`epoch / 86400`; two 32-bit epochs give the same 12 characters exactly when they fall on
the same day. -/
theorem epoch_to_telemetry_filename_contract (epoch : Nat) (filename : Nat → Char)
    (h32 : epoch < 4294967296) :
    filenameChars (epoch_to_telemetry_filename epoch filename) =
      [Char.ofNat (48 + (epoch / 86400 / 10000000) % 10),
       Char.ofNat (48 + (epoch / 86400 / 1000000) % 10),
       Char.ofNat (48 + (epoch / 86400 / 100000) % 10),
       Char.ofNat (48 + (epoch / 86400 / 10000) % 10),
       Char.ofNat (48 + (epoch / 86400 / 1000) % 10),
       Char.ofNat (48 + (epoch / 86400 / 100) % 10),
       Char.ofNat (48 + (epoch / 86400 / 10) % 10),
       Char.ofNat (48 + (epoch / 86400) % 10), '.', 'T', 'E', 'L'] ∧
    (∀ k, 12 ≤ k → epoch_to_telemetry_filename epoch filename k = filename k) ∧
    epoch / 86400 < 100000000 ∧
    filenameDays (epoch_to_telemetry_filename epoch filename) = epoch / 86400 ∧
    ∀ (epoch2 : Nat) (filename2 : Nat → Char), epoch2 < 4294967296 →
      (filenameChars (epoch_to_telemetry_filename epoch filename) =
          filenameChars (epoch_to_telemetry_filename epoch2 filename2) ↔
        epoch / 86400 = epoch2 / 86400) := by
  refine ⟨filenameChars_epoch epoch filename,
    (epoch_to_telemetry_filename_apply epoch filename).2.2.2.2.2.2.2.2.2.2.2.2, by omega,
    filenameDays_epoch epoch filename h32, ?_⟩
  intro epoch2 filename2 h2
  constructor
  · intro heq
    have := filenameDays_congr _ _ heq
    rwa [filenameDays_epoch epoch filename h32, filenameDays_epoch epoch2 filename2 h2] at this
  · intro heq
    rw [filenameChars_epoch, filenameChars_epoch, heq]

/-- The epoch 86400 (the first second of day 1) gives `00000001.TEL`. -/
theorem epoch_to_telemetry_filename_contract_witness :
    filenameDays (epoch_to_telemetry_filename 86400 (fun _ => 'x')) = 86400 / 86400 :=
  (epoch_to_telemetry_filename_contract 86400 (fun _ => 'x') (by decide)).2.2.2.1

theorem startFlushToSD_loop_nonzero :
    ∀ (l : List telemetry_block_t) (testFile : Option (List Char)) (filename : Nat → Char)
      (sd : SDcard), (∀ b, b ∈ l → b.epoch ≠ 0) →
      ∀ name, (startFlushToSD.loop 0 l testFile filename sd).2.2.files name =
        sd.files name ++ l.filter (fun b =>
          decide (filenameChars (epoch_to_telemetry_filename b.epoch (fun _ => '0')) = name)) := by
  intro l
  induction l with
  | nil =>
    intro testFile filename sd _ name
    simp [startFlushToSD.loop]
  | cons b rest ih =>
    intro testFile filename sd hne name
    have hb : b.epoch ≠ 0 := hne b (List.mem_cons_self _ _)
    unfold startFlushToSD.loop
    simp only [if_pos hb, FSfopen]
    rw [ih _ _ _ (fun c hc => hne c (List.mem_cons_of_mem _ hc)) name]
    have hname : filenameChars (epoch_to_telemetry_filename b.epoch filename) =
        filenameChars (epoch_to_telemetry_filename b.epoch (fun _ => '0')) := by
      rw [filenameChars_epoch, filenameChars_epoch]
    rw [hname]
    by_cases hn : filenameChars (epoch_to_telemetry_filename b.epoch (fun _ => '0')) = name
    · subst hn
      simp [FSfwrite, List.filter_cons]
    · simp [FSfwrite, List.filter_cons, hn, Function.update_noteq (Ne.symm hn)]

/-- Flush of a buffer whose blocks all have a non-zero epoch: every file receives, in
FIFO order, exactly the blocks of its own day, and the buffer is left empty. -/
theorem startFlushToSD_nonzero (buf : LinearBuf) (sd : SDcard)
    (hne : ∀ b, b ∈ buf.items → b.epoch ≠ 0) :
    (startFlushToSD buf sd).1.items = [] ∧
    ∀ name, (startFlushToSD buf sd).2.files name =
      sd.files name ++ buf.items.filter (fun b =>
        decide (filenameChars (epoch_to_telemetry_filename b.epoch (fun _ => '0')) = name)) :=
  ⟨rfl, startFlushToSD_loop_nonzero buf.items none _ sd hne⟩

/-- Scenario S4: the eight blocks go to `00000000.TEL` (2 blocks), `00000001.TEL`
(4 blocks) and `00000002.TEL` (2 blocks), and the buffer is empty afterwards. -/
theorem startFlushToSD_rollover :
    (startFlushToSD { items := [blockAt 86399, blockAt 86399, blockAt 86400, blockAt 86400,
        blockAt 86400, blockAt 172799, blockAt 172800, blockAt 172800] }
        SDcard.empty).1.items.length = 0 ∧
    SDcard.epochs (startFlushToSD { items := [blockAt 86399, blockAt 86399, blockAt 86400,
        blockAt 86400, blockAt 86400, blockAt 172799, blockAt 172800, blockAt 172800] }
        SDcard.empty).2 "00000000.TEL" = [86399, 86399] ∧
    SDcard.epochs (startFlushToSD { items := [blockAt 86399, blockAt 86399, blockAt 86400,
        blockAt 86400, blockAt 86400, blockAt 172799, blockAt 172800, blockAt 172800] }
        SDcard.empty).2 "00000001.TEL" = [86400, 86400, 86400, 172799] ∧
    SDcard.epochs (startFlushToSD { items := [blockAt 86399, blockAt 86399, blockAt 86400,
        blockAt 86400, blockAt 86400, blockAt 172799, blockAt 172800, blockAt 172800] }
        SDcard.empty).2 "00000002.TEL" = [172800, 172800] := by
  have hne : ∀ b, b ∈ [blockAt 86399, blockAt 86399, blockAt 86400, blockAt 86400,
      blockAt 86400, blockAt 172799, blockAt 172800, blockAt 172800] → b.epoch ≠ 0 := by
    intro b hb
    simp only [List.mem_cons, List.mem_singleton, List.not_mem_nil, or_false] at hb
    rcases hb with h | h | h | h | h | h | h | h <;> subst h <;> decide
  obtain ⟨h1, h2⟩ := startFlushToSD_nonzero { items := [blockAt 86399, blockAt 86399,
    blockAt 86400, blockAt 86400, blockAt 86400, blockAt 172799, blockAt 172800,
    blockAt 172800] } SDcard.empty hne
  refine ⟨by rw [h1]; rfl, ?_, ?_, ?_⟩
  · unfold SDcard.epochs
    rw [h2]
    decide
  · unfold SDcard.epochs
    rw [h2]
    decide
  · unfold SDcard.epochs
    rw [h2]
    decide

/-- C25 (failing input): a block with epoch 0 is not written to the file of its day. A
buffer holding only such a block is emptied with no file written (the block is lost);
after a block of day 1, the block with epoch 0 is appended to `00000001.TEL`. The
local `epoch` stays 0, so `block.epoch != epoch` opens no file for this block. -/
theorem startFlushToSD_epoch_zero :
    (startFlushToSD { items := [blockAt 0] } SDcard.empty).1.items.length = 0 ∧
    SDcard.epochs (startFlushToSD { items := [blockAt 0] } SDcard.empty).2 "00000000.TEL"
      = [] ∧
    SDcard.epochs (startFlushToSD { items := [blockAt 86400, blockAt 0] } SDcard.empty).2
      "00000001.TEL" = [86400, 0] ∧
    SDcard.epochs (startFlushToSD { items := [blockAt 86400, blockAt 0] } SDcard.empty).2
      "00000000.TEL" = [] := by
  decide

theorem pendingProcess_eq_revert (now status0 : Nat) (w : World) :
    pendingProcess now status0 w =
      (if w.g.csSequence.cmd_queue.count > 0 ∧ w.g.csSequence.seq_ready_flag ≠ 0 then
        pendingProcess.body now status0 w
      else some w).map pendingProcess.revert := rfl

theorem execute_frame (time : Nat) (w v : World) (h : pendingProcess.execute time w = some v) :
    ∃ cmd rest, w.g.csSequence.cmd_queue.items = cmd :: rest ∧
      v.calls = w.calls ++ [hw_call.decodeAndRunPending cmd] ∧
      v.g.csState = w.g.csState ∧
      v.g.csSequence.cmd_queue.items = rest ∧
      v.g.csSequence.lastCmdTime =
        (match rest with
          | [] => w.g.csSequence.lastCmdTime
          | next :: _ =>
            if next.wait.left.sensor_id = 254 ∨
                (next.wait.op ≠ cond_op_t.JUST ∧ next.wait.right.sensor_id = 254) then time
            else w.g.csSequence.lastCmdTime) := by
  cases hitems : w.g.csSequence.cmd_queue.items with
  | nil =>
    simp [pendingProcess.execute, PendCmdQueue_Peek, hitems] at h
  | cons cmd rest =>
    refine ⟨cmd, rest, rfl, ?_⟩
    have hpeek : PendCmdQueue_Peek w.g.csSequence.cmd_queue = some cmd := by
      simp [PendCmdQueue_Peek, hitems]
    unfold pendingProcess.execute at h
    rw [hpeek, Option.map_some', Option.some.injEq] at h
    subst h
    refine ⟨?_, ?_, ?_, ?_⟩
    · exact (decodeAndRunPending_frame cmd _).1
    · dsimp only
      split_ifs <;> (try split) <;> (try split_ifs) <;>
        simp [(decodeAndRunPending_frame cmd _).2.2.2.1]
    · dsimp only
      split_ifs <;> (try split) <;> (try split_ifs) <;>
        simp [(decodeAndRunPending_frame cmd _).2.1, PendCmdQueue_Dequeue, hitems]
    · cases rest with
      | nil =>
        simp [PendCmdQueue_Count, PendCmdQueue.count, PendCmdQueue_Dequeue, hitems,
          (decodeAndRunPending_frame cmd _).2.1]
      | cons next rest2 =>
        simp only [PendCmdQueue_Count, PendCmdQueue.count, PendCmdQueue_Peek,
          PendCmdQueue_Dequeue, hitems, (decodeAndRunPending_frame cmd _).2.1,
          List.tail_cons, List.length_cons, gt_iff_lt, Nat.zero_lt_succ, if_true,
          List.head?_cons]
        split_ifs <;> simp [(decodeAndRunPending_frame cmd _).2.1]

theorem abortSequence_frame (status time : Nat) (g g2 : GlobalX)
    (h : abortSequence status time g = some g2) :
    g2.csState = g.csState ∧ g2.csSequence.lastCmdTime = g.csSequence.lastCmdTime ∧
    g2.csSequence.cmd_queue = PendCmdQueue.cleared ∧ g2.csBeacon = g.csBeacon := by
  unfold abortSequence at h
  cases hr : respPollAbort status time g.csResponsePoll with
  | none =>
    simp [hr] at h
  | some r =>
    simp only [hr, Option.map_some', Option.some.injEq] at h
    subst h
    exact ⟨rfl, rfl, rfl, rfl⟩

theorem pendingProcess_cases (now status0 : Nat) (w w1 : World)
    (h : pendingProcess now status0 w = some w1) :
    (¬ (w.g.csSequence.cmd_queue.count > 0 ∧ w.g.csSequence.seq_ready_flag ≠ 0) ∧
      w1 = pendingProcess.revert w) ∨
    ((w.g.csSequence.cmd_queue.count > 0 ∧ w.g.csSequence.seq_ready_flag ≠ 0) ∧
      ((∃ g2, w1 = pendingProcess.revert
            { g := beaconMsgUpdateSingle SOFTWARE_STATE 'D' g2
              calls := w.calls ++ [hw_call.resetPayload] } ∧
          g2.csState = w.g.csState ∧
          g2.csSequence.lastCmdTime = w.g.csSequence.lastCmdTime ∧
          g2.csSequence.cmd_queue = PendCmdQueue.cleared) ∨
        w1 = pendingProcess.revert { w with g := pendingProcess.normalize now w.g } ∨
        ∃ v, pendingProcess.execute now { w with g := pendingProcess.normalize now w.g } = some v ∧
          w1 = pendingProcess.revert v)) := by
  rw [pendingProcess_eq_revert] at h
  by_cases hg : w.g.csSequence.cmd_queue.count > 0 ∧ w.g.csSequence.seq_ready_flag ≠ 0
  · rw [if_pos hg] at h
    right
    refine ⟨hg, ?_⟩
    cases hb : pendingProcess.body now status0 w with
    | none =>
      rw [hb] at h
      simp at h
    | some v =>
      rw [hb, Option.map_some', Option.some.injEq] at h
      subst h
      unfold pendingProcess.body at hb
      dsimp only at hb
      cases hp : PendCmdQueue_Peek (pendingProcess.normalize now w.g).csSequence.cmd_queue with
      | none =>
        rw [hp] at hb
        simp at hb
      | some cmd =>
        rw [hp, Option.some_bind] at hb
        cases he : pendingProcess.evalSwitch now (pendingProcess.normalize now w.g)
            (pendingProcess.normalize now w.g).csSequence.exit status0 with
        | none =>
          rw [he] at hb
          simp at hb
        | some rs =>
          obtain ⟨result, status⟩ := rs
          rw [he, Option.some_bind] at hb
          dsimp only at hb
          cases result with
          | true =>
            rw [if_pos rfl] at hb
            cases ha : abortSequence status now (pendingProcess.normalize now w.g) with
            | none =>
              rw [ha] at hb
              simp at hb
            | some g2 =>
              rw [ha, Option.map_some', Option.some.injEq] at hb
              left
              obtain ⟨h1, h2, h3, _⟩ := abortSequence_frame _ _ _ _ ha
              refine ⟨g2, by rw [← hb], ?_, ?_, h3⟩
              · rw [h1, (normalize_frame now w.g).2.2.2.2.2.1]
              · rw [h2, (normalize_frame now w.g).2.2.1]
          | false =>
            rw [if_neg (by simp)] at hb
            cases hw : pendingProcess.evalSwitch now (pendingProcess.normalize now w.g)
                cmd.wait status with
            | none =>
              rw [hw] at hb
              simp at hb
            | some rs1 =>
              obtain ⟨b, status1⟩ := rs1
              rw [hw, Option.some_bind] at hb
              dsimp only at hb
              cases b with
              | true =>
                rw [if_pos rfl] at hb
                right
                right
                exact ⟨v, hb, rfl⟩
              | false =>
                rw [if_neg (by simp), Option.some.injEq] at hb
                right
                left
                rw [← hb]
  · rw [if_neg hg, Option.map_some', Option.some.injEq] at h
    left
    exact ⟨hg, h.symm⟩

theorem revert_frame (w : World) :
    (pendingProcess.revert w).calls = w.calls ∧
    (pendingProcess.revert w).g.csSequence = w.g.csSequence ∧
    (pendingProcess.revert w).g.csResponsePoll = w.g.csResponsePoll ∧
    (pendingProcess.revert w).g.csBeacon = w.g.csBeacon ∧
    (w.g.csState.statMonState = StatMonState.PENDING_PROCESS →
      (pendingProcess.revert w).g.csState.statMonState = w.g.csState.statMonPrevState ∧
      (pendingProcess.revert w).g.csState.statMonPrevState = StatMonState.PENDING_PROCESS) := by
  unfold pendingProcess.revert
  split_ifs with hs
  · exact ⟨rfl, rfl, rfl, rfl, fun _ => ⟨rfl, hs⟩⟩
  · exact ⟨rfl, rfl, rfl, rfl, fun h => absurd h hs⟩

theorem beaconMsgUpdateSingle_frame (index : Nat) (c : Char) (g : GlobalX) :
    (beaconMsgUpdateSingle index c g).csState = g.csState ∧
    (beaconMsgUpdateSingle index c g).csSequence = g.csSequence ∧
    (beaconMsgUpdateSingle index c g).csResponsePoll = g.csResponsePoll := by
  unfold beaconMsgUpdateSingle
  split_ifs <;> exact ⟨rfl, rfl, rfl⟩

theorem pendingProcess_calls (now status0 : Nat) (w w1 : World)
    (h : pendingProcess now status0 w = some w1) :
    w1.calls = w.calls ∨ w1.calls = w.calls ++ [hw_call.resetPayload] ∨
      ∃ cmd, w1.calls = w.calls ++ [hw_call.decodeAndRunPending cmd] := by
  rcases pendingProcess_cases now status0 w w1 h with ⟨_, h1⟩ | ⟨_, ⟨g2, h1, _⟩ | h1 | ⟨v, hv, h1⟩⟩
  · left
    rw [h1, (revert_frame _).1]
  · right
    left
    rw [h1, (revert_frame _).1]
  · left
    rw [h1, (revert_frame _).1]
  · right
    right
    obtain ⟨cmd, rest, _, hc, _⟩ := execute_frame now _ v hv
    exact ⟨cmd, by rw [h1, (revert_frame _).1, hc]⟩

theorem beaconMsgUpdateTelemetry_count_csState (position source : Nat) (g : GlobalX) :
    (beaconMsgUpdateTelemetry.count position source g).csState = g.csState := rfl

theorem beaconMsgUpdateTelemetry_temp_csState (position source : Nat) (g : GlobalX) :
    (beaconMsgUpdateTelemetry.temp position source g).csState = g.csState := rfl

theorem beaconMsgUpdateTelemetry_csState (g : GlobalX) :
    (beaconMsgUpdateTelemetry g).csState = g.csState := by
  unfold beaconMsgUpdateTelemetry
  simp only [beaconMsgUpdateTelemetry_count_csState, beaconMsgUpdateTelemetry_temp_csState]

/-- C26: one pass of `statusMonitoringStateMachine` with `timerMode = OFF`: in
`ALL_QUIET` the calls are `powerSavingOff`, `beaconPowerOff` and one
`setTimeout(140000, statMonStateBeaconOn)`; in `BEACON_ON` the calls end with one
`setTimeout(40000, statMonStateDiagnosticCheck)`, the only timeout; each callback sets
its sub-state, saves the old one in `statMonPrevState` and clears `timerMode`; with
`timerMode != OFF` both states leave the store as it is (only `powerSavingOff` is
called); a pass in `DIAGNOSTIC_CHECK` goes to `ALL_QUIET` with `timerMode = OFF`, which
closes the cycle `DIAGNOSTIC_CHECK -> ALL_QUIET -> BEACON_ON -> DIAGNOSTIC_CHECK`. -/
theorem statusMonitoringStateMachine_timers (BEACON_OUT : Bool) (env : pass_env)
    (status0 : Nat) (w : World) :
    (w.g.csState.statMonState = StatMonState.ALL_QUIET → w.g.csState.timerMode = TimerMode.OFF →
      statusMonitoringStateMachine BEACON_OUT env status0 w = some
        { g := { w.g with csState := { w.g.csState with timerMode := TimerMode.STATUS_MONITOR } }
          calls := w.calls ++ [hw_call.powerSavingOff, hw_call.beaconPowerOff,
            hw_call.setTimeout 140000 CallbackFunction.statMonStateBeaconOn
              TimerMode.STATUS_MONITOR] }) ∧
    (w.g.csState.statMonState = StatMonState.BEACON_ON → w.g.csState.timerMode = TimerMode.OFF →
      ∃ w1, statusMonitoringStateMachine BEACON_OUT env status0 w = some w1 ∧
        w1.g.csState = { w.g.csState with timerMode := TimerMode.STATUS_MONITOR } ∧
        w1.calls = w.calls ++ [hw_call.powerSavingOff] ++
          (if w.g.csBeacon.beacon_enabled then
            [hw_call.beaconPowerOn] ++ (if BEACON_OUT then [hw_call.beaconSend] else [])
          else []) ++
          [hw_call.setTimeout 40000 CallbackFunction.statMonStateDiagnosticCheck
            TimerMode.STATUS_MONITOR]) ∧
    (∀ g : GlobalX,
      ((CallbackFunction.statMonStateBeaconOn).run g).csState.statMonState =
        StatMonState.BEACON_ON ∧
      ((CallbackFunction.statMonStateBeaconOn).run g).csState.statMonPrevState =
        g.csState.statMonState ∧
      ((CallbackFunction.statMonStateBeaconOn).run g).csState.timerMode = TimerMode.OFF ∧
      ((CallbackFunction.statMonStateDiagnosticCheck).run g).csState.statMonState =
        StatMonState.DIAGNOSTIC_CHECK ∧
      ((CallbackFunction.statMonStateDiagnosticCheck).run g).csState.statMonPrevState =
        g.csState.statMonState ∧
      ((CallbackFunction.statMonStateDiagnosticCheck).run g).csState.timerMode =
        TimerMode.OFF) ∧
    ((w.g.csState.statMonState = StatMonState.ALL_QUIET ∨
        w.g.csState.statMonState = StatMonState.BEACON_ON) →
      w.g.csState.timerMode ≠ TimerMode.OFF →
      statusMonitoringStateMachine BEACON_OUT env status0 w = some
        { w with calls := w.calls ++ [hw_call.powerSavingOff] }) ∧
    (w.g.csState.statMonState = StatMonState.DIAGNOSTIC_CHECK →
      ∃ w1, statusMonitoringStateMachine BEACON_OUT env status0 w = some w1 ∧
        w1.g.csState.statMonState = StatMonState.ALL_QUIET ∧
        w1.g.csState.timerMode = TimerMode.OFF) := by
  refine ⟨?_, ?_, fun g => ⟨rfl, rfl, rfl, rfl, rfl, rfl⟩, ?_, ?_⟩
  · intro hs ht
    simp [statusMonitoringStateMachine, hs, ht, setTimeout, ALL_QUIET_TIME]
  · intro hs ht
    obtain ⟨g, calls⟩ := w
    obtain ⟨bt, lt, sq, rp, st, lk, bc⟩ := g
    obtain ⟨ms, ps, sms, smp, tm, dd⟩ := st
    obtain ⟨en, msg⟩ := bc
    simp only at hs ht
    subst hs ht
    refine ⟨_, rfl, ?_, ?_⟩
    · cases en <;> cases BEACON_OUT <;>
        simp [setTimeout, beaconMsgUpdateTelemetry_csState]
    · cases en <;> cases BEACON_OUT <;> simp [setTimeout, BEACON_ON_TIME]
  · intro hs ht
    rcases hs with hs | hs <;> simp [statusMonitoringStateMachine, hs, ht]
  · intro hs
    refine ⟨_, by simp [statusMonitoringStateMachine, hs]; rfl, rfl, rfl⟩

/-- The cycle on a concrete store: the pass in `ALL_QUIET` arms the 140000-tick timeout,
and its callback leads to `BEACON_ON`. -/
theorem statusMonitoringStateMachine_timers_witness :
    statusMonitoringStateMachine false { now := 1000, day := 3, diagnostic := true } 0
        (worldIn StatMonState.ALL_QUIET TimerMode.OFF (link_mode_t.OTHER 0)) = some
      { g := { (worldIn StatMonState.ALL_QUIET TimerMode.OFF (link_mode_t.OTHER 0)).g with
          csState := { (worldIn StatMonState.ALL_QUIET TimerMode.OFF
            (link_mode_t.OTHER 0)).g.csState with timerMode := TimerMode.STATUS_MONITOR } }
        calls := [] ++ [hw_call.powerSavingOff, hw_call.beaconPowerOff,
          hw_call.setTimeout 140000 CallbackFunction.statMonStateBeaconOn
            TimerMode.STATUS_MONITOR] } :=
  (statusMonitoringStateMachine_timers false { now := 1000, day := 3, diagnostic := true } 0
    (worldIn StatMonState.ALL_QUIET TimerMode.OFF (link_mode_t.OTHER 0))).1 rfl rfl

/-- C27 (as amended): one pass of `statusMonitoringStateMachine` in `DIAGNOSTIC_CHECK`
runs no diagnostic, whatever the day and whatever the diagnostic would report: the only
call is `powerSavingOff`, the sub-state advances to `ALL_QUIET` (previous sub-state
`DIAGNOSTIC_CHECK`, timer mode cleared), and `mainState`, `previousState` and `diagDay`
stay as they were. -/
theorem statusMonitoringStateMachine_diagnostic (BEACON_OUT : Bool) (env : pass_env)
    (status0 : Nat) (w : World)
    (hstate : w.g.csState.statMonState = StatMonState.DIAGNOSTIC_CHECK) :
    ∃ w1, statusMonitoringStateMachine BEACON_OUT env status0 w = some w1 ∧
      w1.calls = w.calls ++ [hw_call.powerSavingOff] ∧
      w1.g.csState.statMonState = StatMonState.ALL_QUIET ∧
      w1.g.csState.statMonPrevState = StatMonState.DIAGNOSTIC_CHECK ∧
      w1.g.csState.timerMode = TimerMode.OFF ∧
      w1.g.csState.mainState = w.g.csState.mainState ∧
      w1.g.csState.previousState = w.g.csState.previousState ∧
      w1.g.csState.diagDay = w.g.csState.diagDay := by
  refine ⟨{ g := statMonStateAllQuiet w.g, calls := w.calls ++ [hw_call.powerSavingOff] },
    by simp [statusMonitoringStateMachine, hstate], rfl, rfl, hstate, rfl, rfl, rfl, rfl⟩

/-- On day 4, with `diagDay = 3`, the pass advances to `ALL_QUIET`. -/
theorem statusMonitoringStateMachine_diagnostic_witness :
    ∃ w1, statusMonitoringStateMachine false { now := 345600, day := 4, diagnostic := true } 0
        (worldIn StatMonState.DIAGNOSTIC_CHECK TimerMode.OFF (link_mode_t.OTHER 0)) = some w1 ∧
      w1.g.csState.statMonState = StatMonState.ALL_QUIET :=
  (statusMonitoringStateMachine_diagnostic false { now := 345600, day := 4, diagnostic := true }
    0 (worldIn StatMonState.DIAGNOSTIC_CHECK TimerMode.OFF (link_mode_t.OTHER 0)) rfl).imp
    fun _ h => ⟨h.1, h.2.2.1⟩

/-- C27 (counterexample): on day 4 with `diagDay = 3` and a diagnostic that would fail,
the pass in `DIAGNOSTIC_CHECK` does not set `mainState` to `ANOMALY` and does advance the
sub-state to `ALL_QUIET`. -/
theorem statusMonitoringStateMachine_diagnostic_counterexample :
    ∃ w1, statusMonitoringStateMachine false { now := 345600, day := 4, diagnostic := false } 0
        (worldIn StatMonState.DIAGNOSTIC_CHECK TimerMode.OFF (link_mode_t.OTHER 0)) = some w1 ∧
      (4 : Nat) ≠ (worldIn StatMonState.DIAGNOSTIC_CHECK TimerMode.OFF
        (link_mode_t.OTHER 0)).g.csState.diagDay ∧
      w1.calls = [hw_call.powerSavingOff] ∧
      w1.g.csState.mainState ≠ MainState.ANOMALY ∧
      w1.g.csState.statMonState = StatMonState.ALL_QUIET :=
  ⟨_, rfl, by decide, rfl, by decide, rfl⟩

/-- C28 (as amended): the calls `beaconPowerOn` and `beaconSend` of a pass of
`statusMonitoringStateMachine` are made only if `statMonState = BEACON_ON`, no timer is
armed (`timerMode = OFF`) and the beacon is enabled; the radio link mode is not among
the conditions. -/
theorem statusMonitoringStateMachine_beacon (BEACON_OUT : Bool) (env : pass_env)
    (status0 : Nat) (w w1 : World)
    (h : statusMonitoringStateMachine BEACON_OUT env status0 w = some w1) :
    ∃ extra, w1.calls = w.calls ++ extra ∧
      ((hw_call.beaconPowerOn ∈ extra ∨ hw_call.beaconSend ∈ extra) →
        w.g.csState.statMonState = StatMonState.BEACON_ON ∧
        w.g.csState.timerMode = TimerMode.OFF ∧
        w.g.csBeacon.beacon_enabled = true) := by
  unfold statusMonitoringStateMachine at h
  cases hs : w.g.csState.statMonState with
  | DIAGNOSTIC_CHECK =>
    simp [hs] at h
    subst h
    exact ⟨[hw_call.powerSavingOff], rfl, by simp⟩
  | ALL_QUIET =>
    by_cases ht : w.g.csState.timerMode = TimerMode.OFF
    · simp [hs, ht, setTimeout] at h
      subst h
      exact ⟨[hw_call.powerSavingOff, hw_call.beaconPowerOff,
        hw_call.setTimeout ALL_QUIET_TIME CallbackFunction.statMonStateBeaconOn
          TimerMode.STATUS_MONITOR], by simp, by simp⟩
    · simp [hs, ht] at h
      subst h
      exact ⟨[hw_call.powerSavingOff], rfl, by simp⟩
  | PENDING_PROCESS =>
    simp only [hs] at h
    rcases pendingProcess_calls _ _ _ _ h with hc | hc | ⟨cmd, hc⟩
    · exact ⟨[hw_call.powerSavingOff], hc, by simp⟩
    · exact ⟨[hw_call.powerSavingOff, hw_call.resetPayload], by simp [hc], by simp⟩
    · exact ⟨[hw_call.powerSavingOff, hw_call.decodeAndRunPending cmd], by simp [hc], by simp⟩
  | BEACON_ON =>
    by_cases ht : w.g.csState.timerMode = TimerMode.OFF
    · cases hen : w.g.csBeacon.beacon_enabled with
      | false =>
        simp [hs, ht, hen, setTimeout] at h
        subst h
        exact ⟨[hw_call.powerSavingOff,
          hw_call.setTimeout BEACON_ON_TIME CallbackFunction.statMonStateDiagnosticCheck
            TimerMode.STATUS_MONITOR], by simp, by simp⟩
      | true =>
        cases BEACON_OUT with
        | false =>
          simp [hs, ht, hen, setTimeout] at h
          subst h
          exact ⟨[hw_call.powerSavingOff, hw_call.beaconPowerOn,
            hw_call.setTimeout BEACON_ON_TIME CallbackFunction.statMonStateDiagnosticCheck
              TimerMode.STATUS_MONITOR], by simp, fun _ => ⟨rfl, ht, rfl⟩⟩
        | true =>
          simp [hs, ht, hen, setTimeout] at h
          subst h
          exact ⟨[hw_call.powerSavingOff, hw_call.beaconPowerOn, hw_call.beaconSend,
            hw_call.setTimeout BEACON_ON_TIME CallbackFunction.statMonStateDiagnosticCheck
              TimerMode.STATUS_MONITOR], by simp, fun _ => ⟨rfl, ht, rfl⟩⟩
    · simp [hs, ht] at h
      subst h
      exact ⟨[hw_call.powerSavingOff], rfl, by simp⟩
  | INVALID code =>
    simp [hs] at h
    subst h
    exact ⟨[hw_call.powerSavingOff, hw_call.anomalyChange], by simp, by simp⟩

/-- A pass in `BEACON_ON` with the beacon enabled and no timer armed: the beacon is
powered on. -/
theorem statusMonitoringStateMachine_beacon_witness :
    ∃ extra,
      (setTimeout BEACON_ON_TIME CallbackFunction.statMonStateDiagnosticCheck
        TimerMode.STATUS_MONITOR
        { g := beaconMsgUpdateTelemetry
            (worldIn StatMonState.BEACON_ON TimerMode.OFF (link_mode_t.OTHER 0)).g
          calls := [hw_call.powerSavingOff, hw_call.beaconPowerOn] }).calls =
        (worldIn StatMonState.BEACON_ON TimerMode.OFF (link_mode_t.OTHER 0)).calls ++ extra ∧
      ((hw_call.beaconPowerOn ∈ extra ∨ hw_call.beaconSend ∈ extra) →
        (worldIn StatMonState.BEACON_ON TimerMode.OFF (link_mode_t.OTHER 0)).g.csState.statMonState
          = StatMonState.BEACON_ON ∧
        (worldIn StatMonState.BEACON_ON TimerMode.OFF (link_mode_t.OTHER 0)).g.csState.timerMode
          = TimerMode.OFF ∧
        (worldIn StatMonState.BEACON_ON TimerMode.OFF
          (link_mode_t.OTHER 0)).g.csBeacon.beacon_enabled = true) :=
  statusMonitoringStateMachine_beacon false { now := 1000, day := 3, diagnostic := true } 0
    (worldIn StatMonState.BEACON_ON TimerMode.OFF (link_mode_t.OTHER 0)) _ rfl

/-- C28 (counterexample): in `BEACON_ON` with the beacon enabled, no timer armed and the
radio link mode `ACTIVE`, the pass powers the beacon on and transmits. -/
theorem statusMonitoringStateMachine_beacon_counterexample :
    (worldIn StatMonState.BEACON_ON TimerMode.OFF link_mode_t.LINK_ACTIVE).g.csLink.mode =
      link_mode_t.LINK_ACTIVE ∧
    ∃ w1, statusMonitoringStateMachine true { now := 1000, day := 3, diagnostic := true } 0
        (worldIn StatMonState.BEACON_ON TimerMode.OFF link_mode_t.LINK_ACTIVE) = some w1 ∧
      w1.calls = [hw_call.powerSavingOff, hw_call.beaconPowerOn, hw_call.beaconSend,
        hw_call.setTimeout 40000 CallbackFunction.statMonStateDiagnosticCheck
          TimerMode.STATUS_MONITOR] ∧
      hw_call.beaconPowerOn ∈ w1.calls :=
  ⟨rfl, _, rfl, rfl, by
    show hw_call.beaconPowerOn ∈ [hw_call.powerSavingOff, hw_call.beaconPowerOn,
      hw_call.beaconSend, hw_call.setTimeout 40000 CallbackFunction.statMonStateDiagnosticCheck
        TimerMode.STATUS_MONITOR]
    simp⟩

/-- C29: on a store with `statMonState = PENDING_PROCESS`, `pendingProcess` returns (when
it reads only inside the embedded state) and every result has `statMonState` equal to
the `statMonPrevState` held on entry; when the guard is false (no queued command or
`seq_ready_flag = 0`) the result is the entry state with the sub-state reverted: the
sequence, the response poll, the beacon fields, the telemetry and the log of external
calls are unchanged. -/
theorem pendingProcess_reverts (now status0 : Nat) (w : World)
    (hstate : w.g.csState.statMonState = StatMonState.PENDING_PROCESS) :
    (executable w → ∃ w1, pendingProcess now status0 w = some w1) ∧
    (∀ w1, pendingProcess now status0 w = some w1 →
      w1.g.csState.statMonState = w.g.csState.statMonPrevState) ∧
    (¬ (w.g.csSequence.cmd_queue.count > 0 ∧ w.g.csSequence.seq_ready_flag ≠ 0) →
      ∃ w1, pendingProcess now status0 w = some w1 ∧
        w1.g.csState.statMonState = w.g.csState.statMonPrevState ∧
        w1.g.csSequence = w.g.csSequence ∧
        w1.g.csResponsePoll = w.g.csResponsePoll ∧
        w1.g.csBeacon = w.g.csBeacon ∧
        w1.g.csLastTelemetry = w.g.csLastTelemetry ∧
        w1.g.csBasicTelemetry = w.g.csBasicTelemetry ∧
        w1.calls = w.calls) := by
  refine ⟨pendingProcess_total now status0 w, ?_, ?_⟩
  · intro w1 h
    have hrev : ∀ v : World, v.g.csState = w.g.csState →
        (pendingProcess.revert v).g.csState.statMonState = w.g.csState.statMonPrevState := by
      intro v hv
      rw [((revert_frame v).2.2.2.2 (by rw [hv]; exact hstate)).1, hv]
    rcases pendingProcess_cases now status0 w w1 h with
      ⟨_, h1⟩ | ⟨_, ⟨g2, h1, hst, _⟩ | h1 | ⟨v, hv, h1⟩⟩
    · rw [h1]
      exact hrev w rfl
    · rw [h1]
      exact hrev _ (by rw [(beaconMsgUpdateSingle_frame _ _ _).1, hst])
    · rw [h1]
      exact hrev _ (normalize_frame now w.g).2.2.2.2.2.1
    · rw [h1]
      obtain ⟨cmd, rest, _, _, hst, _⟩ := execute_frame now _ v hv
      exact hrev v (by rw [hst]; exact (normalize_frame now w.g).2.2.2.2.2.1)
  · intro hg
    refine ⟨pendingProcess.revert w, ?_, ?_⟩
    · rw [pendingProcess_eq_revert, if_neg hg, Option.map_some']
    · unfold pendingProcess.revert
      rw [if_pos hstate]
      exact ⟨rfl, rfl, rfl, rfl, rfl, rfl, rfl⟩

/-- The resting store (empty command queue) in `PENDING_PROCESS` goes back to its
previous sub-state `ALL_QUIET`. -/
theorem pendingProcess_reverts_witness :
    zeroGlobal.csState.statMonState = StatMonState.PENDING_PROCESS ∧
    ∃ w1, pendingProcess 1000 0 { g := zeroGlobal, calls := [] } = some w1 ∧
      w1.g.csState.statMonState = StatMonState.ALL_QUIET ∧
      w1.g.csSequence = zeroGlobal.csSequence :=
  ⟨rfl, ((pendingProcess_reverts 1000 0 { g := zeroGlobal, calls := [] } rfl).2.2
    (by decide)).imp fun _ h => ⟨h.1, h.2.1, h.2.2.1⟩⟩

theorem append_singleton_ne (l : List hw_call) (cmd : seq_command_t) :
    l ≠ l ++ [hw_call.decodeAndRunPending cmd] ∧
    l ++ [hw_call.resetPayload] ≠ l ++ [hw_call.decodeAndRunPending cmd] := by
  constructor
  · intro h
    have := congrArg List.length h
    simp at this
  · intro h
    have := List.append_cancel_left h
    simp at this

/-- C30: `pendingProcess` at time `now` returns (when it reads only inside the embedded
state), and in every result `lastCmdTime` is `now` when a command was dispatched in this
call and the head command of the queue left behind waits on the relative time (sensor
id 254 on the left, or on the right with `op != JUST`); in every other case
`lastCmdTime` is the value held on entry. -/
theorem pendingProcess_lastCmdTime (now status0 : Nat) (w : World) :
    (executable w → ∃ w1, pendingProcess now status0 w = some w1) ∧
    ∀ w1, pendingProcess now status0 w = some w1 →
      (((∃ cmd, w1.calls = w.calls ++ [hw_call.decodeAndRunPending cmd]) ∧
          (∃ next, PendCmdQueue_Peek w1.g.csSequence.cmd_queue = some next ∧
            waitsOnRelativeTime next)) →
        w1.g.csSequence.lastCmdTime = now) ∧
      (¬ ((∃ cmd, w1.calls = w.calls ++ [hw_call.decodeAndRunPending cmd]) ∧
          (∃ next, PendCmdQueue_Peek w1.g.csSequence.cmd_queue = some next ∧
            waitsOnRelativeTime next)) →
        w1.g.csSequence.lastCmdTime = w.g.csSequence.lastCmdTime) := by
  refine ⟨pendingProcess_total now status0 w, ?_⟩
  intro w1 h
  rcases pendingProcess_cases now status0 w w1 h with
    ⟨_, h1⟩ | ⟨_, ⟨g2, h1, _, hlt, _⟩ | h1 | ⟨v, hv, h1⟩⟩
  · have hc : w1.calls = w.calls := by rw [h1, (revert_frame _).1]
    have hl : w1.g.csSequence.lastCmdTime = w.g.csSequence.lastCmdTime := by
      rw [h1, (revert_frame _).2.1]
    refine ⟨?_, fun _ => hl⟩
    rintro ⟨⟨cmd, hd⟩, _⟩
    rw [hc] at hd
    exact absurd hd (append_singleton_ne _ _).1
  · have hc : w1.calls = w.calls ++ [hw_call.resetPayload] := by rw [h1, (revert_frame _).1]
    have hl : w1.g.csSequence.lastCmdTime = w.g.csSequence.lastCmdTime := by
      rw [h1, (revert_frame _).2.1, (beaconMsgUpdateSingle_frame _ _ _).2.1, hlt]
    refine ⟨?_, fun _ => hl⟩
    rintro ⟨⟨cmd, hd⟩, _⟩
    rw [hc] at hd
    exact absurd hd (append_singleton_ne _ _).2
  · have hc : w1.calls = w.calls := by rw [h1, (revert_frame _).1]
    have hl : w1.g.csSequence.lastCmdTime = w.g.csSequence.lastCmdTime := by
      rw [h1, (revert_frame _).2.1]
      exact (normalize_frame now w.g).2.2.1
    refine ⟨?_, fun _ => hl⟩
    rintro ⟨⟨cmd, hd⟩, _⟩
    rw [hc] at hd
    exact absurd hd (append_singleton_ne _ _).1
  · obtain ⟨cmd, rest, _, hc, _, hitems, hl⟩ := execute_frame now _ v hv
    have hq : w1.g.csSequence = v.g.csSequence := by rw [h1, (revert_frame _).2.1]
    have hpeek : PendCmdQueue_Peek w1.g.csSequence.cmd_queue = rest.head? := by
      rw [hq]
      unfold PendCmdQueue_Peek
      rw [hitems]
    have hcalls : w1.calls = w.calls ++ [hw_call.decodeAndRunPending cmd] := by
      rw [h1, (revert_frame _).1, hc]
    cases rest with
    | nil =>
      have hlast : w1.g.csSequence.lastCmdTime = w.g.csSequence.lastCmdTime := by
        rw [hq, hl]
        exact (normalize_frame now w.g).2.2.1
      refine ⟨?_, fun _ => hlast⟩
      rintro ⟨_, next, hn, _⟩
      rw [hpeek] at hn
      simp at hn
    | cons next rest2 =>
      have hlast : w1.g.csSequence.lastCmdTime =
          if waitsOnRelativeTime next then now else w.g.csSequence.lastCmdTime := by
        rw [hq, hl]
        show (if waitsOnRelativeTime next then now else _) = _
        split_ifs
        · rfl
        · exact (normalize_frame now w.g).2.2.1
      constructor
      · rintro ⟨_, next1, hn, hrel⟩
        rw [hpeek, List.head?_cons, Option.some.injEq] at hn
        subst hn
        rw [hlast]
        exact if_pos hrel
      · intro hnot
        have hrel : ¬ waitsOnRelativeTime next := by
          intro hrel
          exact hnot ⟨⟨cmd, hcalls⟩, next, by rw [hpeek]; rfl, hrel⟩
        rw [hlast]
        exact if_neg hrel

/-- At time 130 the first command of the two-step sequence is dispatched and the second
one waits on the relative time: `lastCmdTime` becomes 130. -/
theorem pendingProcess_lastCmdTime_witness :
    ∃ w1, pendingProcess 130 0 worldTwoSteps = some w1 ∧
      w1.g.csSequence.lastCmdTime = 130 :=
  ⟨_, rfl, ((pendingProcess_lastCmdTime 130 0 worldTwoSteps).2 _ rfl).1
    ⟨⟨_, rfl⟩, _, rfl, Or.inl rfl⟩⟩

theorem voteByte_testBit (x y z k : Nat) :
    (voteByte x y z).testBit k = majority (x.testBit k) (y.testBit k) (z.testBit k) := by
  unfold voteByte majority
  rw [Nat.testBit_or, Nat.testBit_or, Nat.testBit_and, Nat.testBit_and, Nat.testBit_and]

/-- C31: after `SettleGlobal`, every byte of the state is the same in the three
replicas and each of its bits is the majority of the three replicas' bits before the
call, so a read returns the majority value; after every `globalMod` call the three
replicas are byte-equal, and a write that is carried out stores the source bytes in
its range. -/
theorem SettleGlobal_majority (r : replicas_t) (i : Nat) (hi : i < r.size) :
    (∀ k, ((SettleGlobal r).a i).testBit k =
      majority ((r.a i).testBit k) ((r.b i).testBit k) ((r.c i).testBit k)) ∧
    (SettleGlobal r).b i = (SettleGlobal r).a i ∧
    (SettleGlobal r).c i = (SettleGlobal r).a i ∧
    globalRead (SettleGlobal r) i = (SettleGlobal r).a i ∧
    ∀ (offset : Nat) (src : Option (Nat → Nat)) (size : Nat),
      (globalMod offset src size r).2.b i = (globalMod offset src size r).2.a i ∧
      (globalMod offset src size r).2.c i = (globalMod offset src size r).2.a i ∧
      ((globalMod offset src size r).1 = true ↔ offset + size ≤ r.size) ∧
      ((globalMod offset src size r).1 = true → offset ≤ i → i < offset + size →
        ∀ bytes, src = some bytes → (globalMod offset src size r).2.a i = bytes (i - offset)) := by
  refine ⟨?_, ?_, ?_, rfl, ?_⟩
  · intro k
    show (if i < r.size then voteByte (r.a i) (r.b i) (r.c i) else r.a i).testBit k = _
    rw [if_pos hi, voteByte_testBit]
  · show (if i < r.size then _ else _) = (if i < r.size then _ else _)
    rw [if_pos hi, if_pos hi]
  · show (if i < r.size then _ else _) = (if i < r.size then _ else _)
    rw [if_pos hi, if_pos hi]
  · intro offset src size
    unfold globalMod
    by_cases hout : offset + size > (SettleGlobal r).size
    · simp only [if_pos hout]
      refine ⟨?_, ?_, ?_, ?_⟩
      · show (if i < r.size then _ else _) = (if i < r.size then _ else _)
        rw [if_pos hi, if_pos hi]
      · show (if i < r.size then _ else _) = (if i < r.size then _ else _)
        rw [if_pos hi, if_pos hi]
      · constructor
        · intro h
          exact absurd h (by simp)
        · intro h
          exact absurd hout (by show ¬ offset + size > r.size; omega)
      · intro h
        exact absurd h (by simp)
    · simp only [if_neg hout]
      refine ⟨?_, ?_, ?_, ?_⟩
      · by_cases hin : offset ≤ i ∧ i < offset + size
        · simp only [if_pos hin]
        · simp only [if_neg hin]
          show (if i < r.size then _ else _) = (if i < r.size then _ else _)
          rw [if_pos hi, if_pos hi]
      · by_cases hin : offset ≤ i ∧ i < offset + size
        · simp only [if_pos hin]
        · simp only [if_neg hin]
          show (if i < r.size then _ else _) = (if i < r.size then _ else _)
          rw [if_pos hi, if_pos hi]
      · constructor
        · intro _
          have : ¬ offset + size > r.size := hout
          omega
        · intro _
          trivial
      · intro _ h1 h2 bytes hsrc
        subst hsrc
        simp only [if_pos (And.intro h1 h2)]

/-- Scenario S3: with replicas `0x00`, `0xFF`, `0xFF` the three replicas become `0xFF`
and the read returns `0xFF`. -/
theorem SettleGlobal_majority_witness :
    (SettleGlobal replicasS3).a 0 = 0xFF ∧ (SettleGlobal replicasS3).b 0 = 0xFF ∧
    (SettleGlobal replicasS3).c 0 = 0xFF ∧ globalRead (SettleGlobal replicasS3) 0 = 0xFF := by
  obtain ⟨_, h2, h3, h4, _⟩ := SettleGlobal_majority replicasS3 0 (by decide)
  have ha : (SettleGlobal replicasS3).a 0 = 0xFF := by decide
  exact ⟨ha, h2.trans ha, h3.trans ha, h4.trans ha⟩

theorem storeAnomalyAll_ring (l : List (Nat × Nat)) :
    (storeAnomalyAll l csBasicTelemetryX.cleared).anomalyslot = l.length % 5 ∧
    ∀ i, i < l.length → l.length ≤ i + 5 →
      l[i]? = some ((storeAnomalyAll l csBasicTelemetryX.cleared).anomalyModeBasicInfo (i % 5),
        (storeAnomalyAll l csBasicTelemetryX.cleared).anomalyModeTime (i % 5)) := by
  induction l using List.reverseRecOn with
  | nil =>
    exact ⟨rfl, fun i hi => absurd hi (Nat.not_lt_zero i)⟩
  | append_singleton l p ih =>
    obtain ⟨hslot, hring⟩ := ih
    have hstep : storeAnomalyAll (l ++ [p]) csBasicTelemetryX.cleared =
        storeAnomalyBasicTelemetry p.1 p.2 (storeAnomalyAll l csBasicTelemetryX.cleared) := by
      unfold storeAnomalyAll
      rw [List.foldl_append]
      rfl
    rw [hstep]
    constructor
    · show ((storeAnomalyAll l csBasicTelemetryX.cleared).anomalyslot + 1) % 5 = _
      rw [hslot, List.length_append, List.length_singleton]
      omega
    · intro i hi hlen
      rw [List.length_append, List.length_singleton] at hi hlen
      show (l ++ [p])[i]? = some
        (Function.update (storeAnomalyAll l csBasicTelemetryX.cleared).anomalyModeBasicInfo
            (storeAnomalyAll l csBasicTelemetryX.cleared).anomalyslot p.1 (i % 5),
          Function.update (storeAnomalyAll l csBasicTelemetryX.cleared).anomalyModeTime
            (storeAnomalyAll l csBasicTelemetryX.cleared).anomalyslot p.2 (i % 5))
      rw [hslot]
      by_cases hil : i = l.length
      · subst hil
        rw [Function.update_same, Function.update_same, List.getElem?_append_right (le_refl _)]
        simp
      · have hne : i % 5 ≠ l.length % 5 := by omega
        rw [Function.update_noteq hne, Function.update_noteq hne,
          List.getElem?_append_left (by omega)]
        exact hring i (by omega) (by omega)

/-- C32: with `anomalyslot < 5`, `storeAnomalyBasicTelemetry(info, time)` writes `info`
and `time` at ring index `anomalyslot`, leaves the other slots and fields as they were
and sets `anomalyslot` to `(anomalyslot + 1) mod 5`, which is below 5; after `k >= 5`
stores into a cleared ring, the store number `i` of the last five (`k - 5 <= i < k`) is
held by slot `i mod 5`, so the ring holds the five most recent pairs. -/
theorem storeAnomalyBasicTelemetry_contract (info time : Nat) (b : csBasicTelemetryX)
    (_hslot : b.anomalyslot < 5) :
    (storeAnomalyBasicTelemetry info time b).anomalyModeBasicInfo b.anomalyslot = info ∧
    (storeAnomalyBasicTelemetry info time b).anomalyModeTime b.anomalyslot = time ∧
    (∀ k, k ≠ b.anomalyslot →
      (storeAnomalyBasicTelemetry info time b).anomalyModeBasicInfo k =
        b.anomalyModeBasicInfo k ∧
      (storeAnomalyBasicTelemetry info time b).anomalyModeTime k = b.anomalyModeTime k) ∧
    (storeAnomalyBasicTelemetry info time b).anomalyslot = (b.anomalyslot + 1) % 5 ∧
    (storeAnomalyBasicTelemetry info time b).anomalyslot < 5 ∧
    (storeAnomalyBasicTelemetry info time b).csSingleTelemetry = b.csSingleTelemetry ∧
    (storeAnomalyBasicTelemetry info time b).battRecentTemp = b.battRecentTemp ∧
    (storeAnomalyBasicTelemetry info time b).battDeltaTemp = b.battDeltaTemp ∧
    (storeAnomalyBasicTelemetry info time b).battSlot = b.battSlot ∧
    ∀ l : List (Nat × Nat), 5 ≤ l.length →
      ∀ i, i < l.length → l.length ≤ i + 5 →
        l[i]? = some
          ((storeAnomalyAll l csBasicTelemetryX.cleared).anomalyModeBasicInfo (i % 5),
            (storeAnomalyAll l csBasicTelemetryX.cleared).anomalyModeTime (i % 5)) := by
  refine ⟨?_, ?_, ?_, rfl, ?_, rfl, rfl, rfl, rfl, ?_⟩
  · show Function.update b.anomalyModeBasicInfo b.anomalyslot info b.anomalyslot = info
    rw [Function.update_same]
  · show Function.update b.anomalyModeTime b.anomalyslot time b.anomalyslot = time
    rw [Function.update_same]
  · intro k hk
    constructor
    · show Function.update b.anomalyModeBasicInfo b.anomalyslot info k = _
      rw [Function.update_noteq hk]
    · show Function.update b.anomalyModeTime b.anomalyslot time k = _
      rw [Function.update_noteq hk]
  · show (b.anomalyslot + 1) % 5 < 5
    omega
  · intro l _ i hi hlen
    exact (storeAnomalyAll_ring l).2 i hi hlen

/-- Six anomalies stored into a cleared ring: slot 0 holds the sixth, slot 1 still the
second. -/
theorem storeAnomalyBasicTelemetry_contract_witness :
    [(11, 100), (12, 200), (13, 300), (14, 400), (15, 500), (16, 600)][5]? = some
      ((storeAnomalyAll [(11, 100), (12, 200), (13, 300), (14, 400), (15, 500), (16, 600)]
          csBasicTelemetryX.cleared).anomalyModeBasicInfo (5 % 5),
        (storeAnomalyAll [(11, 100), (12, 200), (13, 300), (14, 400), (15, 500), (16, 600)]
          csBasicTelemetryX.cleared).anomalyModeTime (5 % 5)) :=
  (storeAnomalyBasicTelemetry_contract 0 0 csBasicTelemetryX.cleared (by decide)).2.2.2.2.2.2.2.2.2
    [(11, 100), (12, 200), (13, 300), (14, 400), (15, 500), (16, 600)] (by decide) 5
    (by decide) (by decide)

/-- C35 (failing input): a structure whose only non-zero field is `hiTime = 0x10000` of
sensor 0 passes the check: `checkInitBasicTelemetry` returns 0, because the 32-bit time
is OR-ed into the 16-bit `chk` and its set bit is cut off. -/
theorem checkInitBasicTelemetry_truncates :
    (staleHiTime.csSingleTelemetry 0).hiTime = 65536 ∧
    checkInitBasicTelemetry staleHiTime = 0 := by
  refine ⟨rfl, ?_⟩
  have hor : checkInitBasicTelemetry.or 0 0 = 0 := by decide
  have hor2 : checkInitBasicTelemetry.or 0 65536 = 0 := by decide
  unfold checkInitBasicTelemetry
  simp only [staleHiTime, csBasicTelemetryX.cleared]
  rw [foldl_zero_of_fixed _ (fun i => by
    by_cases hi : i = 0
    · simp only [hi, if_true, hor, hor2]
    · simp only [hi, if_false, hor])]
  rw [foldl_zero_of_fixed _ (fun _ => rfl), hor, foldl_zero_of_fixed _ (fun _ => rfl), hor, hor]

theorem handleTelemetryRecording_buffer_lt (fromADC : Nat → Nat) (j : Nat) :
    handleTelemetryRecording.buffer fromADC j < 4096 := by
  unfold handleTelemetryRecording.buffer
  have h : 0x0FFF &&& ((fromADC (2 * j) <<< 8) + fromADC (2 * j + 1)) ≤ 0x0FFF :=
    Nat.and_le_left
  omega

theorem handleTelemetryRecording_channels_spec (nUsing : Nat) (fromADC : Nat → Nat) :
    ∀ (fuel j arrIndex : Nat) (readings : Nat → Nat), j ≤ nUsing → nUsing ≤ j + fuel →
      arrIndex + (nUsing - j) ≤ 44 →
      (handleTelemetryRecording.channels nUsing fromADC fuel j arrIndex readings).1 =
        arrIndex + (nUsing - j) ∧
      ∀ p, (handleTelemetryRecording.channels nUsing fromADC fuel j arrIndex readings).2 p =
        if arrIndex ≤ p ∧ p < arrIndex + (nUsing - j) then
          handleTelemetryRecording.buffer fromADC (j + (p - arrIndex))
        else readings p := by
  intro fuel
  induction fuel with
  | zero =>
    intro j arrIndex readings hj hf _
    have : nUsing - j = 0 := by omega
    refine ⟨by rw [this]; rfl, fun p => ?_⟩
    rw [if_neg (by omega)]
    rfl
  | succ n ih =>
    intro j arrIndex readings hj hf harr
    unfold handleTelemetryRecording.channels
    by_cases hlt : j < nUsing
    · have hidx : arrIndex < NUM_SENSORS := by
        show arrIndex < 44
        omega
      rw [if_pos ⟨hlt, hidx⟩]
      have hmod : (arrIndex + 1) % 256 = arrIndex + 1 := by omega
      rw [hmod]
      obtain ⟨h1, h2⟩ := ih (j + 1) (arrIndex + 1)
        (Function.update readings arrIndex (handleTelemetryRecording.buffer fromADC j))
        (by omega) (by omega) (by omega)
      refine ⟨by rw [h1]; omega, fun p => ?_⟩
      rw [h2 p]
      by_cases hp : arrIndex + 1 ≤ p ∧ p < arrIndex + 1 + (nUsing - (j + 1))
      · rw [if_pos hp, if_pos (by omega)]
        congr 1
        omega
      · rw [if_neg hp]
        by_cases hpa : p = arrIndex
        · subst hpa
          rw [Function.update_same, if_pos (by omega), Nat.sub_self, Nat.add_zero]
        · rw [Function.update_noteq hpa, if_neg (by omega)]
    · have hz : nUsing - j = 0 := by omega
      rw [if_neg (fun h => hlt h.1)]
      refine ⟨by rw [hz]; rfl, fun p => ?_⟩
      rw [if_neg (by omega)]

theorem adcStart_succ (i u : Nat) (hi : i < 7) :
    adcStart i + handleTelemetryRecording.switch i u = adcStart (i + 1) ∧
    adcStart (i + 1) ≤ 44 := by
  interval_cases i <;> exact ⟨rfl, by decide⟩

theorem adcOf_range (i p : Nat) (hi : i < 7) (h1 : adcStart i ≤ p) (h2 : p < adcStart (i + 1)) :
    adcOf p = i := by
  unfold adcOf
  interval_cases i <;> simp only [adcStart] at h1 h2 <;> split_ifs <;> omega

theorem handleTelemetryRecording_adcs_spec (reads : Nat → Option (Nat → Nat)) :
    ∀ (fuel i nUsing arrIndex : Nat) (readings : Nat → Nat), i ≤ 7 → 7 ≤ i + fuel →
      arrIndex = adcStart i →
      (handleTelemetryRecording.adcs reads fuel i nUsing arrIndex readings).1 = 44 ∧
      ∀ p, (handleTelemetryRecording.adcs reads fuel i nUsing arrIndex readings).2 p =
        if adcStart i ≤ p ∧ p < 44 then adcReading reads readings p else readings p := by
  intro fuel
  induction fuel with
  | zero =>
    intro i nUsing arrIndex readings hi hf harr
    have h7 : i = 7 := by omega
    subst h7
    subst harr
    exact ⟨rfl, fun p => by rw [if_neg (by simp only [adcStart]; omega)]; rfl⟩
  | succ n ih =>
    intro i nUsing arrIndex readings hi hf harr
    subst harr
    unfold handleTelemetryRecording.adcs
    by_cases hlt : i < 7
    · rw [if_pos hlt]
      obtain ⟨hsucc, h44⟩ := adcStart_succ i nUsing hlt
      cases hr : reads i with
      | none =>
        dsimp only
        have hmod : (adcStart i + handleTelemetryRecording.switch i nUsing) % 256 =
            adcStart (i + 1) := by
          rw [hsucc]
          omega
        rw [hmod]
        obtain ⟨h1, h2⟩ := ih (i + 1) (handleTelemetryRecording.switch i nUsing)
          (adcStart (i + 1)) readings (by omega) (by omega) rfl
        refine ⟨h1, fun p => ?_⟩
        rw [h2 p]
        by_cases hp : adcStart (i + 1) ≤ p ∧ p < 44
        · rw [if_pos hp, if_pos (by omega)]
        · rw [if_neg hp]
          by_cases hp2 : adcStart i ≤ p ∧ p < 44
          · rw [if_pos hp2]
            have hof := adcOf_range i p hlt hp2.1 (by omega)
            unfold adcReading
            rw [hof, hr]
          · rw [if_neg hp2]
      | some fromADC =>
        dsimp only
        obtain ⟨c1, c2⟩ := handleTelemetryRecording_channels_spec
          (handleTelemetryRecording.switch i nUsing) fromADC
          (handleTelemetryRecording.switch i nUsing) 0 (adcStart i) readings
          (Nat.zero_le _) (by omega) (by omega)
        rw [Nat.sub_zero, hsucc] at c1
        obtain ⟨h1, h2⟩ := ih (i + 1) (handleTelemetryRecording.switch i nUsing) _ _
          (by omega) (by omega) c1
        refine ⟨h1, fun p => ?_⟩
        rw [h2 p]
        have c2p := c2 p
        rw [Nat.sub_zero, hsucc, Nat.zero_add] at c2p
        by_cases hp : adcStart (i + 1) ≤ p ∧ p < 44
        · rw [if_pos hp, if_pos (by omega)]
          unfold adcReading
          cases reads (adcOf p) with
          | none =>
            dsimp only
            rw [c2p, if_neg (by omega)]
          | some f => rfl
        · rw [if_neg hp, c2p]
          by_cases hp2 : adcStart i ≤ p ∧ p < 44
          · rw [if_pos hp2, if_pos (by omega)]
            have hof := adcOf_range i p hlt hp2.1 (by omega)
            unfold adcReading
            rw [hof, hr]
          · rw [if_neg hp2, if_neg (by omega)]
    · have h7 : i = 7 := by omega
      subst h7
      rw [if_neg hlt]
      exact ⟨rfl, fun p => by rw [if_neg (by simp only [adcStart]; omega)]⟩

/-- C33: for every pattern of ADC successes and failures and all raw bytes, the loop of
`handleTelemetryRecording` ends with the cursor at 44; every reading of the block is
below 4096; the readings of ADC `k` occupy the indices from `adcStart k` (0, 7, 13, 19,
26, 34, 38) up to the next start, whatever the other ADCs did: the 12-bit counts of its
channels when it reported, zeros when it failed; and indices from 44 on are never
written (they keep the content the array had before the loop). -/
theorem handleTelemetryRecording_readings (reads : Nat → Option (Nat → Nat)) (using0 : Nat) :
    (handleTelemetryRecording.sample reads using0).1 = 44 ∧
    (∀ p, (handleTelemetryRecording.sample reads using0).2 p < 4096) ∧
    (∀ k j, k < 7 → adcStart k + j < adcStart (k + 1) →
      (reads k = none → (handleTelemetryRecording.sample reads using0).2 (adcStart k + j) = 0) ∧
      (∀ fromADC, reads k = some fromADC →
        (handleTelemetryRecording.sample reads using0).2 (adcStart k + j) =
          0x0FFF &&& ((fromADC (2 * j) <<< 8) + fromADC (2 * j + 1)))) ∧
    (∀ k, k < 7 → adcStart k + handleTelemetryRecording.switch k using0 = adcStart (k + 1)) ∧
    (∀ (readings : Nat → Nat) (p : Nat), 44 ≤ p →
      (handleTelemetryRecording.adcs reads 7 0 using0 0 readings).2 p = readings p) := by
  obtain ⟨h1, h2⟩ := handleTelemetryRecording_adcs_spec reads 7 0 using0 0 (fun _ => 0)
    (by omega) (by omega) rfl
  refine ⟨h1, ?_, ?_, fun k hk => (adcStart_succ k using0 hk).1, ?_⟩
  · intro p
    show (handleTelemetryRecording.adcs reads 7 0 using0 0 (fun _ => 0)).2 p < 4096
    rw [h2 p]
    split_ifs
    · unfold adcReading
      split
      · exact handleTelemetryRecording_buffer_lt _ _
      · exact Nat.zero_lt_succ _
    · exact Nat.zero_lt_succ _
  · intro k j hk hj
    have h44 := (adcStart_succ k using0 hk).2
    have hof := adcOf_range k (adcStart k + j) hk (Nat.le_add_right _ _) hj
    have hval : (handleTelemetryRecording.sample reads using0).2 (adcStart k + j) =
        adcReading reads (fun _ => 0) (adcStart k + j) := by
      show (handleTelemetryRecording.adcs reads 7 0 using0 0 (fun _ => 0)).2 _ = _
      rw [h2, if_pos ⟨by simp only [adcStart]; omega, by omega⟩]
    constructor
    · intro hnone
      rw [hval]
      unfold adcReading
      rw [hof, hnone]
    · intro fromADC hsome
      rw [hval]
      unfold adcReading
      rw [hof, hsome]
      show handleTelemetryRecording.buffer fromADC (adcStart k + j - adcStart k) = _
      rw [Nat.add_sub_cancel_left]
      unfold handleTelemetryRecording.buffer
      have h : 0x0FFF &&& ((fromADC (2 * j) <<< 8) + fromADC (2 * j + 1)) ≤ 0x0FFF :=
        Nat.and_le_left
      omega
  · intro readings p hp
    rw [(handleTelemetryRecording_adcs_spec reads 7 0 using0 0 readings (by omega) (by omega)
      rfl).2 p, if_neg (by omega)]

theorem sensor_wraps (values : telemetry_block_t) (i : Nat) (t : csSingleBasicTelemetry)
    (hn : t.n = 65535) : storeBasicTelemetry.sensor values i t = none := by
  unfold storeBasicTelemetry.sensor
  simp only [hn]
  rfl

/-- C34 (failing input): 65536 blocks with 12-bit readings, far fewer than a million,
stored into a cleared structure. The first 65535 blocks are stored and leave the sample
count of every sensor at 65535; in the next call the 16-bit count wraps to 0 and is the
divisor, so the call has no result. -/
theorem storeBasicTelemetry_count_wraps :
    (List.replicate 65536 fullScaleBlock).length ≤ 1000000 ∧
    (∀ i, fullScaleBlock.readings i < 4096) ∧
    (∃ b, storeBasicTelemetryAll (List.replicate 65535 fullScaleBlock)
        csBasicTelemetryX.cleared = some b ∧
      (b.csSingleTelemetry 0).n = 65535 ∧
      storeBasicTelemetry.sensor fullScaleBlock 0 (b.csSingleTelemetry 0) = none ∧
      storeBasicTelemetry fullScaleBlock b = none) ∧
    storeBasicTelemetryAll (List.replicate 65536 fullScaleBlock) csBasicTelemetryX.cleared =
      none := by
  obtain ⟨b, hb, hn, _⟩ := storeBasicTelemetryAll_extremes (List.replicate 65535 fullScaleBlock)
    (by rw [List.length_replicate]; decide)
  have hn0 : (b.csSingleTelemetry 0).n = 65535 := by
    rw [hn 0 (by decide), List.length_replicate]
  have hs : storeBasicTelemetry.sensor fullScaleBlock 0 (b.csSingleTelemetry 0) = none :=
    sensor_wraps _ _ _ hn0
  have hstore : storeBasicTelemetry fullScaleBlock b = none := by
    cases h : storeBasicTelemetry fullScaleBlock b with
    | none => rfl
    | some b1 =>
      have := storeBasicTelemetry_singles_of_some fullScaleBlock b b1 h 0 (by decide)
      rw [hs] at this
      exact absurd this (by simp)
  refine ⟨by rw [List.length_replicate]; decide,
    fun _ => (by decide : (4095 : Nat) < 4096), ⟨b, hb, hn0, hs, hstore⟩, ?_⟩
  have hsplit : List.replicate 65536 fullScaleBlock =
      List.replicate 65535 fullScaleBlock ++ [fullScaleBlock] :=
    List.replicate_succ' 65535 fullScaleBlock
  rw [hsplit, storeBasicTelemetryAll_append, hb, Option.some_bind, hstore]

theorem sensor_order (values : telemetry_block_t) (i : Nat) (t t1 : csSingleBasicTelemetry)
    (hn : t.n < 65535) (hr : values.readings i < 65536)
    (hinv : t.n ≠ 0 → t.lowVal ≤ t.avg ∧ t.avg ≤ t.hiVal ∧ t.hiVal < 65536)
    (havg0 : t.n = 0 → t.avg < 65536)
    (h : storeBasicTelemetry.sensor values i t = some t1) :
    t1.n = t.n + 1 ∧ t1.lowVal ≤ t1.avg ∧ t1.avg ≤ t1.hiVal ∧ t1.hiVal < 65536 := by
  have havg : t.avg < 65536 := by
    by_cases h0 : t.n = 0
    · exact havg0 h0
    · have := hinv h0
      omega
  obtain ⟨_, ta, hta, hna, hava⟩ := sensor_average values i t hn havg hr
  obtain ⟨tf, htf, _, _, hhi1, hhi2, hlo1, hlo2⟩ := sensor_fields values i t hn
  rw [h, Option.some.injEq] at hta htf
  subst hta
  subst htf
  refine ⟨hna, ?_, ?_, ?_⟩
  · rw [hava, Nat.le_div_iff_mul_le (Nat.succ_pos _)]
    by_cases hc : values.readings i ≤ t.lowVal ∨ t.n = 0
    · rw [(hlo1 hc).1]
      rcases hc with hc | hc
      · by_cases h0 : t.n = 0
        · rw [h0]
          omega
        · have := hinv h0
          nlinarith [Nat.mul_le_mul_right t.n (le_trans hc this.1)]
      · rw [hc]
        omega
    · rw [(hlo2 hc).1]
      have h0 : t.n ≠ 0 := fun h0 => hc (Or.inr h0)
      have := hinv h0
      have hlt : t.lowVal ≤ values.readings i := by omega
      nlinarith [Nat.mul_le_mul_right t.n this.1]
  · rw [hava]
    apply Nat.div_le_of_le_mul
    by_cases hc : values.readings i ≥ t.hiVal ∨ t.n = 0
    · rw [(hhi1 hc).1]
      rcases hc with hc | hc
      · by_cases h0 : t.n = 0
        · rw [h0]
          omega
        · have := hinv h0
          nlinarith [Nat.mul_le_mul_right t.n (le_trans this.2.1 hc)]
      · rw [hc]
        omega
    · rw [(hhi2 hc).1]
      have h0 : t.n ≠ 0 := fun h0 => hc (Or.inr h0)
      have := hinv h0
      have hlt : values.readings i ≤ t.hiVal := by omega
      nlinarith [Nat.mul_le_mul_right t.n this.2.1]
  · by_cases hc : values.readings i ≥ t.hiVal ∨ t.n = 0
    · rw [(hhi1 hc).1]
      exact hr
    · rw [(hhi2 hc).1]
      exact (hinv (fun h0 => hc (Or.inr h0))).2.2

theorem storeBasicTelemetryAll_order (l : List telemetry_block_t) :
    l.length < 65536 → (∀ v, v ∈ l → ∀ i, i < 44 → v.readings i < 65536) →
    ∃ b, storeBasicTelemetryAll l csBasicTelemetryX.cleared = some b ∧
      ∀ i, i < 44 → (b.csSingleTelemetry i).n = l.length ∧
        ((b.csSingleTelemetry i).n = 0 → (b.csSingleTelemetry i).avg < 65536) ∧
        (l ≠ [] → (b.csSingleTelemetry i).lowVal ≤ (b.csSingleTelemetry i).avg ∧
          (b.csSingleTelemetry i).avg ≤ (b.csSingleTelemetry i).hiVal ∧
          (b.csSingleTelemetry i).hiVal < 65536) := by
  induction l using List.reverseRecOn with
  | nil =>
    intro _ _
    exact ⟨csBasicTelemetryX.cleared, rfl, fun i _ => ⟨rfl,
      fun _ => (by decide : (0 : Nat) < 65536), fun h => absurd rfl h⟩⟩
  | append_singleton l v ih =>
    intro hlen hr
    rw [List.length_append, List.length_singleton] at hlen
    obtain ⟨b, hb, hinv⟩ := ih (by omega) (fun w hw => hr w (List.mem_append_left _ hw))
    have hrv : ∀ i, i < 44 → v.readings i < 65536 :=
      hr v (List.mem_append_right _ (List.mem_singleton_self v))
    have hn : ∀ i, i < 44 → (b.csSingleTelemetry i).n < 65535 := by
      intro i hi
      rw [(hinv i hi).1]
      omega
    obtain ⟨b1, hb1, hsing⟩ := storeBasicTelemetry_singles v b (by
      intro j hj
      obtain ⟨t, ht, _⟩ := sensor_fields v j (b.csSingleTelemetry j) (hn j hj)
      exact ⟨t, ht⟩)
    refine ⟨b1, by rw [storeBasicTelemetryAll_append, hb, Option.some_bind, hb1], ?_⟩
    intro i hi
    obtain ⟨h1, h2, h3⟩ := hinv i hi
    obtain ⟨o1, o2, o3, o4⟩ := sensor_order v i (b.csSingleTelemetry i) (b1.csSingleTelemetry i)
      (hn i hi) (hrv i hi)
      (fun h0 => h3 (by
        intro hnil
        rw [hnil] at h1
        exact h0 h1))
      h2 (hsing i hi)
    refine ⟨by rw [o1, h1, List.length_append, List.length_singleton], ?_, fun _ => ⟨o2, o3, o4⟩⟩
    intro h0
    omega

/-- C39: starting from a cleared structure, after `storeBasicTelemetry` has been applied
to a sequence of between 1 and 65535 blocks with 16-bit readings, the run has a result
and every sensor satisfies `lowVal <= avg <= hiVal`. -/
theorem storeBasicTelemetry_order (blocks : List telemetry_block_t) (hne : blocks ≠ [])
    (hlen : blocks.length < 65536)
    (hr : ∀ v, v ∈ blocks → ∀ i, i < 44 → v.readings i < 65536) :
    ∃ b, storeBasicTelemetryAll blocks csBasicTelemetryX.cleared = some b ∧
      ∀ i, i < 44 →
        (b.csSingleTelemetry i).lowVal ≤ (b.csSingleTelemetry i).avg ∧
        (b.csSingleTelemetry i).avg ≤ (b.csSingleTelemetry i).hiVal := by
  obtain ⟨b, hb, hinv⟩ := storeBasicTelemetryAll_order blocks hlen hr
  exact ⟨b, hb, fun i hi => ⟨((hinv i hi).2.2 hne).1, ((hinv i hi).2.2 hne).2.1⟩⟩

/-- Readings 10 then 4095 of every sensor: the average 2052 lies between 10 and 4095. -/
theorem storeBasicTelemetry_order_witness :
    ∃ b, storeBasicTelemetryAll [{ epoch := 1, readings := fun _ => 10 }, fullScaleBlock]
        csBasicTelemetryX.cleared = some b ∧
      ∀ i, i < 44 →
        (b.csSingleTelemetry i).lowVal ≤ (b.csSingleTelemetry i).avg ∧
        (b.csSingleTelemetry i).avg ≤ (b.csSingleTelemetry i).hiVal :=
  storeBasicTelemetry_order [{ epoch := 1, readings := fun _ => 10 }, fullScaleBlock]
    (by simp) (by decide) (by
      intro v hv i _
      simp only [List.mem_cons, List.mem_singleton, List.not_mem_nil, or_false] at hv
      rcases hv with h | h
      · subst h
        exact (by decide : (10 : Nat) < 65536)
      · subst h
        exact (by decide : (4095 : Nat) < 65536))

theorem respPollUpdatePending_dropped (e : resp_poll_t) (s : response_poll_t)
    (hfull : s.head = 66)
    (hid : ∀ j, j < s.head → (s.poll_queue j).cmd_ID ≠ e.cmd_ID)
    (himm : ∀ j, j < s.head → (s.poll_queue j).type ≠ IMMEDIATE) :
    respPollUpdatePending e s = s := by
  unfold respPollUpdatePending
  rw [updatePending_scan_none e.cmd_ID s.head s.head 0 s (fun j _ hj => hid j hj)]
  unfold respPollEnqueue
  have hscan := enqueue_scan_none s.head s.head 0 s (fun j _ hj => himm j hj)
  simp only [hfull, POLL_SIZE] at hscan ⊢
  rw [if_pos trivial, hscan, if_neg (by rw [hfull]; decide)]

/-- C36 (as amended): after `respPollUpdatePending(e)` on a poll with `head <= 66` the
queue holds `e` (as its last entry) whenever an entry with `e`'s `cmd_ID` was present,
or the poll had fewer than 66 entries, or it held an `IMMEDIATE` entry; on a full poll
without an entry of that `cmd_ID` and without an `IMMEDIATE` entry the poll is left
unchanged and does not hold `e`. -/
theorem respPollUpdatePending_keeps_receipt (e : resp_poll_t) (s : response_poll_t)
    (hhead : s.head ≤ 66) :
    (((∃ j, j < s.head ∧ (s.poll_queue j).cmd_ID = e.cmd_ID) ∨ s.head < 66 ∨
        ∃ j, j < s.head ∧ (s.poll_queue j).type = IMMEDIATE) →
      e ∈ queue (respPollUpdatePending e s) ∧
      (queue (respPollUpdatePending e s)).getLast? = some e) ∧
    ((∀ j, j < s.head → (s.poll_queue j).cmd_ID ≠ e.cmd_ID) → s.head = 66 →
      (∀ j, j < s.head → (s.poll_queue j).type ≠ IMMEDIATE) →
      respPollUpdatePending e s = s ∧ e ∉ queue (respPollUpdatePending e s)) := by
  have hlen : (queue s).length ≤ 66 := by rw [queue_length]; exact hhead
  constructor
  · intro h
    rw [queue_updatePending e s hhead]
    have hlast : ∀ l : List resp_poll_t, (l ++ [e]).getLast? = some e := by
      intro l
      simp
    by_cases hex : ∃ j, j < s.head ∧ (s.poll_queue j).cmd_ID = e.cmd_ID
    · obtain ⟨j, hj, hc⟩ := hex
      have hx : s.poll_queue j ∈ queue s := (mem_queue s _).2 ⟨j, hj, rfl⟩
      rw [updatePendingL_of_mem e (queue s) hlen (s.poll_queue j) hx (by simp [hasId, hc])]
      exact ⟨by simp, hlast _⟩
    · have hnone : ∀ x, x ∈ queue s → ¬ hasId e.cmd_ID x = true := by
        intro x hx hid
        obtain ⟨j, hj, rfl⟩ := (mem_queue s x).1 hx
        exact hex ⟨j, hj, by simpa [hasId] using hid⟩
      have herase : (queue s).eraseP (hasId e.cmd_ID) = queue s :=
        List.eraseP_of_forall_not hnone
      unfold updatePendingL
      rw [herase]
      rcases h with h | h | h
      · exact absurd h hex
      · rw [enqueueL_of_lt e (queue s) (by rw [queue_length]; exact h)]
        exact ⟨by simp, hlast _⟩
      · obtain ⟨j, hj, ht⟩ := h
        by_cases hlt : s.head < 66
        · rw [enqueueL_of_lt e (queue s) (by rw [queue_length]; exact hlt)]
          exact ⟨by simp, hlast _⟩
        · have hfull : (queue s).length = POLL_SIZE := by
            rw [queue_length]
            show s.head = 66
            omega
          have himm : s.poll_queue j ∈ queue s := (mem_queue s _).2 ⟨j, hj, rfl⟩
          have hlen2 : ((queue s).eraseP isImmediate).length < POLL_SIZE := by
            rw [List.length_eraseP_of_mem himm (by simp [isImmediate, ht]), hfull]
            decide
          unfold enqueueL
          simp only [hfull, if_true, hlen2]
          exact ⟨by simp, hlast _⟩
  · intro hid hfull himm
    have hsame := respPollUpdatePending_dropped e s hfull hid himm
    refine ⟨hsame, ?_⟩
    rw [hsame]
    intro hmem
    obtain ⟨j, hj, hx⟩ := (mem_queue s e).1 hmem
    exact hid j hj (by rw [hx])

/-- The poll of three entries: the receipt of command 22, whose pending entry is in the
poll, ends up as the last entry. -/
theorem respPollUpdatePending_keeps_receipt_witness :
    pollTwoPending.head ≤ 66 ∧
    (∀ e : resp_poll_t, e.cmd_ID = (pollTwoPending.poll_queue 1).cmd_ID →
      e ∈ queue (respPollUpdatePending e pollTwoPending)) :=
  ⟨by decide, fun e he =>
    ((respPollUpdatePending_keeps_receipt e pollTwoPending (by decide)).1
      (Or.inl ⟨1, by decide, he.symm⟩)).1⟩

/-- C36 (counterexample): on a full poll of 66 `PENDING_COMPLETE` entries for command 1,
the receipt of command 2 is dropped: after `respPollUpdatePending` the poll is the same
and does not hold the receipt. -/
theorem respPollUpdatePending_counterexample :
    pollFullComplete.head ≤ 66 ∧
    respPollUpdatePending receiptTwo pollFullComplete = pollFullComplete ∧
    receiptTwo ∉ queue (respPollUpdatePending receiptTwo pollFullComplete) := by
  have hsame : respPollUpdatePending receiptTwo pollFullComplete = pollFullComplete :=
    respPollUpdatePending_dropped receiptTwo pollFullComplete rfl
      (fun _ _ => (by decide : (1 : Nat) ≠ 2))
      (fun _ _ => (by decide : response_cmd_type_t.PENDING_COMPLETE ≠ IMMEDIATE))
  refine ⟨by decide, hsame, ?_⟩
  rw [hsame]
  intro hmem
  obtain ⟨j, _, hx⟩ := (mem_queue pollFullComplete receiptTwo).1 hmem
  have : (pollFullComplete.poll_queue j).cmd_ID = receiptTwo.cmd_ID := by rw [hx]
  exact absurd this (by decide : (1 : Nat) ≠ 2)

theorem respPollAbort_loop_mono (al : resp_poll_t) :
    ∀ (fuel i : Nat) (s r : response_poll_t), respPollAbort.loop al fuel i s = some r →
      ∀ k, respPollAbort.loop al (fuel + k) i s = some r := by
  intro fuel
  induction fuel with
  | zero =>
    intro i s r h
    simp [respPollAbort.loop] at h
  | succ n ih =>
    intro i s r h k
    rw [show n + 1 + k = (n + k) + 1 by omega]
    unfold respPollAbort.loop at h ⊢
    by_cases hlt : i < s.head
    · rw [if_pos hlt] at h ⊢
      by_cases hu : (s.poll_queue i).type = PENDING ∧ (s.poll_queue i).status = 42
      · rw [if_pos hu] at h ⊢
        exact ih _ _ _ h k
      · rw [if_neg hu] at h ⊢
        exact ih _ _ _ h k
    · rw [if_neg hlt] at h ⊢
      exact h

theorem respPollUpdatePending_measure (al : resp_poll_t) (hal : isUnexecuted al = false)
    (t : response_poll_t) (i : Nat) (hhead : t.head ≤ 66) (hi : i < t.head)
    (hu : isUnexecuted (t.poll_queue i) = true) :
    (respPollUpdatePending { al with cmd_ID := (t.poll_queue i).cmd_ID } t).head = t.head ∧
    ((queue (respPollUpdatePending { al with cmd_ID := (t.poll_queue i).cmd_ID } t)).drop
        i).countP isUnexecuted + 1 =
      ((queue t).drop i).countP isUnexecuted := by
  have hlen : (queue t).length ≤ 66 := by rw [queue_length]; exact hhead
  have hil : i < (queue t).length := by rw [queue_length]; exact hi
  have hget : (queue t)[i] = t.poll_queue i := queue_getElem t i hil
  have hq : queue (respPollUpdatePending { al with cmd_ID := (t.poll_queue i).cmd_ID } t) =
      (queue t).eraseP (hasId (t.poll_queue i).cmd_ID) ++
        [{ al with cmd_ID := (t.poll_queue i).cmd_ID }] := by
    rw [queue_updatePending _ t hhead]
    have := updatePendingL_at al (queue t) i hil hlen
    rw [hget] at this
    exact this
  have he : isUnexecuted { al with cmd_ID := (t.poll_queue i).cmd_ID } = false := by
    simpa [isUnexecuted] using hal
  constructor
  · rw [← queue_length, hq, ← queue_length t]
    have := length_rewrite al (queue t) i hil
    rw [hget] at this
    exact this
  · rw [hq]
    have hd := drop_rewrite { al with cmd_ID := (t.poll_queue i).cmd_ID } (queue t) i hil
    rw [hget] at hd
    rw [hd, List.countP_append, List.drop_eq_getElem_cons hil, List.countP_cons, hget]
    simp [he, hu]

/-- C37: for a poll with `head <= 66`, `respPollAbort` returns: its scan loop ends within
`2 * head + 1` iterations (`head` taken after the abort line is enqueued), and a larger
budget gives the same result. Each rewrite of an unexecuted pending entry at the current
index through `respPollUpdatePending` keeps `head` and reduces by one the number of
unexecuted pending entries at or after the index. -/
theorem respPollAbort_terminates (status time : Nat) (s : response_poll_t)
    (hhead : s.head ≤ 66) :
    (∃ r, respPollAbort status time s = some r ∧
      ∀ fuel, 2 * (respPollEnqueue (abortMarker status time) s).head + 1 ≤ fuel →
        respPollAbort.loop (abortMarker status time) fuel 0
          (respPollEnqueue (abortMarker status time) s) = some r) ∧
    ∀ (t : response_poll_t) (i : Nat), t.head ≤ 66 → i < t.head →
      isUnexecuted (t.poll_queue i) = true →
      (respPollUpdatePending
        { abortMarker status time with cmd_ID := (t.poll_queue i).cmd_ID } t).head = t.head ∧
      ((queue (respPollUpdatePending
        { abortMarker status time with cmd_ID := (t.poll_queue i).cmd_ID } t)).drop
          i).countP isUnexecuted + 1 =
        ((queue t).drop i).countP isUnexecuted := by
  constructor
  · obtain ⟨r, hr, _⟩ := respPollAbort_some status time s hhead
    refine ⟨r, hr, ?_⟩
    intro fuel hf
    obtain ⟨k, hk⟩ := Nat.exists_eq_add_of_le hf
    rw [hk]
    exact respPollAbort_loop_mono _ _ _ _ _ hr k
  · intro t i ht hi hu
    exact respPollUpdatePending_measure (abortMarker status time)
      (by simp [isUnexecuted, abortMarker]) t i ht hi hu

/-- Abort with status 3 on the poll of three entries: the call returns. -/
theorem respPollAbort_terminates_witness :
    pollTwoPending.head ≤ 66 ∧ ∃ r, respPollAbort 3 1000 pollTwoPending = some r :=
  ⟨by decide, (respPollAbort_terminates 3 1000 pollTwoPending (by decide)).1.imp
    fun _ h => h.1⟩

theorem statMon_step_invariant (step : statMon_step) (g : GlobalX) (h : notBothPending g) :
    notBothPending (step.run g) := by
  unfold notBothPending at h ⊢
  cases step with
  | tick =>
    show ¬ ((handleTelemetryRecording.tick g).csState.statMonState =
        StatMonState.PENDING_PROCESS ∧
      (handleTelemetryRecording.tick g).csState.statMonPrevState =
        StatMonState.PENDING_PROCESS)
    unfold handleTelemetryRecording.tick
    by_cases hs : g.csState.statMonState ≠ StatMonState.PENDING_PROCESS
    · rw [if_pos hs]
      intro hboth
      exact hs hboth.2
    · rw [if_neg hs]
      exact h
  | allQuiet =>
    intro hboth
    exact absurd hboth.1 (by
      show StatMonState.ALL_QUIET ≠ StatMonState.PENDING_PROCESS
      decide)
  | beaconOn =>
    intro hboth
    exact absurd hboth.1 (by
      show StatMonState.BEACON_ON ≠ StatMonState.PENDING_PROCESS
      decide)
  | diagnosticCheck =>
    intro hboth
    exact absurd hboth.1 (by
      show StatMonState.DIAGNOSTIC_CHECK ≠ StatMonState.PENDING_PROCESS
      decide)
  | toPrevious =>
    show ¬ ((pendingProcess.leave g).csState.statMonState = StatMonState.PENDING_PROCESS ∧
      (pendingProcess.leave g).csState.statMonPrevState = StatMonState.PENDING_PROCESS)
    unfold pendingProcess.leave
    by_cases hs : g.csState.statMonState = StatMonState.PENDING_PROCESS
    · rw [if_pos hs]
      intro hboth
      exact h ⟨hs, hboth.1⟩
    · rw [if_neg hs]
      exact h

theorem runStatMonSteps_invariant (steps : List statMon_step) :
    ∀ g : GlobalX, notBothPending g → notBothPending (runStatMonSteps steps g) := by
  induction steps with
  | nil =>
    intro g h
    exact h
  | cons step rest ih =>
    intro g h
    exact ih (step.run g) (statMon_step_invariant step g h)

theorem pendingProcess_leaves (now status0 : Nat) (w w1 : World)
    (hstate : w.g.csState.statMonState = StatMonState.PENDING_PROCESS)
    (h : pendingProcess now status0 w = some w1) :
    w1.g.csState.statMonState = w.g.csState.statMonPrevState := by
  have hrev : ∀ v : World, v.g.csState = w.g.csState →
      (pendingProcess.revert v).g.csState.statMonState = w.g.csState.statMonPrevState := by
    intro v hv
    rw [((revert_frame v).2.2.2.2 (by rw [hv]; exact hstate)).1, hv]
  rcases pendingProcess_cases now status0 w w1 h with
    ⟨_, h1⟩ | ⟨_, ⟨g2, h1, hst, _⟩ | h1 | ⟨v, hv, h1⟩⟩
  · rw [h1]
    exact hrev w rfl
  · rw [h1]
    exact hrev _ (by rw [(beaconMsgUpdateSingle_frame _ _ _).1, hst])
  · rw [h1]
    exact hrev _ (normalize_frame now w.g).2.2.2.2.2.1
  · rw [h1]
    obtain ⟨cmd, rest, _, _, hst, _⟩ := execute_frame now _ v hv
    exact hrev v (by rw [hst]; exact (normalize_frame now w.g).2.2.2.2.2.1)

/-- C38: from a store in which `statMonState` and `statMonPrevState` are not both
`PENDING_PROCESS`, every sequence of ticks, timer callbacks and returns from
`pendingProcess` leads to a store with the same property; hence every `pendingProcess`
call made there in `PENDING_PROCESS` ends in another sub-state. -/
theorem statMon_not_both_pending (steps : List statMon_step) (g : GlobalX)
    (h : notBothPending g) :
    ¬ ((runStatMonSteps steps g).csState.statMonState = StatMonState.PENDING_PROCESS ∧
      (runStatMonSteps steps g).csState.statMonPrevState = StatMonState.PENDING_PROCESS) ∧
    ((runStatMonSteps steps g).csState.statMonState = StatMonState.PENDING_PROCESS →
      (pendingProcess.leave (runStatMonSteps steps g)).csState.statMonState ≠
          StatMonState.PENDING_PROCESS ∧
      ∀ (now status0 : Nat) (calls : List hw_call) (w1 : World),
        pendingProcess now status0 { g := runStatMonSteps steps g, calls := calls } = some w1 →
        w1.g.csState.statMonState ≠ StatMonState.PENDING_PROCESS) := by
  have hinv := runStatMonSteps_invariant steps g h
  refine ⟨hinv, fun hs => ⟨?_, ?_⟩⟩
  · unfold pendingProcess.leave
    rw [if_pos hs]
    intro hp
    exact hinv ⟨hs, hp⟩
  · intro now status0 calls w1 hw1
    rw [pendingProcess_leaves now status0 _ w1 hs hw1]
    intro hp
    exact hinv ⟨hs, hp⟩

/-- From the resting store (in `PENDING_PROCESS`, previous sub-state `ALL_QUIET`): return,
callback to `BEACON_ON`, tick; the store is in `PENDING_PROCESS` with previous sub-state
`BEACON_ON`. -/
theorem statMon_not_both_pending_witness :
    ¬ ((runStatMonSteps [statMon_step.toPrevious, statMon_step.beaconOn, statMon_step.tick]
        zeroGlobal).csState.statMonState = StatMonState.PENDING_PROCESS ∧
      (runStatMonSteps [statMon_step.toPrevious, statMon_step.beaconOn, statMon_step.tick]
        zeroGlobal).csState.statMonPrevState = StatMonState.PENDING_PROCESS) :=
  (statMon_not_both_pending [statMon_step.toPrevious, statMon_step.beaconOn, statMon_step.tick]
    zeroGlobal (by unfold notBothPending; decide)).1

/-- C40 (as amended): for a condition whose sensor id is neither 254 nor 255, `checkCond`
reads `csLastTelemetry.reading[sensor_id]` without a range check: the read is inside the
44-element array, and the comparison has a result, when `sensor_id < 44`; for
`sensor_id >= 44` the read is outside the array. -/
theorem checkCond_index (now : Nat) (g : GlobalX) (c : condition_t)
    (h254 : c.sensor_id ≠ 254) (h255 : c.sensor_id ≠ 255) :
    (c.sensor_id < 44 →
      checkCond.sensor_val now g c = some (g.csLastTelemetry.reading c.sensor_id) ∧
      ∃ b, checkCond now g c = some b) ∧
    (44 ≤ c.sensor_id → checkCond.sensor_val now g c = none ∧ checkCond now g c = none) := by
  have hval : checkCond.sensor_val now g c =
      if c.sensor_id < 44 then some (g.csLastTelemetry.reading c.sensor_id) else none := by
    unfold checkCond.sensor_val
    rw [if_neg (show ¬ c.sensor_id = PSENSOR_COMMAND_RELATIVE_TIME from h254),
      if_neg (show ¬ c.sensor_id = PSENSOR_ABSOLUTE_TIME from h255)]
    rfl
  constructor
  · intro hlt
    rw [if_pos hlt] at hval
    refine ⟨hval, ?_⟩
    unfold checkCond
    rw [hval]
    exact ⟨_, rfl⟩
  · intro hge
    rw [if_neg (by omega)] at hval
    refine ⟨hval, ?_⟩
    unfold checkCond
    rw [hval]
    rfl

/-- Sensor 10 is read inside the array. -/
theorem checkCond_index_witness :
    checkCond.sensor_val 1000 zeroGlobal
        { sensor_id := 10, comparator := comparator_t.GREATER, value := 500 } =
      some (zeroGlobal.csLastTelemetry.reading 10) :=
  ((checkCond_index 1000 zeroGlobal
    { sensor_id := 10, comparator := comparator_t.GREATER, value := 500 }
    (by decide) (by decide)).1 (by decide)).1

/-- C40 (counterexample): the condition `reading[100] > 500` has a sensor id that is
neither 254 nor 255, and its lookup is outside the 44-element array. -/
theorem checkCond_index_counterexample :
    (100 : Nat) ≠ 254 ∧ (100 : Nat) ≠ 255 ∧ ¬ (100 : Nat) < NUM_READINGS ∧
    checkCond.sensor_val 1000 zeroGlobal
      { sensor_id := 100, comparator := comparator_t.GREATER, value := 500 } = none ∧
    checkCond 1000 zeroGlobal
      { sensor_id := 100, comparator := comparator_t.GREATER, value := 500 } = none := by
  decide

end CubeSat
